import Mathlib

/-!
# Cough detection pipeline: embedding and verified properties

A shallow embedding of the native detection pipeline
(`tensorflow_wrapper.cpp`, `audio_recorder.cpp`, `cough_detect_engine.cpp`).

Conventions of the embedding

* `float`/`double` values are elements of an arbitrary linearly ordered field `α`
  (exact arithmetic, no rounding); the definitions run at `α = ℚ` and are
  instantiated at `α = ℝ` for statements about trigonometric inputs.
* The `<cmath>` functions the code calls (`cos`, `sin`, `sqrt`, also inside
  `std::abs(std::complex)`, `log`, `log10`, the constant `M_PI`) are the fields
  of a record `CMath α` passed to the functions that use them.
* A call that may raise a `std::exception` has its outcome as a parameter
  (`DeviceReply`, `OpenReply`, `ModelLoad`, `Except String _`); exceptions of other
  types are outside the model.
* `std::vector<float>` is `List α`; loops over `0 .. size-1` are folds over
  `List.range`.
* Logging, timing and the throttling counters of the log statements are not
  part of the model.
-/

namespace coughdetect

/-! ## Numeric environment -/

/-- The `<cmath>` functions used by the feature extraction. -/
structure CMath (α : Type) where
  /-- The constant `M_PI`. -/
  pi : α
  /-- The function `std::cos`. -/
  cos : α → α
  /-- The function `std::sin`. -/
  sin : α → α
  /-- The square root behind `std::abs` of a complex number. -/
  sqrt : α → α
  /-- The function `std::log`. -/
  log : α → α
  /-- The function `std::log10`. -/
  log10 : α → α

namespace YAMNetConfig

/-- Sample rate constant of `struct YAMNetConfig`. -/
def SAMPLE_RATE : ℕ := 16000

/-- Lower edge of the mel band, `YAMNetConfig::MEL_MIN_FREQ`. -/
def MEL_MIN_FREQ : ℕ := 125

/-- Upper edge of the mel band, `YAMNetConfig::MEL_MAX_FREQ`. -/
def MEL_MAX_FREQ : ℕ := 7500

/-- Number of classes of the 521-way model, `YAMNetConfig::NUM_CLASSES`. -/
def NUM_CLASSES : ℕ := 521

end YAMNetConfig

namespace CoughClasses

/-- Class index `CoughClasses::COUGH`. -/
def COUGH : ℕ := 0

/-- Class index `CoughClasses::THROAT_CLEARING`. -/
def THROAT_CLEARING : ℕ := 1

/-- Class index `CoughClasses::SNEEZE`. -/
def SNEEZE : ℕ := 2

/-- Class index `CoughClasses::SNIFF`. -/
def SNIFF : ℕ := 3

/-- Class index `CoughClasses::BURP`. -/
def BURP : ℕ := 4

/-- Class index `CoughClasses::BELCH`. -/
def BELCH : ℕ := 5

end CoughClasses

/-- The struct `DetectionResult` of `tensorflow_wrapper.h`. -/
structure DetectionResult (α : Type) where
  isCough : Bool
  confidence : α
  features : List α
  classProbabilities : List α

section Features

variable {α : Type} [LinearOrderedField α]

/-! ## Feature extraction (`tensorflow_wrapper.cpp`, lines 514-614) -/

/-- Magnitude of a complex number `(re, im)`: `std::abs(std::complex<float>)`. -/
def complexAbs (m : CMath α) (z : α × α) : α :=
  m.sqrt (z.1 * z.1 + z.2 * z.2)

/-- The direct transform `performSimpleFFT`: for each bin `k`, the sum over `t`
of `audioData[t] * (cos angle, sin angle)` with `angle = -2 * M_PI * k * t / n`. -/
def performSimpleFFT (m : CMath α) (audioData : List α) : List (α × α) :=
  let n := audioData.length
  (List.range n).map fun (k : ℕ) =>
    (List.range n).foldl
      (fun (sum : α × α) (t : ℕ) =>
        let angle : α := -2 * m.pi * (k : α) * (t : α) / (n : α)
        let phase : α × α := (m.cos angle, m.sin angle)
        (sum.1 + audioData.getD t 0 * phase.1, sum.2 + audioData.getD t 0 * phase.2))
      (0, 0)

/-- The feature `calculateAmplitude`: mean of the absolute sample values. -/
def calculateAmplitude (audioData : List α) : α :=
  if audioData.isEmpty then 0
  else
    let sum := audioData.foldl (fun sum sample => sum + |sample|) 0
    sum / (audioData.length : α)

/-- The feature `calculateZeroCrossingRate`: the loop runs over `i = 1 .. size-1`
and the count is divided by `size`. -/
def calculateZeroCrossingRate (audioData : List α) : α :=
  if audioData.length < 2 then 0
  else
    let crossings : ℕ := (List.range' 1 (audioData.length - 1)).foldl
      (fun (crossings : ℕ) (i : ℕ) =>
        if decide (audioData.getD i 0 ≥ 0) != decide (audioData.getD (i - 1) 0 ≥ 0)
        then crossings + 1 else crossings)
      0
    (crossings : α) / (audioData.length : α)

/-- The feature `calculateSpectralCentroid`: the loop runs over every bin of the
transform and accumulates `(weightedSum, magnitudeSum)`. -/
def calculateSpectralCentroid (m : CMath α) (audioData : List α) : α :=
  if audioData.isEmpty then 0
  else
    let fft := performSimpleFFT m audioData
    let sums := (List.range fft.length).foldl
      (fun (acc : α × α) (i : ℕ) =>
        let magnitude := complexAbs m (fft.getD i (0, 0))
        let frequency : α := (i : α) * (YAMNetConfig.SAMPLE_RATE : α) / (fft.length : α)
        (acc.1 + frequency * magnitude, acc.2 + magnitude))
      (0, 0)
    if sums.2 > 0 then sums.1 / sums.2 else 0

/-- The second loop of `calculateSpectralRolloff`: index of the first bin at which
the running sum reaches `threshold`, or `none` when the loop runs to its end. -/
def rolloffScan (threshold : α) : List α → ℕ → α → Option ℕ
  | [], _, _ => none
  | magnitude :: rest, i, cumulativeEnergy =>
    if cumulativeEnergy + magnitude ≥ threshold then some i
    else rolloffScan threshold rest (i + 1) (cumulativeEnergy + magnitude)

/-- The feature `calculateSpectralRolloff`. -/
def calculateSpectralRolloff (m : CMath α) (audioData : List α) : α :=
  if audioData.isEmpty then 0
  else
    let fft := performSimpleFFT m audioData
    let magnitudes := fft.map (complexAbs m)
    let totalEnergy := magnitudes.foldl (fun acc x => acc + x) 0
    let threshold := totalEnergy * 0.85
    match rolloffScan threshold magnitudes 0 0 with
    | some i => (i : α) * (YAMNetConfig.SAMPLE_RATE : α) / (magnitudes.length : α)
    | none => (YAMNetConfig.SAMPLE_RATE : α) / 2

/-- The feature `calculateMFCC`: log of the summed magnitude of the bins whose
frequency lies in `[MEL_MIN_FREQ, MEL_MAX_FREQ]`. -/
def calculateMFCC (m : CMath α) (audioData : List α) : α :=
  if audioData.isEmpty then 0
  else
    let fft := performSimpleFFT m audioData
    let melEnergy := (List.range fft.length).foldl
      (fun (melEnergy : α) (i : ℕ) =>
        let frequency : α := (i : α) * (YAMNetConfig.SAMPLE_RATE : α) / (fft.length : α)
        if frequency ≥ (YAMNetConfig.MEL_MIN_FREQ : α) ∧ frequency ≤ (YAMNetConfig.MEL_MAX_FREQ : α)
        then melEnergy + complexAbs m (fft.getD i (0, 0)) else melEnergy)
      0
    if melEnergy > 0 then m.log melEnergy else 0

/-! ## Rule-based classifier (`detectCoughRuleBased`, lines 400-512) -/

/-- The five booleans computed at lines 425-429. -/
structure Indicators where
  hasHighAmplitude : Bool
  hasModerateZCR : Bool
  hasHighFrequencyContent : Bool
  hasAppropriateRolloff : Bool
  hasCoughMFCC : Bool
  deriving DecidableEq

/-- Lines 425-429 of `detectCoughRuleBased`: the thresholds on the five features. -/
def indicatorsOf (amplitude zeroCrossingRate spectralCentroid spectralRolloff mfcc : α) :
    Indicators where
  hasHighAmplitude := decide (amplitude > 0.08)
  hasModerateZCR := decide (zeroCrossingRate > 0.03) && decide (zeroCrossingRate < 0.25)
  hasHighFrequencyContent := decide (spectralCentroid > 800) && decide (spectralCentroid < 3000)
  hasAppropriateRolloff := decide (spectralRolloff > 2000) && decide (spectralRolloff < 6000)
  hasCoughMFCC := decide (mfcc > 0.1)

/-- One weighted test of lines 446-470:
`if (flag) { confidence += weight; score++; }` on the pair `(confidence, score)`. -/
def addIndicator (flag : Bool) (weight : α) (s : α × ℕ) : α × ℕ :=
  if flag then (s.1 + weight, s.2 + 1) else s

/-- One bonus test of lines 473-480: `if (score >= k) { confidence += bonus; }`. -/
def addBonus (k : ℕ) (bonus : α) (s : α × ℕ) : α × ℕ :=
  if s.2 ≥ k then (s.1 + bonus, s.2) else s

/-- Lines 441-480 of `detectCoughRuleBased`: the running `(confidence, score)` pair
after the five weighted tests and the two bonus tests, before the clamp. -/
def weightedScore (α : Type) [LinearOrderedField α] (p : Indicators) : α × ℕ :=
  let s0 : α × ℕ := (0, 0)
  let s1 := addIndicator p.hasHighAmplitude 0.25 s0
  let s2 := addIndicator p.hasModerateZCR 0.20 s1
  let s3 := addIndicator p.hasHighFrequencyContent 0.25 s2
  let s4 := addIndicator p.hasAppropriateRolloff 0.15 s3
  let s5 := addIndicator p.hasCoughMFCC 0.15 s4
  let s6 := addBonus 3 0.1 s5
  let s7 := addBonus 4 0.1 s6
  s7

/-- Line 482: `confidence = std::min(1.0f, confidence)`. -/
def ruleConfidence (α : Type) [LinearOrderedField α] (p : Indicators) : α :=
  min 1 (weightedScore α p).1

/-- Lines 482-511 of `detectCoughRuleBased`: clamp, decision and the six mock
class probabilities. -/
def ruleDecision (α : Type) [LinearOrderedField α] (p : Indicators) : DetectionResult α :=
  let confidence := ruleConfidence α p
  let isCough := decide (confidence > 0.6)
  let classProbs : List α := List.replicate 6 0
  let classProbs :=
    if isCough then
      ((classProbs.set CoughClasses.COUGH confidence).set
        CoughClasses.THROAT_CLEARING (confidence * 0.7)).set
        CoughClasses.SNEEZE (confidence * 0.3)
    else classProbs
  { isCough := isCough, confidence := confidence, features := [],
    classProbabilities := classProbs }

/-- The five indicators of a window: lines 414-429. -/
def windowIndicators (m : CMath α) (audioData : List α) : Indicators :=
  indicatorsOf (calculateAmplitude audioData) (calculateZeroCrossingRate audioData)
    (calculateSpectralCentroid m audioData) (calculateSpectralRolloff m audioData)
    (calculateMFCC m audioData)

/-- The classifier `TensorFlowWrapper::Impl::detectCoughRuleBased`. -/
def detectCoughRuleBased (m : CMath α) (audioData : List α) : DetectionResult α :=
  if audioData.isEmpty then
    { isCough := false, confidence := 0, features := [], classProbabilities := [] }
  else
    ruleDecision α (windowIndicators m audioData)

/-- The outcome in which exactly the zero-crossing, rolloff and mel predicates hold. -/
def Indicators.zcrRolloffMel : Indicators where
  hasHighAmplitude := false
  hasModerateZCR := true
  hasHighFrequencyContent := false
  hasAppropriateRolloff := true
  hasCoughMFCC := true

/-- Number of indicators that are true (the final value of `score`). -/
def Indicators.count (p : Indicators) : ℕ :=
  [p.hasHighAmplitude, p.hasModerateZCR, p.hasHighFrequencyContent,
    p.hasAppropriateRolloff, p.hasCoughMFCC].count true

/-- The clamped confidence of an outcome in hundredths; the order facts about the
confidence are reduced to natural-number arithmetic through it
(see `ruleConfidence_eq_percent`). -/
def confidencePercent (p : Indicators) : ℕ :=
  min 100
    ((if p.hasHighAmplitude then 25 else 0) + (if p.hasModerateZCR then 20 else 0)
      + (if p.hasHighFrequencyContent then 25 else 0)
      + (if p.hasAppropriateRolloff then 15 else 0) + (if p.hasCoughMFCC then 15 else 0)
      + (if 3 ≤ p.count then 10 else 0) + (if 4 ≤ p.count then 10 else 0))

/-- Least value of `confidencePercent` among the outcomes with a given number of
true predicates. -/
def percentFloor : ℕ → ℕ
  | 0 => 0
  | 1 => 15
  | 2 => 30
  | 3 => 60
  | 4 => 95
  | _ => 100

/-- Largest value of `confidencePercent` among the outcomes with a given number of
true predicates. -/
def percentCeil : ℕ → ℕ
  | 0 => 0
  | 1 => 25
  | 2 => 50
  | 3 => 80
  | _ => 100

/-- The weight table of the rule-based classifier as the specification words it:
each predicate over the feature vector with the weight it contributes. -/
def specWeightTable (amplitude zeroCrossingRate spectralCentroid spectralRolloff
    melEnergyScore : α) : List (Bool × α) :=
  [(decide (amplitude > 0.08), 0.25),
   (decide (0.03 < zeroCrossingRate ∧ zeroCrossingRate < 0.25), 0.20),
   (decide (800 < spectralCentroid ∧ spectralCentroid < 3000), 0.25),
   (decide (2000 < spectralRolloff ∧ spectralRolloff < 6000), 0.15),
   (decide (melEnergyScore > 0.1), 0.15)]

/-- The sum `S` of the specification: the weights of the predicates that hold,
plus `0.10` when at least three hold and a further `0.10` when at least four hold. -/
def specWeightSum (amplitude zeroCrossingRate spectralCentroid spectralRolloff
    melEnergyScore : α) : α :=
  let held := (specWeightTable amplitude zeroCrossingRate spectralCentroid spectralRolloff
    melEnergyScore).filter (fun e => e.1)
  (held.map (fun e => e.2)).sum
    + (if 3 ≤ held.length then 0.10 else 0)
    + (if 4 ≤ held.length then 0.10 else 0)

end Features

/-! ## Capture session (`audio_recorder.cpp`) -/

/-- Outcome of a request made to the capture stream (`requestStart`,
`requestStop`, `requestPause`): the call returns `oboe::Result::OK`, returns
another result code, or raises a `std::exception`. -/
inductive DeviceReply
  | ok
  | error
  | raised
  deriving DecidableEq

/-- Outcome of `builder.openStream(&stream)`: the result is `OK` (and the stream
pointer is non-null or null), the result is an error code, or the call raises a
`std::exception`. -/
inductive OpenReply
  | opened (streamNonNull : Bool)
  | failed
  | raised
  deriving DecidableEq

/-- A request made to the capture device. -/
inductive StreamRequest
  | openStream
  | requestStart
  | requestStop
  | requestPause
  | close
  deriving DecidableEq

/-- The members of `class AudioRecorder` that the lifecycle code reads or writes.
`audioStream_` and `audioDataCallback_` record whether the pointer / function
object is set; `requests` is the trace of the requests made to the device. -/
structure AudioRecorder (α : Type) where
  audioStream_ : Bool
  audioDataCallback_ : Bool
  currentAudioLevel_ : α
  isRecording_ : Bool
  sampleRate_ : ℤ
  channelCount_ : ℤ
  framesPerCallback_ : ℤ
  requests : List StreamRequest

namespace AudioRecorder

variable {α : Type} [LinearOrderedField α]

/-- The constructor `AudioRecorder::AudioRecorder()`. -/
def new : AudioRecorder α where
  audioStream_ := false
  audioDataCallback_ := false
  currentAudioLevel_ := 0
  isRecording_ := false
  sampleRate_ := 16000
  channelCount_ := 1
  framesPerCallback_ := 480
  requests := []

/-- The method `AudioRecorder::initialize(sampleRate, channelCount)`, spelled
`initialise` because the source's name is a reserved word. -/
def initialise (r : AudioRecorder α) (reply : OpenReply) (sampleRate : ℤ)
    (channelCount : ℤ) : Bool × AudioRecorder α :=
  let r1 := { r with sampleRate_ := sampleRate, channelCount_ := channelCount,
                     framesPerCallback_ := Int.tdiv sampleRate 10,
                     requests := r.requests ++ [StreamRequest.openStream] }
  match reply with
  | OpenReply.opened streamNonNull =>
    (true, if streamNonNull then { r1 with audioStream_ := true } else r1)
  | OpenReply.failed => (false, r1)
  | OpenReply.raised => (false, r1)

/-- The method `AudioRecorder::start()`. -/
def start (r : AudioRecorder α) (reply : DeviceReply) : Bool × AudioRecorder α :=
  if r.isRecording_ then (true, r)
  else if r.audioStream_ then
    let r1 := { r with requests := r.requests ++ [StreamRequest.requestStart] }
    match reply with
    | DeviceReply.ok => (true, { r1 with isRecording_ := true })
    | DeviceReply.error => (false, r1)
    | DeviceReply.raised => (false, r1)
  else (false, r)

/-- The method `AudioRecorder::stop()`. -/
def stop (r : AudioRecorder α) (reply : DeviceReply) : AudioRecorder α :=
  if !r.isRecording_ then r
  else if r.audioStream_ then
    let r1 := { r with requests := r.requests ++ [StreamRequest.requestStop] }
    match reply with
    | DeviceReply.raised => r1
    | _ => { r1 with isRecording_ := false, currentAudioLevel_ := 0 }
  else { r with isRecording_ := false, currentAudioLevel_ := 0 }

/-- The method `AudioRecorder::pause()`. -/
def pause (r : AudioRecorder α) (reply : DeviceReply) : AudioRecorder α :=
  if r.isRecording_ then
    if r.audioStream_ then
      let r1 := { r with requests := r.requests ++ [StreamRequest.requestPause] }
      match reply with
      | DeviceReply.raised => r1
      | _ => { r1 with isRecording_ := false }
    else { r with isRecording_ := false }
  else r

/-- The method `AudioRecorder::resume()`. -/
def resume (r : AudioRecorder α) (reply : DeviceReply) : AudioRecorder α :=
  if !r.isRecording_ then
    if r.audioStream_ then
      let r1 := { r with requests := r.requests ++ [StreamRequest.requestStart] }
      match reply with
      | DeviceReply.raised => r1
      | _ => { r1 with isRecording_ := true }
    else { r with isRecording_ := true }
  else r

/-- The method `AudioRecorder::setAudioDataCallback`. -/
def setAudioDataCallback (r : AudioRecorder α) : AudioRecorder α :=
  { r with audioDataCallback_ := true }

/-- The method `AudioRecorder::release()`; `reply` is the outcome of the stop
request it may make. The `close()` call is taken to return. -/
def release (r : AudioRecorder α) (reply : DeviceReply) : AudioRecorder α :=
  let r1 := r.stop reply
  let r2 :=
    if r1.audioStream_ then
      { r1 with audioStream_ := false, requests := r1.requests ++ [StreamRequest.close] }
    else r1
  { r2 with audioDataCallback_ := false }

end AudioRecorder

/-! ## Classifier selection (`TensorFlowWrapper::Impl::initialize`, `release`) -/

/-- Outcome of loading the model when a non-empty path is given and the runtime
is compiled in: which step of lines 45-91 ends the attempt. `gpu` is the result
of `initializeGpuDelegate`; `raised` carries the pointer states at the moment a
`std::exception` is raised. -/
inductive ModelLoad
  | modelMissing
  | interpreterMissing
  | allocateFailed (gpu : Bool)
  | loaded (gpu : Bool)
  | raised (model interpreter gpuDelegate useGpu : Bool)
  deriving DecidableEq

/-- The members of `TensorFlowWrapper::Impl`; the three pointers are recorded as
set / not set. -/
structure TensorFlowWrapper where
  isModelLoaded_ : Bool
  useGpuDelegate_ : Bool
  model_ : Bool
  interpreter_ : Bool
  gpuDelegate_ : Bool
  deriving DecidableEq

namespace TensorFlowWrapper

/-- The constructor `TensorFlowWrapper::Impl::Impl()`. -/
def new : TensorFlowWrapper where
  isModelLoaded_ := false
  useGpuDelegate_ := false
  model_ := false
  interpreter_ := false
  gpuDelegate_ := false

/-- The method `TensorFlowWrapper::Impl::release()`. -/
def release (_w : TensorFlowWrapper) : TensorFlowWrapper where
  isModelLoaded_ := false
  useGpuDelegate_ := false
  model_ := false
  interpreter_ := false
  gpuDelegate_ := false

/-- The method `TensorFlowWrapper::Impl::initialize(modelPath)`;
`tfliteAvailable` is the compile-time switch `TENSORFLOW_LITE_AVAILABLE`. -/
def initialise (tfliteAvailable : Bool) (w : TensorFlowWrapper) (modelPath : String)
    (load : ModelLoad) : Bool × TensorFlowWrapper :=
  if modelPath.isEmpty then (true, { w with isModelLoaded_ := false })
  else if tfliteAvailable then
    match load with
    | ModelLoad.modelMissing => (true, { w with model_ := false, isModelLoaded_ := false })
    | ModelLoad.interpreterMissing =>
      (true, { w with model_ := false, interpreter_ := false, isModelLoaded_ := false })
    | ModelLoad.allocateFailed _ => (true, w.release)
    | ModelLoad.loaded gpu =>
      (true, { w with model_ := true, interpreter_ := true, gpuDelegate_ := gpu,
                      useGpuDelegate_ := gpu, isModelLoaded_ := true })
    | ModelLoad.raised model interpreter gpuDelegate useGpu =>
      (true, { model_ := model, interpreter_ := interpreter, gpuDelegate_ := gpuDelegate,
               useGpuDelegate_ := useGpu, isModelLoaded_ := false })
  else (true, { w with isModelLoaded_ := false })

end TensorFlowWrapper

/-! ## Detection engine (`cough_detect_engine.cpp`) -/

/-- The enum `EngineState` of `cough_detect_engine.h`. -/
inductive EngineState
  | IDLE
  | RECORDING
  | PAUSED
  | PROCESSING
  deriving DecidableEq

/-- The enum `AudioEventType` of `cough_detect_engine.h`. -/
inductive AudioEventType
  | COUGH_DETECTED
  | AUDIO_LEVEL_CHANGED
  | ERROR_OCCURRED
  deriving DecidableEq

/-- The struct `AudioEvent`. The engine constructs each event with `AudioEvent event;`
and assigns some fields: a scalar it does not assign is `none`, the vector and the
string start empty. The wall-clock `timestamp` is not modelled. -/
structure AudioEvent (α : Type) where
  type : AudioEventType
  confidence : Option α
  amplitude : Option α
  audioData : List α
  errorMessage : String

/-- The consumer's handler `AudioEventCallback`: called with an event, it returns
normally or raises a `std::exception` whose `what()` is the carried message. -/
abbrev AudioEventCallback (α : Type) := AudioEvent α → Except String Unit

/-- The members of `CoughDetectEngine::Impl`. -/
structure CoughDetectEngine (α : Type) where
  audioRecorder_ : AudioRecorder α
  tensorFlowWrapper_ : TensorFlowWrapper
  audioEventCallback_ : Option (AudioEventCallback α)
  state_ : EngineState
  audioLevel_ : α
  isReady_ : Bool

/-- What one call of `processAudioData` leaves behind: the engine, the events
handed to the consumer's handler in order, and the message of the exception that
leaves the function, if one does. -/
structure Delivery (α : Type) where
  engine : CoughDetectEngine α
  events : List (AudioEvent α)
  escaped : Option String

namespace CoughDetectEngine

variable {α : Type} [LinearOrderedField α]

/-- The constructor `CoughDetectEngine::Impl::Impl()`. -/
def new : CoughDetectEngine α where
  audioRecorder_ := AudioRecorder.new
  tensorFlowWrapper_ := TensorFlowWrapper.new
  audioEventCallback_ := none
  state_ := EngineState.IDLE
  audioLevel_ := 0
  isReady_ := false

/-- The method `initialize(modelPath)`: `openReply` is the outcome of opening the
capture stream, `tfliteAvailable` and `load` determine the model loading. The
recorder is initialised with its default arguments `16000, 1`. -/
def initialise (e : CoughDetectEngine α) (modelPath : String) (openReply : OpenReply)
    (tfliteAvailable : Bool) (load : ModelLoad) : Bool × CoughDetectEngine α :=
  let (recorderOk, recorder) := e.audioRecorder_.initialise openReply 16000 1
  if !recorderOk then (false, { e with audioRecorder_ := recorder })
  else
    let (wrapperOk, wrapper) := e.tensorFlowWrapper_.initialise tfliteAvailable modelPath load
    if !wrapperOk then
      (false, { e with audioRecorder_ := recorder, tensorFlowWrapper_ := wrapper })
    else
      (true, { e with audioRecorder_ := recorder.setAudioDataCallback,
                      tensorFlowWrapper_ := wrapper,
                      isReady_ := true, state_ := EngineState.IDLE })

/-- The method `start()`; `reply` is the outcome of the start request the
recorder may make. The recorder's methods handle their own exceptions, so the
`catch` blocks of the engine's lifecycle methods are never entered. -/
def start (e : CoughDetectEngine α) (reply : DeviceReply) : Bool × CoughDetectEngine α :=
  if !e.isReady_ then (false, e)
  else if e.state_ = EngineState.RECORDING then (true, e)
  else
    let (started, recorder) := e.audioRecorder_.start reply
    if started then
      (true, { e with audioRecorder_ := recorder, state_ := EngineState.RECORDING })
    else (false, { e with audioRecorder_ := recorder })

/-- The method `stop()`. -/
def stop (e : CoughDetectEngine α) (reply : DeviceReply) : CoughDetectEngine α :=
  if e.state_ = EngineState.IDLE then e
  else
    { e with audioRecorder_ := e.audioRecorder_.stop reply,
             state_ := EngineState.IDLE, audioLevel_ := 0 }

/-- The method `pause()`. -/
def pause (e : CoughDetectEngine α) (reply : DeviceReply) : CoughDetectEngine α :=
  if e.state_ = EngineState.RECORDING then
    { e with audioRecorder_ := e.audioRecorder_.pause reply, state_ := EngineState.PAUSED }
  else e

/-- The method `resume()`. -/
def resume (e : CoughDetectEngine α) (reply : DeviceReply) : CoughDetectEngine α :=
  if e.state_ = EngineState.PAUSED then
    { e with audioRecorder_ := e.audioRecorder_.resume reply,
             state_ := EngineState.RECORDING }
  else e

/-- The method `setAudioEventCallback(callback)`. -/
def setAudioEventCallback (e : CoughDetectEngine α)
    (callback : Option (AudioEventCallback α)) : CoughDetectEngine α :=
  { e with audioEventCallback_ := callback }

/-- The method `getState()`. -/
def getState (e : CoughDetectEngine α) : EngineState := e.state_

/-- The method `getAudioLevel()`. -/
def getAudioLevel (e : CoughDetectEngine α) : α := e.audioLevel_

/-- The method `isReady()`. -/
def isReady (e : CoughDetectEngine α) : Bool := e.isReady_

/-- The method `release()`; `stopReply` and `releaseReply` are the outcomes of the
stop requests made by the engine's `stop()` and by the recorder's `release()`. -/
def release (e : CoughDetectEngine α) (stopReply releaseReply : DeviceReply) :
    CoughDetectEngine α :=
  let e1 := e.stop stopReply
  { e1 with audioRecorder_ := e1.audioRecorder_.release releaseReply,
            tensorFlowWrapper_ := e1.tensorFlowWrapper_.release,
            isReady_ := false, state_ := EngineState.IDLE, audioLevel_ := 0 }

/-- The event built at lines 158-162. -/
def levelEvent (amplitude : α) : AudioEvent α where
  type := AudioEventType.AUDIO_LEVEL_CHANGED
  confidence := none
  amplitude := some amplitude
  audioData := []
  errorMessage := ""

/-- The event built at lines 178-184. -/
def coughEvent (confidence amplitude : α) (audioData : List α) : AudioEvent α where
  type := AudioEventType.COUGH_DETECTED
  confidence := some confidence
  amplitude := some amplitude
  audioData := audioData
  errorMessage := ""

/-- The event built at lines 197-201. -/
def errorEvent (what : String) : AudioEvent α where
  type := AudioEventType.ERROR_OCCURRED
  confidence := none
  amplitude := none
  audioData := []
  errorMessage := what

/-- The `try` block of `processAudioData` (lines 153-190). `detect` is the
behaviour of `tensorFlowWrapper_.detectCough` on this call: a result, or the
message of a raised `std::exception`. The `escaped` field of the value is the
message of the exception that leaves the block. -/
def processAudioDataTry (e : CoughDetectEngine α)
    (detect : List α → Except String (DetectionResult α))
    (audioData : List α) (amplitude : α) : Delivery α :=
  let e1 := { e with audioLevel_ := amplitude }
  let sent : List (AudioEvent α) × Except String Unit :=
    match e1.audioEventCallback_ with
    | some callback => ([levelEvent amplitude], callback (levelEvent amplitude))
    | none => ([], Except.ok ())
  match sent.2 with
  | Except.error what => { engine := e1, events := sent.1, escaped := some what }
  | Except.ok _ =>
    if e1.state_ = EngineState.RECORDING then
      let e2 := { e1 with state_ := EngineState.PROCESSING }
      match detect audioData with
      | Except.error what => { engine := e2, events := sent.1, escaped := some what }
      | Except.ok result =>
        if result.isCough then
          match e2.audioEventCallback_ with
          | some callback =>
            let event := coughEvent result.confidence amplitude audioData
            match callback event with
            | Except.error what =>
              { engine := e2, events := sent.1 ++ [event], escaped := some what }
            | Except.ok _ =>
              { engine := { e2 with state_ := EngineState.RECORDING },
                events := sent.1 ++ [event], escaped := none }
          | none =>
            { engine := { e2 with state_ := EngineState.RECORDING },
              events := sent.1, escaped := none }
        else
          { engine := { e2 with state_ := EngineState.RECORDING },
            events := sent.1, escaped := none }
    else { engine := e1, events := sent.1, escaped := none }

/-- The method `processAudioData(audioData, amplitude)`: the `try` block followed
by the handler `catch (const std::exception& e)` of lines 192-206. -/
def processAudioData (e : CoughDetectEngine α)
    (detect : List α → Except String (DetectionResult α))
    (audioData : List α) (amplitude : α) : Delivery α :=
  let body := processAudioDataTry e detect audioData amplitude
  match body.escaped with
  | none => body
  | some what =>
    match body.engine.audioEventCallback_ with
    | some callback =>
      match callback (errorEvent what) with
      | Except.error what2 =>
        { engine := body.engine, events := body.events ++ [errorEvent what],
          escaped := some what2 }
      | Except.ok _ =>
        { engine := { body.engine with state_ := EngineState.RECORDING },
          events := body.events ++ [errorEvent what], escaped := none }
    | none =>
      { engine := { body.engine with state_ := EngineState.RECORDING },
        events := body.events, escaped := none }

end CoughDetectEngine

/-! ## Level metering of the capture session (`audio_recorder.cpp`, lines 164-245) -/

namespace AudioRecorder

variable {α : Type} [LinearOrderedField α]

/-- The method `AudioRecorder::calculateRMS(data, numFrames)`; the buffer is the
list `data` and `numFrames` is its length. -/
def calculateRMS (m : CMath α) (data : List α) : α :=
  if data.length ≤ 0 then 0
  else
    let sum := data.foldl (fun sum x => sum + x * x) 0
    let rms := m.sqrt (sum / (data.length : α))
    let db := if rms > 0 then 20 * m.log10 rms else -100
    let normalizedLevel := max 0 (min 1 ((db + 40) / 40))
    normalizedLevel

/-- The method `AudioRecorder::updateAudioLevel(level)`. -/
def updateAudioLevel (r : AudioRecorder α) (level : α) : AudioRecorder α :=
  let smoothingFactor : α := 0.1
  { r with currentAudioLevel_ :=
      smoothingFactor * level + (1 - smoothingFactor) * r.currentAudioLevel_ }

/-- The method `AudioRecorder::processAudioData(data, numFrames)`: the new recorder
and the arguments `(audioData, level)` of the call made to the registered sink, if
a sink is registered. -/
def processAudioData (r : AudioRecorder α) (m : CMath α) (data : List α) :
    AudioRecorder α × Option (List α × α) :=
  if r.audioDataCallback_ then
    let audioData := data
    let level := calculateRMS m data
    let r1 := r.updateAudioLevel level
    (r1, some (audioData, level))
  else (r, none)

/-- The device callback `AudioRecorder::onAudioReady(stream, audioData, numFrames)`
on a non-null buffer: empty buffers are ignored. -/
def onAudioReady (r : AudioRecorder α) (m : CMath α) (data : List α) :
    AudioRecorder α × Option (List α × α) :=
  if data.length > 0 then r.processAudioData m data else (r, none)

/-- The method `AudioRecorder::getAudioLevel()`. -/
def getAudioLevel (r : AudioRecorder α) : α := r.currentAudioLevel_

/-- The method `AudioRecorder::isRecording()`. -/
def isRecording (r : AudioRecorder α) : Bool := r.isRecording_

end AudioRecorder

/-- One call made on a recorder: a lifecycle method with the outcome of the
device request it may make, or a buffer delivered by the device. -/
inductive RecorderCall (α : Type)
  | start (reply : DeviceReply)
  | stop (reply : DeviceReply)
  | pause (reply : DeviceReply)
  | resume (reply : DeviceReply)
  | window (data : List α)

/-- The recorder after one call. -/
def AudioRecorder.step {α : Type} [LinearOrderedField α] (m : CMath α)
    (r : AudioRecorder α) : RecorderCall α → AudioRecorder α
  | RecorderCall.start reply => (r.start reply).2
  | RecorderCall.stop reply => r.stop reply
  | RecorderCall.pause reply => r.pause reply
  | RecorderCall.resume reply => r.resume reply
  | RecorderCall.window data => (r.onAudioReady m data).1

/-- The recorder after a sequence of calls. -/
def AudioRecorder.run {α : Type} [LinearOrderedField α] (m : CMath α)
    (r : AudioRecorder α) (calls : List (RecorderCall α)) : AudioRecorder α :=
  calls.foldl (AudioRecorder.step m) r

/-- The per-window level as the specification words it: `rms = sqrt(mean(sample²))`,
`db = 20·log10(rms)` if `rms > 0` else `−100`, `level = clamp((db+40)/40, 0, 1)`. -/
def specWindowLevel {α : Type} [LinearOrderedField α] (m : CMath α) (data : List α) : α :=
  let rms := m.sqrt ((data.map (fun x => x * x)).sum / (data.length : α))
  let db := if rms > 0 then 20 * m.log10 rms else -100
  let x := (db + 40) / 40
  if x < 0 then 0 else if 1 < x then 1 else x

/-! ## Model path of the classifier (`tensorflow_wrapper.cpp`, lines 106-118, 199-397) -/

/-- Element type of a tensor: `kTfLiteFloat32` or any other type. -/
inductive TensorType
  | float32
  | other
  deriving DecidableEq

/-- What the interpreter reports of its first input tensor: the element type, the
dimensions, and whether `typed_tensor<float>` returns a non-null pointer. -/
structure InputTensor where
  type : TensorType
  dims : List ℕ
  data : Bool

/-- The first output tensor after an inference: the element type and the buffer,
whose length is the product of the tensor's dimensions. -/
structure OutputTensor (α : Type) where
  type : TensorType
  data : List α

/-- Outcome of `interpreter_->Invoke()` followed by the lookup of the first output
tensor: status `kTfLiteOk` with a null or non-null output tensor, another status,
or a raised `std::exception`. -/
inductive InvokeReply (α : Type)
  | ok (output : Option (OutputTensor α))
  | failed
  | raised

/-- The behaviour of the interpreter during one call of `detectCoughWithModel`: the
first input tensor (null or not) and the outcome of the inference on the data
copied into it. -/
structure InferenceRun (α : Type) where
  input : Option InputTensor
  invoke : List α → InvokeReply α

section ModelPath

variable {α : Type} [LinearOrderedField α]

/-- The function `std::clamp(v, lo, hi)`. -/
def clamp (v lo hi : α) : α :=
  if v < lo then lo else if hi < v then hi else v

/-- The size computed at the head of `preprocessAudioForModel` (lines 280, 291-295):
`targetSize = 16000` with a null input tensor, else the product of its dimensions. -/
def expectedSize (input : Option InputTensor) : ℕ :=
  match input with
  | none => 16000
  | some tensor => tensor.dims.prod

/-- The method `preprocessAudioForModel(audioData)`: `input` is the first input
tensor; with a null tensor the target size is `16000`. -/
def preprocessAudioForModel (input : Option InputTensor) (audioData : List α) : List α :=
  let expectedSize : ℕ := expectedSize input
  let copySize := min audioData.length expectedSize
  (audioData.take copySize).map (fun x => clamp x (-1) 1)
    ++ List.replicate (expectedSize - copySize) 0

/-- The method `postprocessYAMNetOutput(output_data, output_size)`. -/
def postprocessYAMNetOutput (output_data : List α) (output_size : ℕ) : DetectionResult α :=
  let coughClassIndices : List ℕ :=
    [CoughClasses.COUGH, CoughClasses.THROAT_CLEARING, CoughClasses.SNEEZE,
     CoughClasses.SNIFF, CoughClasses.BURP, CoughClasses.BELCH]
  let maxCoughProbability : α := coughClassIndices.foldl
    (fun (maxCoughProbability : α) (classIdx : ℕ) =>
      if classIdx < output_size then max maxCoughProbability (output_data.getD classIdx 0)
      else maxCoughProbability)
    0
  let classProbs := output_data.take (min 10 output_size)
  let isCough := decide (maxCoughProbability > 0.3)
  { isCough := isCough, confidence := maxCoughProbability, features := [],
    classProbabilities := classProbs }

/-- The method `postprocessBinaryOutput(output_data, output_size)`. -/
def postprocessBinaryOutput (output_data : List α) (output_size : ℕ) : DetectionResult α :=
  let coughProbability := output_data.getD 1 0
  let isCough := decide (coughProbability > 0.5)
  let classProbs := output_data.take output_size
  { isCough := isCough, confidence := coughProbability, features := [],
    classProbabilities := classProbs }

/-- The method `postprocessGenericOutput(output_data, output_size)`. The maximum of
`std::max_element` is the fold of `max` from the first element; on an empty buffer
the source dereferences the end pointer, and the value here is `0`. -/
def postprocessGenericOutput (output_data : List α) (output_size : ℕ) : DetectionResult α :=
  let maxProbability := (output_data.take output_size).foldl max (output_data.headD 0)
  let isCough := decide (maxProbability > 0.5)
  let classProbs := output_data.take (min 10 output_size)
  { isCough := isCough, confidence := maxProbability, features := [],
    classProbabilities := classProbs }

/-- The method `postprocessModelOutput(output_tensor)`. -/
def postprocessModelOutput (output_tensor : Option (OutputTensor α)) : DetectionResult α :=
  match output_tensor with
  | none => { isCough := false, confidence := 0, features := [], classProbabilities := [] }
  | some tensor =>
    if tensor.type ≠ TensorType.float32 then
      { isCough := false, confidence := 0, features := [], classProbabilities := [] }
    else
      let output_size := tensor.data.length
      if output_size = 521 then postprocessYAMNetOutput tensor.data output_size
      else if output_size = 2 then postprocessBinaryOutput tensor.data output_size
      else postprocessGenericOutput tensor.data output_size

/-- The method `detectCoughWithModel(audioData)`; `run` is the behaviour of the
interpreter during the call. Every `return detectCoughRuleBased(audioData)` of the
source, the one of the `catch` block included, is a rule-based result here. -/
def detectCoughWithModel (m : CMath α) (run : InferenceRun α) (audioData : List α) :
    DetectionResult α :=
  let processedData := preprocessAudioForModel run.input audioData
  match run.input with
  | none => detectCoughRuleBased m audioData
  | some input_tensor =>
    if input_tensor.type = TensorType.float32 then
      if !input_tensor.data then detectCoughRuleBased m audioData
      else
        let expected_size := input_tensor.dims.prod
        if processedData.length ≠ expected_size then detectCoughRuleBased m audioData
        else
          match run.invoke processedData with
          | InvokeReply.failed => detectCoughRuleBased m audioData
          | InvokeReply.raised => detectCoughRuleBased m audioData
          | InvokeReply.ok none => detectCoughRuleBased m audioData
          | InvokeReply.ok (some output_tensor) => postprocessModelOutput (some output_tensor)
    else detectCoughRuleBased m audioData

/-- The method `TensorFlowWrapper::Impl::detectCough(audioData)`;
`tfliteAvailable` is the compile-time switch `TENSORFLOW_LITE_AVAILABLE`. -/
def TensorFlowWrapper.detectCough (tfliteAvailable : Bool) (w : TensorFlowWrapper)
    (m : CMath α) (run : InferenceRun α) (audioData : List α) : DetectionResult α :=
  if tfliteAvailable then
    if w.isModelLoaded_ && w.model_ && w.interpreter_ then
      detectCoughWithModel m run audioData
    else detectCoughRuleBased m audioData
  else detectCoughRuleBased m audioData

/-- The method `TensorFlowWrapper::Impl::isModelLoaded()`. -/
def TensorFlowWrapper.isModelLoaded (w : TensorFlowWrapper) : Bool := w.isModelLoaded_

end ModelPath

/-- The model runtime resource is unavailable at `initialize`: the path is empty,
the runtime is not compiled in, or the loading does not reach its end. -/
def ModelUnavailable (tfliteAvailable : Bool) (modelPath : String) (load : ModelLoad) :
    Prop :=
  modelPath.isEmpty = true ∨ tfliteAvailable = false ∨ ∀ gpu, load ≠ ModelLoad.loaded gpu

/-- One call made on the classifier between two classifications: a classification,
a `release()`, or an `initialize` at which the model is again unavailable. -/
inductive WrapperCall (α : Type)
  | detectCough (run : InferenceRun α) (audioData : List α)
  | release
  | initialise (modelPath : String) (load : ModelLoad)

/-- The classifier state after one call; a classification leaves it as it is. -/
def TensorFlowWrapper.step {α : Type} (tfliteAvailable : Bool) (w : TensorFlowWrapper) :
    WrapperCall α → TensorFlowWrapper
  | WrapperCall.detectCough _ _ => w
  | WrapperCall.release => w.release
  | WrapperCall.initialise modelPath load => (w.initialise tfliteAvailable modelPath load).2

/-- A call that leaves the model unavailable: a classification, a `release()`, or
an `initialize` at which the model runtime resource is unavailable. -/
def WrapperCall.Unavailable {α : Type} (tfliteAvailable : Bool) : WrapperCall α → Prop
  | WrapperCall.detectCough _ _ => True
  | WrapperCall.release => True
  | WrapperCall.initialise modelPath load => ModelUnavailable tfliteAvailable modelPath load

/-! ## Traces of engine calls -/

/-- One call made on the engine after `initialize`: a lifecycle method with the
outcome of the device request it may make, or a window delivered by the recorder
with the behaviour of the classifier on it. -/
inductive EngineCall (α : Type)
  | start (reply : DeviceReply)
  | stop (reply : DeviceReply)
  | pause (reply : DeviceReply)
  | resume (reply : DeviceReply)
  | release (stopReply releaseReply : DeviceReply)
  | window (detect : List α → Except String (DetectionResult α)) (audioData : List α)
      (amplitude : α)

/-- The engine after one call. -/
def CoughDetectEngine.step {α : Type} [LinearOrderedField α] (e : CoughDetectEngine α) :
    EngineCall α → CoughDetectEngine α
  | EngineCall.start reply => (e.start reply).2
  | EngineCall.stop reply => e.stop reply
  | EngineCall.pause reply => e.pause reply
  | EngineCall.resume reply => e.resume reply
  | EngineCall.release stopReply releaseReply => e.release stopReply releaseReply
  | EngineCall.window detect audioData amplitude =>
    (e.processAudioData detect audioData amplitude).engine

/-- The engine after a sequence of calls. -/
def CoughDetectEngine.run {α : Type} [LinearOrderedField α] (e : CoughDetectEngine α)
    (calls : List (EngineCall α)) : CoughDetectEngine α :=
  calls.foldl CoughDetectEngine.step e

/-- A call made on engine `e` meets no device error and no fault: the device
accepts every request, and while the window is handled neither the classifier nor
the consumer's handler raises. -/
def EngineCall.Clean {α : Type} [LinearOrderedField α] (e : CoughDetectEngine α) :
    EngineCall α → Prop
  | EngineCall.start reply => reply = DeviceReply.ok
  | EngineCall.stop reply => reply = DeviceReply.ok
  | EngineCall.pause reply => reply = DeviceReply.ok
  | EngineCall.resume reply => reply = DeviceReply.ok
  | EngineCall.release stopReply releaseReply =>
    stopReply = DeviceReply.ok ∧ releaseReply = DeviceReply.ok
  | EngineCall.window detect audioData amplitude =>
    (e.processAudioDataTry detect audioData amplitude).escaped = none

/-- Every call of the sequence, made in turn from engine `e`, is clean. -/
def CoughDetectEngine.CleanRun {α : Type} [LinearOrderedField α] :
    CoughDetectEngine α → List (EngineCall α) → Prop
  | _, [] => True
  | e, call :: calls => call.Clean e ∧ CoughDetectEngine.CleanRun (e.step call) calls

/-- The relation between the engine and its capture session that the lifecycle
keeps: the recorder records exactly when the engine is `RECORDING`, and the engine
is not `PROCESSING`. -/
def EngineInvariant {α : Type} [LinearOrderedField α] (e : CoughDetectEngine α) : Prop :=
  (e.audioRecorder_.isRecording = true ↔ e.getState = EngineState.RECORDING)
  ∧ e.getState ≠ EngineState.PROCESSING

/-! ## Concrete scenarios used in the statements below -/

/-- A consumer handler that returns normally on every event. -/
def acceptingHandler : AudioEventCallback ℚ := fun _ => Except.ok ()

/-- A consumer handler that raises on every event. -/
def raisingHandler : AudioEventCallback ℚ := fun _ => Except.error "handler failed"

/-- A classifier call that returns "no cough" with confidence `0`. -/
def quietDetect : List ℚ → Except String (DetectionResult ℚ) :=
  fun _ => Except.ok { isCough := false, confidence := 0, features := [],
                       classProbabilities := [] }

/-- A classifier call that returns a cough with confidence `9/10`. -/
def coughDetect : List ℚ → Except String (DetectionResult ℚ) :=
  fun _ => Except.ok { isCough := true, confidence := 9 / 10, features := [],
                       classProbabilities := [] }

/-- A classifier call that raises. -/
def raisingDetect : List ℚ → Except String (DetectionResult ℚ) :=
  fun _ => Except.error "inference failed"

/-- A fresh engine after a successful `initialize("")`. -/
def readyEngine : CoughDetectEngine ℚ :=
  (CoughDetectEngine.new.initialise "" (OpenReply.opened true) false
    ModelLoad.modelMissing).2

/-- The ready engine after `start()` with the device accepting the request. -/
def recordingEngine : CoughDetectEngine ℚ := (readyEngine.start DeviceReply.ok).2

/-- The trace `initialize; start; stop` followed by one more window of level `1/2`
delivered to the engine, which is then `IDLE`. -/
def idleEngineAfterLateWindow : CoughDetectEngine ℚ :=
  (((recordingEngine.stop DeviceReply.ok).processAudioData quietDetect [0, 0] (1 / 2))).engine

/-- A consumer handler that raises when it is handed an error event and returns
normally on the other events. -/
def errorRejectingHandler : AudioEventCallback ℚ := fun event =>
  if event.type = AudioEventType.ERROR_OCCURRED then Except.error "handler failed"
  else Except.ok ()

/-- A consumer handler that raises when it is handed a level event and returns
normally on the other events. -/
def levelRejectingHandler : AudioEventCallback ℚ := fun event =>
  if event.type = AudioEventType.AUDIO_LEVEL_CHANGED then Except.error "handler failed"
  else Except.ok ()

/-- The ready engine, never started, with the level-rejecting consumer. -/
def idleEngineRejectingLevel : CoughDetectEngine ℚ :=
  readyEngine.setAudioEventCallback (some levelRejectingHandler)

/-- The trace `initialize; start; pause` with the level-rejecting consumer. -/
def pausedEngineRejectingLevel : CoughDetectEngine ℚ :=
  (recordingEngine.pause DeviceReply.ok).setAudioEventCallback (some levelRejectingHandler)

/-- The `<cmath>` functions over the real numbers. -/
noncomputable def realCMath : CMath ℝ where
  pi := Real.pi
  cos := Real.cos
  sin := Real.sin
  sqrt := Real.sqrt
  log := Real.log
  log10 := fun x => Real.log x / Real.log 10

/-- A recorder with an open stream and a registered sink, never started. -/
noncomputable def armedRecorder : AudioRecorder ℝ :=
  ((AudioRecorder.new : AudioRecorder ℝ).initialise (OpenReply.opened true) 16000
    1).2.setAudioDataCallback

/-- The trace `start; one buffer [1]; pause` on the armed recorder. -/
noncomputable def pausedRecorderAfterWindow : AudioRecorder ℝ :=
  (((armedRecorder.start DeviceReply.ok).2.onAudioReady realCMath [1]).1).pause DeviceReply.ok

/-- A window of twelve samples with three unit pulses four samples apart and one
negative sample. -/
noncomputable def coughWindow : List ℝ := [1, 0, 0, 0, 1, 0, 0, 0, 1, 0, -1, 0]

/-- An interpreter whose input tensor takes twelve float32 samples and whose first
output tensor, after a successful inference, is not of type `kTfLiteFloat32` (a
quantized model). -/
noncomputable def quantizedRun : InferenceRun ℝ where
  input := some { type := TensorType.float32, dims := [12], data := true }
  invoke := fun _ => InvokeReply.ok (some { type := TensorType.other, data := [] })

/-- An interpreter with a 521-way float32 output over 1600 input samples: `Invoke`
succeeds, with score `0.32` for class `0` and `0` elsewhere, when the first input
sample is `1`, and returns an error status otherwise. -/
noncomputable def flakyRun : InferenceRun ℝ where
  input := some { type := TensorType.float32, dims := [1600], data := true }
  invoke := fun data =>
    if data.getD 0 0 = 1 then
      InvokeReply.ok (some { type := TensorType.float32, data := 0.32 :: List.replicate 520 0 })
    else InvokeReply.failed

/-! ## The tone of the specification's example -/

/-- The window of the specification's example: 1600 samples of a 1500 Hz tone of
amplitude `0.1` sampled at 16 kHz. -/
noncomputable def toneWindow : List ℝ :=
  (List.range 1600).map fun (t : ℕ) => 0.1 * Real.sin (2 * Real.pi * 1500 * (t : ℝ) / 16000)

/-- Real part of bin `k` of the transform of `w` over the real numbers. -/
noncomputable def binRe (w : List ℝ) (k : ℕ) : ℝ :=
  ∑ t in Finset.range w.length,
    w.getD t 0 * Real.cos (-2 * Real.pi * (k : ℝ) * (t : ℝ) / (w.length : ℝ))

/-- Imaginary part of bin `k` of the transform of `w` over the real numbers. -/
noncomputable def binIm (w : List ℝ) (k : ℕ) : ℝ :=
  ∑ t in Finset.range w.length,
    w.getD t 0 * Real.sin (-2 * Real.pi * (k : ℝ) * (t : ℝ) / (w.length : ℝ))

/-- Magnitude of bin `k` of the transform of `w` over the real numbers. -/
noncomputable def binMag (w : List ℝ) (k : ℕ) : ℝ :=
  Real.sqrt (binRe w k * binRe w k + binIm w k * binIm w k)

/-- The vector `magnitudes` of the source over the real numbers: the magnitude of
every bin of `performSimpleFFT`, in order. -/
noncomputable def spectrumMagnitudes (w : List ℝ) : List ℝ :=
  (performSimpleFFT realCMath w).map (complexAbs realCMath)

/-- The sign pattern of the tone in integer arithmetic: the number of indices
`i = 1 .. n` at which `3 i mod 32 ≤ 16` and `3 (i - 1) mod 32 ≤ 16` differ. -/
def toneCrossings (n : ℕ) : ℕ :=
  (List.range' 1 n).foldl
    (fun (crossings : ℕ) (i : ℕ) =>
      if decide ((3 * i) % 32 ≤ 16) != decide ((3 * (i - 1)) % 32 ≤ 16)
      then crossings + 1 else crossings)
    0

/-! # Verified properties -/

set_option linter.unusedSectionVars false

/-! ## Rule-based classifier -/

section RuleBased

variable {α : Type} [LinearOrderedField α]

theorem ruleConfidence_eq_percent (p : Indicators) :
    ruleConfidence α p = (confidencePercent p : α) / 100 := by
  rcases p with ⟨_ | _, _ | _, _ | _, _ | _, _ | _⟩ <;>
    norm_num [ruleConfidence, weightedScore, addIndicator, addBonus, confidencePercent,
      Indicators.count]

theorem confidencePercent_le (p : Indicators) : confidencePercent p ≤ 100 :=
  min_le_left _ _

theorem ruleConfidence_nonneg (p : Indicators) : 0 ≤ ruleConfidence α p := by
  rw [ruleConfidence_eq_percent]
  positivity

theorem ruleConfidence_le_one (p : Indicators) : ruleConfidence α p ≤ 1 :=
  min_le_left _ _

theorem ruleConfidence_le_iff (p q : Indicators) :
    ruleConfidence α p ≤ ruleConfidence α q ↔ confidencePercent p ≤ confidencePercent q := by
  rw [ruleConfidence_eq_percent, ruleConfidence_eq_percent,
    div_le_div_iff_of_pos_right (by norm_num : (0 : α) < 100), Nat.cast_le]

theorem heldWeights_eq (b1 b2 b3 b4 b5 : Bool) :
    ((([(b1, (0.25 : α)), (b2, 0.20), (b3, 0.25), (b4, 0.15), (b5, 0.15)].filter
          (fun e => e.1)).map (fun e => e.2)).sum
      + (if 3 ≤ ([(b1, (0.25 : α)), (b2, 0.20), (b3, 0.25), (b4, 0.15), (b5, 0.15)].filter
          (fun e => e.1)).length then 0.10 else 0)
      + (if 4 ≤ ([(b1, (0.25 : α)), (b2, 0.20), (b3, 0.25), (b4, 0.15), (b5, 0.15)].filter
          (fun e => e.1)).length then 0.10 else 0))
      = (weightedScore α ⟨b1, b2, b3, b4, b5⟩).1 := by
  cases b1 <;> cases b2 <;> cases b3 <;> cases b4 <;> cases b5 <;>
    norm_num [weightedScore, addIndicator, addBonus]

theorem specWeightSum_eq (a z c r f : α) :
    specWeightSum a z c r f = (weightedScore α (indicatorsOf a z c r f)).1 := by
  unfold specWeightSum specWeightTable indicatorsOf
  simp only [Bool.decide_and, gt_iff_lt]
  exact heldWeights_eq _ _ _ _ _

/-- C1. For every non-empty window, the confidence returned by
`detectCoughRuleBased` is `min 1 S`, where `S` is the sum of the weights of the
predicates that hold over the extracted features plus `0.10` when at least three
hold and a further `0.10` when at least four hold. -/
theorem detectCoughRuleBased_confidence_eq (m : CMath α) (audioData : List α)
    (hne : audioData ≠ []) :
    (detectCoughRuleBased m audioData).confidence
      = min 1 (specWeightSum (calculateAmplitude audioData)
          (calculateZeroCrossingRate audioData) (calculateSpectralCentroid m audioData)
          (calculateSpectralRolloff m audioData) (calculateMFCC m audioData)) := by
  have hE : audioData.isEmpty = false := by
    cases audioData with
    | nil => exact absurd rfl hne
    | cons x xs => rfl
  rw [specWeightSum_eq]
  simp [detectCoughRuleBased, hE, ruleDecision, ruleConfidence, windowIndicators]

/-- Witness for C1 on a one-sample window over the reals. -/
theorem detectCoughRuleBased_confidence_eq_witness :
    ([1] : List ℝ) ≠ [] ∧
    (detectCoughRuleBased realCMath [1]).confidence
      = min 1 (specWeightSum (calculateAmplitude ([1] : List ℝ))
          (calculateZeroCrossingRate ([1] : List ℝ)) (calculateSpectralCentroid realCMath [1])
          (calculateSpectralRolloff realCMath [1]) (calculateMFCC realCMath [1])) :=
  ⟨by simp, detectCoughRuleBased_confidence_eq realCMath [1] (by simp)⟩

/-- C2. For every window, empty or not, the result of `detectCoughRuleBased` has
its confidence in `[0, 1]`, and `isCough` is true exactly when the confidence
exceeds `0.6`. -/
theorem detectCoughRuleBased_confidence_range (m : CMath α) (audioData : List α) :
    0 ≤ (detectCoughRuleBased m audioData).confidence
    ∧ (detectCoughRuleBased m audioData).confidence ≤ 1
    ∧ ((detectCoughRuleBased m audioData).isCough = true
        ↔ (detectCoughRuleBased m audioData).confidence > 0.6) := by
  unfold detectCoughRuleBased
  split
  · refine ⟨le_refl _, zero_le_one, ?_⟩
    constructor
    · intro h; exact absurd h (by simp)
    · intro h; norm_num at h
  · refine ⟨ruleConfidence_nonneg _, ruleConfidence_le_one _, ?_⟩
    simp [ruleDecision]

theorem confidencePercent_bounds (p : Indicators) :
    percentFloor p.count ≤ confidencePercent p
    ∧ confidencePercent p ≤ percentCeil p.count := by
  rcases p with ⟨_ | _, _ | _, _ | _, _ | _, _ | _⟩ <;> decide

theorem Indicators.count_le_five (p : Indicators) : p.count ≤ 5 := by
  rcases p with ⟨_ | _, _ | _, _ | _, _ | _, _ | _⟩ <;> decide

theorem percentCeil_le_floor (a b : ℕ) (h : a < b) (hb : b ≤ 5) :
    percentCeil a ≤ percentFloor b := by
  interval_cases b <;> interval_cases a <;> decide

/-- C3. The rule-based confidence is non-decreasing in the number of true
predicates: an outcome of the five predicates with fewer true predicates never
gets a larger confidence than one with more. -/
theorem ruleConfidence_mono_count (p q : Indicators) (h : p.count < q.count) :
    (ruleDecision α p).confidence ≤ (ruleDecision α q).confidence := by
  show ruleConfidence α p ≤ ruleConfidence α q
  rw [ruleConfidence_le_iff]
  exact le_trans (confidencePercent_bounds p).2
    (le_trans (percentCeil_le_floor _ _ h q.count_le_five) (confidencePercent_bounds q).1)

/-- Witness for C3: no predicate true against the amplitude predicate alone. -/
theorem ruleConfidence_mono_count_witness :
    (Indicators.mk false false false false false).count
        < (Indicators.mk true false false false false).count
    ∧ (ruleDecision ℚ ⟨false, false, false, false, false⟩).confidence
        ≤ (ruleDecision ℚ ⟨true, false, false, false, false⟩).confidence :=
  ⟨by decide, ruleConfidence_mono_count _ _ (by decide)⟩

end RuleBased

/-! ## Sums, the transform over the reals, and the example tone -/

section Sums

variable {α : Type} [LinearOrderedField α]

theorem foldl_add_index {ι : Type} (f : ι → α) (l : List ι) (a : α) :
    l.foldl (fun acc i => acc + f i) a = a + (l.map f).sum := by
  induction l generalizing a with
  | nil => simp
  | cons x xs ih => simp [ih, add_assoc]

theorem sum_map_range (f : ℕ → α) (n : ℕ) :
    ((List.range n).map f).sum = ∑ i in Finset.range n, f i := by
  induction n with
  | zero => simp
  | succ n ih => simp [List.range_succ, Finset.sum_range_succ, ih]

theorem calculateAmplitude_map_range (f : ℕ → α) (n : ℕ) (hn : 0 < n) :
    calculateAmplitude ((List.range n).map f) = (∑ i in Finset.range n, |f i|) / (n : α) := by
  have hE : ((List.range n).map f).isEmpty = false := by
    cases n with
    | zero => omega
    | succ k => simp [List.range_succ]
  unfold calculateAmplitude
  simp only [hE, Bool.false_eq_true, if_false]
  rw [foldl_add_index (fun x => |x|), List.map_map, sum_map_range]
  simp

end Sums

section Trig

open Real

theorem two_sin_mul_sum_sin (θ : ℝ) (n : ℕ) :
    2 * sin (θ / 2) * ∑ t in Finset.range n, sin ((t : ℝ) * θ)
      = cos (θ / 2) - cos (((n : ℝ) - 1 / 2) * θ) := by
  induction n with
  | zero =>
    simp
    rw [show ((2 : ℝ)⁻¹ * θ) = θ / 2 by ring]; ring
  | succ n ih =>
    rw [Finset.sum_range_succ, mul_add, ih]
    have h := cos_sub_cos (((n : ℝ) - 1 / 2) * θ) ((((n + 1 : ℕ) : ℝ) - 1 / 2) * θ)
    push_cast at h ⊢
    rw [show ((n : ℝ) - 1 / 2) * θ + ((n : ℝ) + 1 - 1 / 2) * θ = 2 * ((n : ℝ) * θ) by ring,
      show ((n : ℝ) - 1 / 2) * θ - ((n : ℝ) + 1 - 1 / 2) * θ = -θ by ring] at h
    rw [show 2 * ((n : ℝ) * θ) / 2 = (n : ℝ) * θ by ring, show -θ / 2 = -(θ / 2) by ring,
      sin_neg] at h
    linarith

theorem two_sin_mul_sum_cos (θ : ℝ) (n : ℕ) :
    2 * sin (θ / 2) * ∑ t in Finset.range n, cos ((t : ℝ) * θ)
      = sin (((n : ℝ) - 1 / 2) * θ) + sin (θ / 2) := by
  induction n with
  | zero =>
    simp
    rw [show ((2 : ℝ)⁻¹ * θ) = θ / 2 by ring]; ring
  | succ n ih =>
    rw [Finset.sum_range_succ, mul_add, ih]
    have h := sin_sub_sin ((((n + 1 : ℕ) : ℝ) - 1 / 2) * θ) (((n : ℝ) - 1 / 2) * θ)
    push_cast at h ⊢
    rw [show ((n : ℝ) + 1 - 1 / 2) * θ + ((n : ℝ) - 1 / 2) * θ = 2 * ((n : ℝ) * θ) by ring,
      show ((n : ℝ) + 1 - 1 / 2) * θ - ((n : ℝ) - 1 / 2) * θ = θ by ring] at h
    rw [show 2 * ((n : ℝ) * θ) / 2 = (n : ℝ) * θ by ring] at h
    linarith

/-- Over a whole number of periods the sines sum to zero. -/
theorem sum_sin_periods (θ : ℝ) (n : ℕ) (m : ℤ) (hθ : (n : ℝ) * θ = (m : ℝ) * (2 * π)) :
    ∑ t in Finset.range n, sin ((t : ℝ) * θ) = 0 := by
  by_cases hs : sin (θ / 2) = 0
  · apply Finset.sum_eq_zero
    intro t _
    obtain ⟨j, hj⟩ := sin_eq_zero_iff.mp hs
    have : (t : ℝ) * θ = ((2 * (t : ℤ) * j : ℤ) : ℝ) * π := by
      push_cast; rw [show θ = 2 * (θ / 2) by ring, ← hj]; ring
    rw [this]; exact sin_int_mul_pi _
  · have h := two_sin_mul_sum_sin θ n
    rw [show ((n : ℝ) - 1 / 2) * θ = -(θ / 2) + (m : ℝ) * (2 * π) by rw [← hθ]; ring,
      cos_add_int_mul_two_pi, cos_neg, sub_self] at h
    rcases mul_eq_zero.mp h with h | h
    · exact absurd (by linarith : sin (θ / 2) = 0) hs
    · exact h

/-- Over a whole number of periods the cosines sum to zero, unless every term is `1`. -/
theorem sum_cos_periods (θ : ℝ) (n : ℕ) (m : ℤ) (hθ : (n : ℝ) * θ = (m : ℝ) * (2 * π))
    (hs : sin (θ / 2) ≠ 0) :
    ∑ t in Finset.range n, cos ((t : ℝ) * θ) = 0 := by
  have h := two_sin_mul_sum_cos θ n
  rw [show ((n : ℝ) - 1 / 2) * θ = -(θ / 2) + (m : ℝ) * (2 * π) by rw [← hθ]; ring,
    sin_add_int_mul_two_pi, sin_neg, neg_add_cancel] at h
  rcases mul_eq_zero.mp h with h | h
  · exact absurd (by linarith : sin (θ / 2) = 0) hs
  · exact h

end Trig

section Tone

open Real

/-- Angular step of the tone: `2π·1500/16000 = 3π/16`. -/
theorem toneSample_eq (t : ℕ) :
    0.1 * sin (2 * π * 1500 * (t : ℝ) / 16000) = 0.1 * sin ((t : ℝ) * (3 * π / 16)) := by
  rw [show 2 * π * 1500 * (t : ℝ) / 16000 = (t : ℝ) * (3 * π / 16) by ring]

theorem toneWindow_length : toneWindow.length = 1600 := by
  simp [toneWindow]

theorem toneWindow_getD (t : ℕ) (ht : t < 1600) :
    toneWindow.getD t 0 = 0.1 * sin ((t : ℝ) * (3 * π / 16)) := by
  unfold toneWindow
  rw [List.getD_eq_getElem _ _ (by simpa using ht)]
  simp only [List.getElem_map, List.getElem_range]
  exact toneSample_eq t

theorem tone_sum_sin : ∑ t in Finset.range 1600, sin ((t : ℝ) * (3 * π / 16)) = 0 :=
  sum_sin_periods (3 * π / 16) 1600 150 (by push_cast; ring)

theorem tone_sum_cos_double : ∑ t in Finset.range 1600, cos ((t : ℝ) * (3 * π / 8)) = 0 := by
  apply sum_cos_periods (3 * π / 8) 1600 300 (by push_cast; ring)
  apply ne_of_gt
  apply sin_pos_of_pos_of_lt_pi
  · positivity
  · have := pi_pos; linarith

theorem tone_sum_sin_sq : ∑ t in Finset.range 1600, sin ((t : ℝ) * (3 * π / 16)) ^ 2 = 800 := by
  have h : ∀ t : ℕ, sin ((t : ℝ) * (3 * π / 16)) ^ 2
      = 1 / 2 - cos ((t : ℝ) * (3 * π / 8)) / 2 := by
    intro t
    rw [sin_sq_eq_half_sub,
      show 2 * ((t : ℝ) * (3 * π / 16)) = (t : ℝ) * (3 * π / 8) by ring]
  simp only [h]
  have hc : ∑ t in Finset.range 1600, cos ((t : ℝ) * (3 * π / 8)) / 2 = 0 := by
    rw [← Finset.sum_div, tone_sum_cos_double, zero_div]
  rw [Finset.sum_sub_distrib, hc]
  simp
  norm_num

theorem abs_le_quadratic (s : ℝ) : |s| ≤ 3 / 8 + 2 / 3 * s ^ 2 := by
  have h := sq_nonneg (|s| - 3 / 4)
  have h2 : |s| ^ 2 = s ^ 2 := sq_abs s
  nlinarith

theorem tone_amplitude_le : calculateAmplitude toneWindow ≤ 17 / 240 := by
  unfold toneWindow
  rw [calculateAmplitude_map_range _ 1600 (by norm_num)]
  have hb : ∀ t ∈ Finset.range 1600,
      |0.1 * sin (2 * π * 1500 * (t : ℝ) / 16000)|
        ≤ 0.1 * (3 / 8 + 2 / 3 * sin ((t : ℝ) * (3 * π / 16)) ^ 2) := by
    intro t _
    rw [toneSample_eq, abs_mul, abs_of_pos (by norm_num : (0 : ℝ) < 0.1)]
    exact mul_le_mul_of_nonneg_left (abs_le_quadratic _) (by norm_num)
  have hsum := Finset.sum_le_sum hb
  rw [← Finset.mul_sum, Finset.sum_add_distrib, ← Finset.mul_sum, tone_sum_sin_sq] at hsum
  simp only [Finset.sum_const, Finset.card_range, nsmul_eq_mul] at hsum
  rw [div_le_iff₀ (by norm_num)]
  push_cast
  push_cast at hsum
  linarith

theorem tone_amplitude_ge : 1 / 20 ≤ calculateAmplitude toneWindow := by
  unfold toneWindow
  rw [calculateAmplitude_map_range _ 1600 (by norm_num)]
  have hb : ∀ t ∈ Finset.range 1600,
      0.1 * sin ((t : ℝ) * (3 * π / 16)) ^ 2
        ≤ |0.1 * sin (2 * π * 1500 * (t : ℝ) / 16000)| := by
    intro t _
    rw [toneSample_eq, abs_mul, abs_of_pos (by norm_num : (0 : ℝ) < 0.1)]
    apply mul_le_mul_of_nonneg_left _ (by norm_num)
    have h1 : |sin ((t : ℝ) * (3 * π / 16))| ≤ 1 := abs_sin_le_one _
    have h0 : 0 ≤ |sin ((t : ℝ) * (3 * π / 16))| := abs_nonneg _
    have h2 : |sin ((t : ℝ) * (3 * π / 16))| ^ 2 = sin ((t : ℝ) * (3 * π / 16)) ^ 2 := sq_abs _
    nlinarith
  have hsum := Finset.sum_le_sum hb
  rw [← Finset.mul_sum, tone_sum_sin_sq] at hsum
  rw [le_div_iff₀ (by norm_num)]
  push_cast
  linarith

end Tone

section Spectrum

open Real

variable {α : Type} [LinearOrderedField α]

theorem foldl_pair_eq_sum (g h : ℕ → α) (l : List ℕ) (a b : α) :
    l.foldl (fun (acc : α × α) (i : ℕ) => (acc.1 + g i, acc.2 + h i)) (a, b)
      = (a + (l.map g).sum, b + (l.map h).sum) := by
  induction l generalizing a b with
  | nil => simp
  | cons x xs ih => simp [ih, add_assoc]

theorem foldl_range_pair (g h : ℕ → α) (n : ℕ) :
    (List.range n).foldl (fun (acc : α × α) (i : ℕ) => (acc.1 + g i, acc.2 + h i)) (0, 0)
      = (∑ i in Finset.range n, g i, ∑ i in Finset.range n, h i) := by
  rw [foldl_pair_eq_sum, sum_map_range, sum_map_range, zero_add, zero_add]

theorem performSimpleFFT_length (m : CMath α) (w : List α) :
    (performSimpleFFT m w).length = w.length := by
  simp [performSimpleFFT]

theorem performSimpleFFT_getD (w : List ℝ) (k : ℕ) (hk : k < w.length) :
    (performSimpleFFT realCMath w).getD k (0, 0) = (binRe w k, binIm w k) := by
  unfold performSimpleFFT
  rw [List.getD_eq_getElem _ _ (by simpa using hk)]
  simp only [List.getElem_map, List.getElem_range]
  exact foldl_range_pair
    (fun t => w.getD t 0 * realCMath.cos (-2 * realCMath.pi * (k : ℝ) * (t : ℝ) / (w.length : ℝ)))
    (fun t => w.getD t 0 * realCMath.sin (-2 * realCMath.pi * (k : ℝ) * (t : ℝ) / (w.length : ℝ)))
    w.length

theorem complexAbs_fft (w : List ℝ) (k : ℕ) (hk : k < w.length) :
    complexAbs realCMath ((performSimpleFFT realCMath w).getD k (0, 0)) = binMag w k := by
  rw [performSimpleFFT_getD w k hk]
  rfl

theorem binMag_nonneg (w : List ℝ) (k : ℕ) : 0 ≤ binMag w k := Real.sqrt_nonneg _

theorem foldl_congr_mem {β γ : Type} (f g : β → γ → β) (l : List γ) (a : β)
    (h : ∀ b, ∀ x ∈ l, f b x = g b x) : l.foldl f a = l.foldl g a := by
  induction l generalizing a with
  | nil => rfl
  | cons x xs ih =>
    simp only [List.foldl_cons]
    rw [h a x (List.mem_cons_self _ _)]
    exact ih _ (fun b y hy => h b y (List.mem_cons_of_mem _ hy))

/-- The spectral centroid over the reals as a quotient of two finite sums. -/
theorem calculateSpectralCentroid_eq (w : List ℝ) (hne : w ≠ []) :
    calculateSpectralCentroid realCMath w
      = if 0 < ∑ i in Finset.range w.length, binMag w i
        then (∑ i in Finset.range w.length,
                (i : ℝ) * (YAMNetConfig.SAMPLE_RATE : ℝ) / (w.length : ℝ) * binMag w i)
              / ∑ i in Finset.range w.length, binMag w i
        else 0 := by
  have hE : w.isEmpty = false := by
    cases w with
    | nil => exact absurd rfl hne
    | cons x xs => rfl
  unfold calculateSpectralCentroid
  simp only [hE, Bool.false_eq_true, if_false, performSimpleFFT_length]
  rw [foldl_congr_mem _
    (fun (acc : ℝ × ℝ) (i : ℕ) =>
      (acc.1 + (i : ℝ) * (YAMNetConfig.SAMPLE_RATE : ℝ) / (w.length : ℝ) * binMag w i,
       acc.2 + binMag w i))
    (List.range w.length) (0, 0)
    (by
      intro b i hi
      rw [complexAbs_fft w i (List.mem_range.mp hi)])]
  rw [foldl_range_pair]

end Spectrum

section Symmetry

open Real

theorem bin_angle_reflect (n k t : ℕ) (hn : 0 < n) (hk : k ≤ n) :
    -2 * π * ((n - k : ℕ) : ℝ) * (t : ℝ) / (n : ℝ)
      = -(-2 * π * (k : ℝ) * (t : ℝ) / (n : ℝ)) - (t : ℝ) * (2 * π) := by
  have hn0 : (n : ℝ) ≠ 0 := by exact_mod_cast hn.ne'
  rw [Nat.cast_sub hk]
  field_simp
  ring

theorem binRe_reflect (w : List ℝ) (k : ℕ) (hk : k ≤ w.length) (hn : 0 < w.length) :
    binRe w (w.length - k) = binRe w k := by
  unfold binRe
  apply Finset.sum_congr rfl
  intro t _
  rw [bin_angle_reflect w.length k t hn hk, cos_sub_nat_mul_two_pi, cos_neg]

theorem binIm_reflect (w : List ℝ) (k : ℕ) (hk : k ≤ w.length) (hn : 0 < w.length) :
    binIm w (w.length - k) = -binIm w k := by
  unfold binIm
  rw [← Finset.sum_neg_distrib]
  apply Finset.sum_congr rfl
  intro t _
  rw [bin_angle_reflect w.length k t hn hk, sin_sub_nat_mul_two_pi, sin_neg, mul_neg]

theorem binMag_reflect (w : List ℝ) (k : ℕ) (hk : k ≤ w.length) (hn : 0 < w.length) :
    binMag w (w.length - k) = binMag w k := by
  unfold binMag
  rw [binRe_reflect w k hk hn, binIm_reflect w k hk hn]
  congr 1; ring

/-- The index-weighted sum of a sequence with `f (n - k) = f k` for `1 ≤ k < n`:
twice the sum is `n` times the sum of the terms after the first. -/
theorem two_mul_sum_index_mul (f : ℕ → ℝ) (n : ℕ)
    (hsym : ∀ k, 1 ≤ k → k < n → f (n - k) = f k) :
    2 * ∑ i in Finset.range n, (i : ℝ) * f i
      = (n : ℝ) * (∑ i in Finset.range n, f i - f 0) := by
  cases n with
  | zero => simp
  | succ n' =>
    rw [Finset.sum_range_succ', Finset.sum_range_succ' (fun i => f i)]
    simp only [Nat.cast_zero, zero_mul, add_zero, add_sub_cancel_right]
    have hrefl : ∑ j in Finset.range n', ((j + 1 : ℕ) : ℝ) * f (j + 1)
        = ∑ j in Finset.range n', ((n' - j : ℕ) : ℝ) * f (j + 1) := by
      rw [← Finset.sum_range_reflect]
      apply Finset.sum_congr rfl
      intro j hj
      have hj' : j < n' := Finset.mem_range.mp hj
      have h1 : n' - 1 - j + 1 = n' - j := by omega
      rw [h1]
      have h2 : f (n' - j) = f (j + 1) := by
        have := hsym (j + 1) (by omega) (by omega)
        rw [show n' + 1 - (j + 1) = n' - j by omega] at this
        exact this
      rw [h2]
    have hadd : ∑ j in Finset.range n', ((j + 1 : ℕ) : ℝ) * f (j + 1)
        + ∑ j in Finset.range n', ((n' - j : ℕ) : ℝ) * f (j + 1)
        = ((n' + 1 : ℕ) : ℝ) * ∑ j in Finset.range n', f (j + 1) := by
      rw [← Finset.sum_add_distrib, Finset.mul_sum]
      apply Finset.sum_congr rfl
      intro j hj
      have hj' : j < n' := Finset.mem_range.mp hj
      rw [Nat.cast_sub (le_of_lt hj')]
      push_cast
      ring
    rw [← hadd, ← hrefl]
    ring

/-- The centroid of a real window: the sum runs over all `N` bins and the
magnitudes are mirror-symmetric, so the centroid is `8000 * (1 - |X[0]| / M)`. -/
theorem calculateSpectralCentroid_symm (w : List ℝ) (hne : w ≠ [])
    (hM : 0 < ∑ i in Finset.range w.length, binMag w i) :
    calculateSpectralCentroid realCMath w
      = 8000 * (1 - binMag w 0 / ∑ i in Finset.range w.length, binMag w i) := by
  have hn : 0 < w.length := List.length_pos.mpr hne
  have hn0 : (w.length : ℝ) ≠ 0 := by exact_mod_cast hn.ne'
  rw [calculateSpectralCentroid_eq w hne, if_pos hM]
  have h2 := two_mul_sum_index_mul (binMag w) w.length
    (fun k _ hk => binMag_reflect w k (le_of_lt hk) hn)
  have hW : ∑ i in Finset.range w.length,
        (i : ℝ) * (YAMNetConfig.SAMPLE_RATE : ℝ) / (w.length : ℝ) * binMag w i
      = (YAMNetConfig.SAMPLE_RATE : ℝ) / (w.length : ℝ)
          * ∑ i in Finset.range w.length, (i : ℝ) * binMag w i := by
    rw [Finset.mul_sum]
    apply Finset.sum_congr rfl
    intro i _
    ring
  rw [hW]
  have hSR : (YAMNetConfig.SAMPLE_RATE : ℝ) = 16000 := by norm_num [YAMNetConfig.SAMPLE_RATE]
  rw [hSR]
  have hM0 : (∑ i in Finset.range w.length, binMag w i) ≠ 0 := hM.ne'
  rw [div_eq_iff hM0, mul_assoc, sub_mul, one_mul, div_mul_cancel₀ _ hM0,
    div_mul_eq_mul_div, div_eq_iff hn0]
  linear_combination 8000 * h2

end Symmetry

section Orthogonality

open Real

/-- Sum of the sines of the multiples of `2πm/N` over one full index range. -/
theorem sum_sin_int (N : ℕ) (hN : 0 < N) (m : ℤ) :
    ∑ t in Finset.range N, sin ((t : ℝ) * (2 * π * (m : ℝ) / (N : ℝ))) = 0 := by
  have hN0 : (N : ℝ) ≠ 0 := by exact_mod_cast hN.ne'
  exact sum_sin_periods _ N m (by field_simp; ring)

/-- Sum of the cosines of the multiples of `2πm/N` over one full index range. -/
theorem sum_cos_int (N : ℕ) (hN : 0 < N) (m : ℤ) :
    ∑ t in Finset.range N, cos ((t : ℝ) * (2 * π * (m : ℝ) / (N : ℝ)))
      = if (N : ℤ) ∣ m then (N : ℝ) else 0 := by
  have hN0 : (N : ℝ) ≠ 0 := by exact_mod_cast hN.ne'
  split_ifs with hdiv
  · obtain ⟨j, hj⟩ := hdiv
    have h1 : ∀ t ∈ Finset.range N, cos ((t : ℝ) * (2 * π * (m : ℝ) / (N : ℝ))) = 1 := by
      intro t _
      have : (t : ℝ) * (2 * π * (m : ℝ) / (N : ℝ)) = (((t : ℤ) * j : ℤ) : ℝ) * (2 * π) := by
        rw [hj]; push_cast; field_simp; ring
      rw [this]
      exact cos_int_mul_two_pi _
    rw [Finset.sum_congr rfl h1]
    simp
  · apply sum_cos_periods _ N m (by field_simp; ring)
    intro hs
    obtain ⟨j, hj⟩ := sin_eq_zero_iff.mp hs
    apply hdiv
    refine ⟨j, ?_⟩
    have hpi : π ≠ 0 := pi_ne_zero
    have h2 : (m : ℝ) = (N : ℝ) * (j : ℝ) := by
      field_simp at hj
      have : π * ((j : ℝ) * (N : ℝ)) = π * (m : ℝ) := by linarith
      have := mul_left_cancel₀ hpi this
      linarith
    exact_mod_cast h2

theorem tone_bin_angle (k t : ℕ) :
    -2 * π * (k : ℝ) * (t : ℝ) / ((1600 : ℕ) : ℝ)
      = -((t : ℝ) * (2 * π * ((k : ℤ) : ℝ) / ((1600 : ℕ) : ℝ))) := by
  push_cast; ring

theorem tone_angle (t : ℕ) :
    (t : ℝ) * (3 * π / 16) = (t : ℝ) * (2 * π * ((150 : ℤ) : ℝ) / ((1600 : ℕ) : ℝ)) := by
  push_cast; ring

theorem toneWindow_binRe (k : ℕ) : binRe toneWindow k = 0 := by
  unfold binRe
  rw [toneWindow_length]
  have h : ∀ t ∈ Finset.range 1600,
      toneWindow.getD t 0 * cos (-2 * π * (k : ℝ) * (t : ℝ) / ((1600 : ℕ) : ℝ))
        = 0.05 * sin ((t : ℝ) * (2 * π * ((150 + k : ℤ) : ℝ) / ((1600 : ℕ) : ℝ)))
          + 0.05 * sin ((t : ℝ) * (2 * π * ((150 - k : ℤ) : ℝ) / ((1600 : ℕ) : ℝ))) := by
    intro t ht
    rw [toneWindow_getD t (Finset.mem_range.mp ht), tone_bin_angle, cos_neg, tone_angle]
    have e1 : (t : ℝ) * (2 * π * ((150 + k : ℤ) : ℝ) / ((1600 : ℕ) : ℝ))
        = (t : ℝ) * (2 * π * ((150 : ℤ) : ℝ) / ((1600 : ℕ) : ℝ))
          + (t : ℝ) * (2 * π * ((k : ℤ) : ℝ) / ((1600 : ℕ) : ℝ)) := by push_cast; ring
    have e2 : (t : ℝ) * (2 * π * ((150 - k : ℤ) : ℝ) / ((1600 : ℕ) : ℝ))
        = (t : ℝ) * (2 * π * ((150 : ℤ) : ℝ) / ((1600 : ℕ) : ℝ))
          - (t : ℝ) * (2 * π * ((k : ℤ) : ℝ) / ((1600 : ℕ) : ℝ)) := by push_cast; ring
    rw [e1, e2, sin_add, sin_sub]
    ring
  rw [Finset.sum_congr rfl h, Finset.sum_add_distrib, ← Finset.mul_sum, ← Finset.mul_sum,
    sum_sin_int 1600 (by norm_num), sum_sin_int 1600 (by norm_num)]
  ring

theorem toneWindow_binIm (k : ℕ) (hk : k < 1600) :
    binIm toneWindow k = if k = 150 then -80 else if k = 1450 then 80 else 0 := by
  unfold binIm
  rw [toneWindow_length]
  have h : ∀ t ∈ Finset.range 1600,
      toneWindow.getD t 0 * sin (-2 * π * (k : ℝ) * (t : ℝ) / ((1600 : ℕ) : ℝ))
        = 0.05 * cos ((t : ℝ) * (2 * π * ((150 + k : ℤ) : ℝ) / ((1600 : ℕ) : ℝ)))
          - 0.05 * cos ((t : ℝ) * (2 * π * ((150 - k : ℤ) : ℝ) / ((1600 : ℕ) : ℝ))) := by
    intro t ht
    rw [toneWindow_getD t (Finset.mem_range.mp ht), tone_bin_angle, sin_neg, tone_angle]
    have e1 : (t : ℝ) * (2 * π * ((150 + k : ℤ) : ℝ) / ((1600 : ℕ) : ℝ))
        = (t : ℝ) * (2 * π * ((150 : ℤ) : ℝ) / ((1600 : ℕ) : ℝ))
          + (t : ℝ) * (2 * π * ((k : ℤ) : ℝ) / ((1600 : ℕ) : ℝ)) := by push_cast; ring
    have e2 : (t : ℝ) * (2 * π * ((150 - k : ℤ) : ℝ) / ((1600 : ℕ) : ℝ))
        = (t : ℝ) * (2 * π * ((150 : ℤ) : ℝ) / ((1600 : ℕ) : ℝ))
          - (t : ℝ) * (2 * π * ((k : ℤ) : ℝ) / ((1600 : ℕ) : ℝ)) := by push_cast; ring
    rw [e1, e2, cos_add, cos_sub]
    ring
  rw [Finset.sum_congr rfl h, Finset.sum_sub_distrib, ← Finset.mul_sum, ← Finset.mul_sum,
    sum_cos_int 1600 (by norm_num), sum_cos_int 1600 (by norm_num)]
  by_cases h150 : k = 150
  · subst h150
    norm_num
  · by_cases h1450 : k = 1450
    · subst h1450
      norm_num
    · have hd1 : ¬ (((1600 : ℕ) : ℤ) ∣ (150 + k : ℤ)) := by
        push_cast; omega
      have hd2 : ¬ (((1600 : ℕ) : ℤ) ∣ (150 - k : ℤ)) := by
        push_cast; omega
      rw [if_neg hd1, if_neg hd2, if_neg h150, if_neg h1450]
      ring

theorem toneWindow_binMag (k : ℕ) (hk : k < 1600) :
    binMag toneWindow k = if k = 150 ∨ k = 1450 then 80 else 0 := by
  unfold binMag
  rw [toneWindow_binRe, toneWindow_binIm k hk]
  by_cases h150 : k = 150
  · rw [if_pos h150, if_pos (Or.inl h150)]
    rw [show (0 : ℝ) * 0 + -80 * -80 = 80 * 80 by norm_num]
    exact sqrt_mul_self (by norm_num)
  · by_cases h1450 : k = 1450
    · rw [if_neg h150, if_pos h1450, if_pos (Or.inr h1450)]
      rw [show (0 : ℝ) * 0 + 80 * 80 = 80 * 80 by norm_num]
      exact sqrt_mul_self (by norm_num)
    · rw [if_neg h150, if_neg h1450, if_neg (by tauto)]
      simp

end Orthogonality

section ToneSpectrum

open Real

variable {α : Type} [LinearOrderedField α]

theorem take_map_range_sum (f : ℕ → α) (n p : ℕ) (hp : p ≤ n) :
    (((List.range n).map f).take p).sum = ∑ i in Finset.range p, f i := by
  rw [← List.map_take, List.take_range, Nat.min_eq_left hp, sum_map_range]

/-- The scan returns the first index at which the running sum reaches the
threshold. -/
theorem rolloffScan_eq_some (threshold : α) (l : List α) (i : ℕ) (cum : α) (K : ℕ)
    (hK : K < l.length)
    (hlow : ∀ p, p < K → cum + (l.take (p + 1)).sum < threshold)
    (hhigh : threshold ≤ cum + (l.take (K + 1)).sum) :
    rolloffScan threshold l i cum = some (i + K) := by
  induction l generalizing i cum K with
  | nil => simp at hK
  | cons x xs ih =>
    cases K with
    | zero =>
      have : threshold ≤ cum + x := by simpa using hhigh
      simp [rolloffScan, this]
    | succ K' =>
      have h0 : cum + x < threshold := by simpa using hlow 0 (Nat.succ_pos _)
      have hnot : ¬ (cum + x ≥ threshold) := not_le.mpr h0
      simp only [rolloffScan, hnot, if_false]
      rw [ih (i + 1) (cum + x) K' (by simpa using hK)
        (fun p hp => by
          have := hlow (p + 1) (by omega)
          simpa [add_assoc] using this)
        (by simpa [add_assoc] using hhigh)]
      congr 1; omega

theorem fft_magnitudes (w : List ℝ) :
    (performSimpleFFT realCMath w).map (complexAbs realCMath)
      = (List.range w.length).map (binMag w) := by
  apply List.ext_getElem
  · simp [performSimpleFFT_length]
  · intro i h1 h2
    have hi : i < w.length := by simpa [performSimpleFFT_length] using h1
    simp only [List.getElem_map, List.getElem_range]
    rw [← complexAbs_fft w i hi, List.getD_eq_getElem _ _ (by simpa [performSimpleFFT_length] using hi)]

/-- The spectral rolloff over the reals in terms of the bin magnitudes. -/
theorem calculateSpectralRolloff_eq (w : List ℝ) (hne : w ≠ []) :
    calculateSpectralRolloff realCMath w
      = match rolloffScan ((∑ i in Finset.range w.length, binMag w i) * 0.85)
          ((List.range w.length).map (binMag w)) 0 0 with
        | some i => (i : ℝ) * (YAMNetConfig.SAMPLE_RATE : ℝ) / (w.length : ℝ)
        | none => (YAMNetConfig.SAMPLE_RATE : ℝ) / 2 := by
  have hE : w.isEmpty = false := by
    cases w with
    | nil => exact absurd rfl hne
    | cons x xs => rfl
  unfold calculateSpectralRolloff
  simp only [hE, Bool.false_eq_true, if_false, fft_magnitudes]
  rw [foldl_add_index (fun x => x), List.map_id', sum_map_range, zero_add]
  simp

theorem tone_prefix_sum (p : ℕ) (hp : p ≤ 1600) :
    ∑ i in Finset.range p, binMag toneWindow i
      = (if 150 < p then 80 else 0) + (if 1450 < p then 80 else 0) := by
  have h : ∀ i ∈ Finset.range p, binMag toneWindow i
      = (if i = 150 then (80 : ℝ) else 0) + (if i = 1450 then (80 : ℝ) else 0) := by
    intro i hi
    rw [toneWindow_binMag i (by have := Finset.mem_range.mp hi; omega)]
    by_cases h1 : i = 150
    · subst h1; norm_num
    · by_cases h2 : i = 1450
      · subst h2; norm_num
      · simp [h1, h2]
  rw [Finset.sum_congr rfl h, Finset.sum_add_distrib, Finset.sum_ite_eq', Finset.sum_ite_eq']
  simp only [Finset.mem_range]

theorem tone_total_magnitude : ∑ i in Finset.range 1600, binMag toneWindow i = 160 := by
  rw [tone_prefix_sum 1600 (le_refl _)]
  norm_num

theorem tone_centroid : calculateSpectralCentroid realCMath toneWindow = 8000 := by
  have hne : toneWindow ≠ [] := by
    intro h
    have := toneWindow_length
    rw [h] at this
    simp at this
  have hM : 0 < ∑ i in Finset.range toneWindow.length, binMag toneWindow i := by
    rw [toneWindow_length, tone_total_magnitude]; norm_num
  rw [calculateSpectralCentroid_symm toneWindow hne hM, toneWindow_binMag 0 (by norm_num)]
  norm_num

theorem tone_rolloff : calculateSpectralRolloff realCMath toneWindow = 14500 := by
  have hne : toneWindow ≠ [] := by
    intro h
    have := toneWindow_length
    rw [h] at this
    simp at this
  rw [calculateSpectralRolloff_eq toneWindow hne, toneWindow_length, tone_total_magnitude]
  rw [rolloffScan_eq_some ((160 : ℝ) * 0.85) _ 0 0 1450 (by simp)
    (fun p hp => by
      rw [take_map_range_sum _ 1600 (p + 1) (by omega), tone_prefix_sum (p + 1) (by omega),
        if_neg (show ¬ (1450 < p + 1) by omega)]
      split_ifs <;> norm_num)
    (by
      rw [take_map_range_sum _ 1600 (1450 + 1) (by omega), tone_prefix_sum (1450 + 1) (by omega)]
      norm_num)]
  norm_num [YAMNetConfig.SAMPLE_RATE]

end ToneSpectrum

section ToneTemporal

open Real

set_option maxRecDepth 100000 in
theorem toneCrossings_value : toneCrossings 1599 = 299 := by
  decide

/-- Sign of a tone sample: `sin (t · 3π/16) ≥ 0` exactly when `3 t mod 32 ≤ 16`. -/
theorem tone_sample_nonneg_iff (t : ℕ) (ht : t < 1600) :
    toneWindow.getD t 0 ≥ 0 ↔ (3 * t) % 32 ≤ 16 := by
  rw [toneWindow_getD t ht]
  have hdecomp : 3 * t = 32 * (3 * t / 32) + (3 * t) % 32 := (Nat.div_add_mod _ _).symm
  have hreal : (t : ℝ) * (3 * π / 16)
      = (((3 * t) % 32 : ℕ) : ℝ) * (π / 16) + ((3 * t / 32 : ℕ) : ℝ) * (2 * π) := by
    have h3 : (3 : ℝ) * (t : ℝ) = 32 * ((3 * t / 32 : ℕ) : ℝ) + (((3 * t) % 32 : ℕ) : ℝ) := by
      exact_mod_cast hdecomp
    linear_combination (π / 16) * h3
  rw [hreal, sin_add_nat_mul_two_pi]
  have hr : (3 * t) % 32 < 32 := Nat.mod_lt _ (by norm_num)
  have hpi := pi_pos
  constructor
  · intro h
    by_contra hgt
    push_neg at hgt
    have hlt : sin ((((3 * t) % 32 : ℕ) : ℝ) * (π / 16)) < 0 := by
      rw [← sin_sub_two_pi]
      apply sin_neg_of_neg_of_neg_pi_lt
      · have : (((3 * t) % 32 : ℕ) : ℝ) < 32 := by exact_mod_cast hr
        nlinarith
      · have : (17 : ℝ) ≤ (((3 * t) % 32 : ℕ) : ℝ) := by exact_mod_cast hgt
        nlinarith
    nlinarith
  · intro h
    have h0 : 0 ≤ sin ((((3 * t) % 32 : ℕ) : ℝ) * (π / 16)) := by
      apply sin_nonneg_of_nonneg_of_le_pi
      · positivity
      · have : (((3 * t) % 32 : ℕ) : ℝ) ≤ 16 := by exact_mod_cast h
        nlinarith
    have : (0 : ℝ) ≤ 0.1 * sin ((((3 * t) % 32 : ℕ) : ℝ) * (π / 16)) :=
      mul_nonneg (by norm_num) h0
    exact this

theorem tone_zeroCrossingRate : calculateZeroCrossingRate toneWindow = 299 / 1600 := by
  unfold calculateZeroCrossingRate
  rw [toneWindow_length]
  simp only [show ¬ (1600 < 2) by norm_num, if_false]
  rw [foldl_congr_mem _
    (fun (crossings : ℕ) (i : ℕ) =>
      if decide ((3 * i) % 32 ≤ 16) != decide ((3 * (i - 1)) % 32 ≤ 16)
      then crossings + 1 else crossings)
    (List.range' 1 (1600 - 1)) 0
    (by
      intro b i hi
      have hi' := List.mem_range'_1.mp hi
      have e1 : decide (toneWindow.getD i 0 ≥ 0) = decide ((3 * i) % 32 ≤ 16) :=
        decide_eq_decide.mpr (tone_sample_nonneg_iff i (by omega))
      have e2 : decide (toneWindow.getD (i - 1) 0 ≥ 0) = decide ((3 * (i - 1)) % 32 ≤ 16) :=
        decide_eq_decide.mpr (tone_sample_nonneg_iff (i - 1) (by omega))
      rw [e1, e2])]
  have h := toneCrossings_value
  unfold toneCrossings at h
  rw [show 1600 - 1 = 1599 by norm_num, h]
  norm_num

/-- The mel energy score over the reals in terms of the bin magnitudes. -/
theorem calculateMFCC_eq (w : List ℝ) (hne : w ≠ []) :
    calculateMFCC realCMath w
      = if 0 < ∑ i in Finset.range w.length,
            (if (YAMNetConfig.MEL_MIN_FREQ : ℝ)
                  ≤ (i : ℝ) * (YAMNetConfig.SAMPLE_RATE : ℝ) / (w.length : ℝ)
                ∧ (i : ℝ) * (YAMNetConfig.SAMPLE_RATE : ℝ) / (w.length : ℝ)
                  ≤ (YAMNetConfig.MEL_MAX_FREQ : ℝ)
              then binMag w i else 0)
        then Real.log (∑ i in Finset.range w.length,
            (if (YAMNetConfig.MEL_MIN_FREQ : ℝ)
                  ≤ (i : ℝ) * (YAMNetConfig.SAMPLE_RATE : ℝ) / (w.length : ℝ)
                ∧ (i : ℝ) * (YAMNetConfig.SAMPLE_RATE : ℝ) / (w.length : ℝ)
                  ≤ (YAMNetConfig.MEL_MAX_FREQ : ℝ)
              then binMag w i else 0))
        else 0 := by
  have hE : w.isEmpty = false := by
    cases w with
    | nil => exact absurd rfl hne
    | cons x xs => rfl
  unfold calculateMFCC
  simp only [hE, Bool.false_eq_true, if_false, performSimpleFFT_length]
  rw [foldl_congr_mem _
    (fun (melEnergy : ℝ) (i : ℕ) => melEnergy +
      (if (YAMNetConfig.MEL_MIN_FREQ : ℝ)
            ≤ (i : ℝ) * (YAMNetConfig.SAMPLE_RATE : ℝ) / (w.length : ℝ)
          ∧ (i : ℝ) * (YAMNetConfig.SAMPLE_RATE : ℝ) / (w.length : ℝ)
            ≤ (YAMNetConfig.MEL_MAX_FREQ : ℝ)
        then binMag w i else 0))
    (List.range w.length) 0
    (by
      intro b i hi
      rw [complexAbs_fft w i (List.mem_range.mp hi)]
      simp only [ge_iff_le]
      split_ifs <;> simp)]
  rw [foldl_add_index, sum_map_range, zero_add]
  rfl

theorem tone_melEnergy : calculateMFCC realCMath toneWindow = Real.log 80 := by
  have hne : toneWindow ≠ [] := by
    intro h
    have := toneWindow_length
    rw [h] at this
    simp at this
  rw [calculateMFCC_eq toneWindow hne, toneWindow_length]
  have h : ∀ i ∈ Finset.range 1600,
      (if (YAMNetConfig.MEL_MIN_FREQ : ℝ)
            ≤ (i : ℝ) * (YAMNetConfig.SAMPLE_RATE : ℝ) / ((1600 : ℕ) : ℝ)
          ∧ (i : ℝ) * (YAMNetConfig.SAMPLE_RATE : ℝ) / ((1600 : ℕ) : ℝ)
            ≤ (YAMNetConfig.MEL_MAX_FREQ : ℝ)
        then binMag toneWindow i else 0)
        = if i = 150 then (80 : ℝ) else 0 := by
    intro i hi
    rw [toneWindow_binMag i (Finset.mem_range.mp hi)]
    by_cases h1 : i = 150
    · subst h1
      norm_num [YAMNetConfig.MEL_MIN_FREQ, YAMNetConfig.MEL_MAX_FREQ, YAMNetConfig.SAMPLE_RATE]
    · by_cases h2 : i = 1450
      · subst h2
        norm_num [YAMNetConfig.MEL_MIN_FREQ, YAMNetConfig.MEL_MAX_FREQ,
          YAMNetConfig.SAMPLE_RATE]
      · simp [h1, h2]
  rw [Finset.sum_congr rfl h, Finset.sum_ite_eq']
  simp

theorem log_eighty_gt : (0.1 : ℝ) < Real.log 80 := by
  rw [Real.lt_log_iff_exp_lt (by norm_num)]
  have h1 : Real.exp 0.1 ≤ Real.exp 1 := Real.exp_le_exp.mpr (by norm_num)
  have h2 := Real.exp_one_lt_d9
  linarith

end ToneTemporal

section ToneExample

open Real

theorem tone_indicators :
    windowIndicators realCMath toneWindow
      = { hasHighAmplitude := false, hasModerateZCR := true,
          hasHighFrequencyContent := false, hasAppropriateRolloff := false,
          hasCoughMFCC := true } := by
  have ha := tone_amplitude_le
  have hl := log_eighty_gt
  unfold windowIndicators indicatorsOf
  rw [tone_zeroCrossingRate, tone_centroid, tone_rolloff, tone_melEnergy]
  have h1 : decide (calculateAmplitude toneWindow > 0.08) = false :=
    decide_eq_false (by norm_num; linarith)
  have h5 : decide (Real.log 80 > 0.1) = true := decide_eq_true hl
  rw [h1, h5]
  norm_num

theorem toneWindow_isEmpty : toneWindow.isEmpty = false := by
  cases h : toneWindow with
  | nil =>
    have := toneWindow_length
    rw [h] at this
    simp at this
  | cons x xs => rfl

/-- C4 (as stated, refuted). For the 1600-sample 1500 Hz tone of amplitude `0.1`
the amplitude feature is not above `0.08`, the spectral centroid is not inside
`(800, 3000)`, the confidence is not at least `0.80`, and `isCough` is false. -/
theorem tone_example_counterexample :
    ¬ (calculateAmplitude toneWindow > 0.08)
    ∧ ¬ (800 < calculateSpectralCentroid realCMath toneWindow
          ∧ calculateSpectralCentroid realCMath toneWindow < 3000)
    ∧ ¬ ((detectCoughRuleBased realCMath toneWindow).confidence ≥ 0.80)
    ∧ (detectCoughRuleBased realCMath toneWindow).isCough = false := by
  have ha := tone_amplitude_le
  refine ⟨by norm_num; linarith, by rw [tone_centroid]; norm_num, ?_, ?_⟩
  · simp only [detectCoughRuleBased, toneWindow_isEmpty, Bool.false_eq_true, if_false,
      tone_indicators]
    norm_num [ruleDecision, ruleConfidence, weightedScore, addIndicator, addBonus]
  · simp only [detectCoughRuleBased, toneWindow_isEmpty, Bool.false_eq_true, if_false,
      tone_indicators]
    norm_num [ruleDecision, ruleConfidence, weightedScore, addIndicator, addBonus]

/-- C4 (amended). For the 1600-sample window `x[t] = 0.1 sin(2π·1500·t/16000)`,
over exact real arithmetic: the amplitude lies in `[0.05, 17/240]`, below `0.08`;
the zero-crossing rate is `299/1600`, inside `(0.03, 0.25)`; the spectral centroid
is `8000`; the spectral rolloff is `14500`; the mel energy score is `log 80 > 0.1`.
So exactly the zero-crossing and mel predicates hold, and `detectCoughRuleBased`
returns confidence `0.35` and `isCough = false`. -/
theorem tone_example_features :
    toneWindow.length = 1600
    ∧ 1 / 20 ≤ calculateAmplitude toneWindow
    ∧ calculateAmplitude toneWindow ≤ 17 / 240
    ∧ calculateZeroCrossingRate toneWindow = 299 / 1600
    ∧ calculateSpectralCentroid realCMath toneWindow = 8000
    ∧ calculateSpectralRolloff realCMath toneWindow = 14500
    ∧ calculateMFCC realCMath toneWindow = Real.log 80
    ∧ (0.1 : ℝ) < Real.log 80
    ∧ windowIndicators realCMath toneWindow
        = { hasHighAmplitude := false, hasModerateZCR := true,
            hasHighFrequencyContent := false, hasAppropriateRolloff := false,
            hasCoughMFCC := true }
    ∧ (detectCoughRuleBased realCMath toneWindow).confidence = 0.35
    ∧ (detectCoughRuleBased realCMath toneWindow).isCough = false := by
  refine ⟨toneWindow_length, tone_amplitude_ge, tone_amplitude_le, tone_zeroCrossingRate,
    tone_centroid, tone_rolloff, tone_melEnergy, log_eighty_gt, tone_indicators, ?_, ?_⟩
  · simp only [detectCoughRuleBased, toneWindow_isEmpty, Bool.false_eq_true, if_false,
      tone_indicators]
    norm_num [ruleDecision, ruleConfidence, weightedScore, addIndicator, addBonus]
  · simp only [detectCoughRuleBased, toneWindow_isEmpty, Bool.false_eq_true, if_false,
      tone_indicators]
    norm_num [ruleDecision, ruleConfidence, weightedScore, addIndicator, addBonus]

end ToneExample

/-! ## Detection engine -/

section Engine

open CoughDetectEngine

variable {α : Type} [LinearOrderedField α]

theorem AudioRecorder.start_ok (r : AudioRecorder α) (hs : r.audioStream_ = true) :
    (r.start DeviceReply.ok).1 = true := by
  unfold AudioRecorder.start
  cases hr : r.isRecording_ <;> simp [hs]

theorem AudioRecorder.start_not_ok (r : AudioRecorder α) (reply : DeviceReply)
    (hr : r.isRecording_ = false) (hreply : reply ≠ DeviceReply.ok) :
    (r.start reply).1 = false := by
  unfold AudioRecorder.start
  cases reply <;> cases hs : r.audioStream_ <;> simp_all

theorem TensorFlowWrapper.initialise_fst (tf : Bool) (w : TensorFlowWrapper) (path : String)
    (load : ModelLoad) : (w.initialise tf path load).1 = true := by
  unfold TensorFlowWrapper.initialise
  split
  · rfl
  · split
    · cases load <;> rfl
    · rfl

theorem initialise_opened (e : CoughDetectEngine α) (path : String) (s tf : Bool)
    (load : ModelLoad) :
    (e.initialise path (OpenReply.opened s) tf load).1 = true
    ∧ (e.initialise path (OpenReply.opened s) tf load).2.isReady_ = true
    ∧ (e.initialise path (OpenReply.opened s) tf load).2.state_ = EngineState.IDLE := by
  simp [initialise, AudioRecorder.initialise, TensorFlowWrapper.initialise_fst]

theorem initialise_not_opened (e : CoughDetectEngine α) (path : String) (reply : OpenReply)
    (tf : Bool) (load : ModelLoad) (h : ∀ s, reply ≠ OpenReply.opened s) :
    (e.initialise path reply tf load).1 = false
    ∧ (e.initialise path reply tf load).2.isReady_ = e.isReady_
    ∧ (e.initialise path reply tf load).2.state_ = e.state_ := by
  cases reply with
  | opened s => exact absurd rfl (h s)
  | failed => simp [initialise, AudioRecorder.initialise]
  | raised => simp [initialise, AudioRecorder.initialise]

theorem start_not_ready (e : CoughDetectEngine α) (reply : DeviceReply)
    (h : e.isReady_ = false) : e.start reply = (false, e) := by
  simp [start, h]

theorem start_failed (e : CoughDetectEngine α) (reply : DeviceReply)
    (h : e.isReady_ = true) (hne : e.state_ ≠ EngineState.RECORDING)
    (hr : (e.audioRecorder_.start reply).1 = false) :
    (e.start reply).1 = false ∧ (e.start reply).2.state_ = e.state_
      ∧ (e.start reply).2.isReady_ = e.isReady_
      ∧ (e.start reply).2.audioLevel_ = e.audioLevel_ := by
  simp [start, h, hne, hr]

theorem processAudioDataTry_callback (e : CoughDetectEngine α)
    (detect : List α → Except String (DetectionResult α)) (audioData : List α)
    (amplitude : α) :
    (e.processAudioDataTry detect audioData amplitude).engine.audioEventCallback_
      = e.audioEventCallback_ := by
  unfold processAudioDataTry
  dsimp only
  repeat' split
  all_goals rfl

theorem processAudioData_no_fault (e : CoughDetectEngine α) (callback : AudioEventCallback α)
    (detect : List α → Except String (DetectionResult α)) (result : DetectionResult α)
    (audioData : List α) (amplitude : α)
    (hcb : e.audioEventCallback_ = some callback)
    (hlevel : callback (levelEvent amplitude) = Except.ok ())
    (hdet : detect audioData = Except.ok result)
    (hcough : e.state_ = EngineState.RECORDING → result.isCough = true →
      callback (coughEvent result.confidence amplitude audioData) = Except.ok ()) :
    e.processAudioData detect audioData amplitude
      = { engine := { e with audioLevel_ := amplitude },
          events := levelEvent amplitude ::
            (if e.state_ = EngineState.RECORDING ∧ result.isCough = true
              then [coughEvent result.confidence amplitude audioData] else []),
          escaped := none } := by
  by_cases hs : e.state_ = EngineState.RECORDING
  · cases hc : result.isCough
    · simp [processAudioData, processAudioDataTry, hcb, hlevel, hdet, hs, hc]
    · have := hcough hs hc
      simp [processAudioData, processAudioDataTry, hcb, hlevel, hdet, hs, hc, this]
  · simp [processAudioData, processAudioDataTry, hcb, hlevel, hs]

theorem processAudioData_caught (e : CoughDetectEngine α)
    (detect : List α → Except String (DetectionResult α)) (audioData : List α)
    (amplitude : α) (what : String)
    (hfault : (e.processAudioDataTry detect audioData amplitude).escaped = some what)
    (herr : ∀ callback, e.audioEventCallback_ = some callback →
      callback (errorEvent what) = Except.ok ()) :
    e.processAudioData detect audioData amplitude
      = { engine := { (e.processAudioDataTry detect audioData amplitude).engine with
                      state_ := EngineState.RECORDING },
          events := (e.processAudioDataTry detect audioData amplitude).events
            ++ (if e.audioEventCallback_.isSome then [errorEvent what] else []),
          escaped := none } := by
  unfold processAudioData
  simp only [hfault, processAudioDataTry_callback]
  cases hcb : e.audioEventCallback_ with
  | none => simp
  | some callback => simp [herr callback hcb]

/-- C5 (as stated, refuted). On the trace `initialize; start; stop; late window of
level 1/2`, the engine is `IDLE` with audio level `1/2`; a further `stop()` leaves
the level at `1/2`, not `0`. -/
theorem stop_idle_level_counterexample :
    idleEngineAfterLateWindow.getState = EngineState.IDLE
    ∧ idleEngineAfterLateWindow.getAudioLevel = 1 / 2
    ∧ (idleEngineAfterLateWindow.stop DeviceReply.ok).getState = EngineState.IDLE
    ∧ (idleEngineAfterLateWindow.stop DeviceReply.ok).getAudioLevel = 1 / 2
    ∧ (idleEngineAfterLateWindow.stop DeviceReply.ok).getAudioLevel ≠ 0 := by
  refine ⟨rfl, rfl, rfl, rfl, ?_⟩
  show (1 / 2 : ℚ) ≠ 0
  norm_num

/-- C5 (amended). After `stop()` the state is `IDLE` whatever the state and the
level were; the audio level is `0` when the state before the call was not `IDLE`,
and is left as it was when the state was already `IDLE`. -/
theorem stop_state_and_level (e : CoughDetectEngine α) (reply : DeviceReply) :
    (e.stop reply).getState = EngineState.IDLE
    ∧ (e.stop reply).getAudioLevel
        = if e.getState = EngineState.IDLE then e.getAudioLevel else 0 := by
  unfold stop getState getAudioLevel
  by_cases h : e.state_ = EngineState.IDLE <;> simp [h]

/-- C6. Engine `start()`: when `isReady()` is false it returns false and changes
nothing; when ready and already `RECORDING` it returns true and changes nothing;
when ready and `IDLE` or `PAUSED` and the recorder's start succeeds (in particular
when the stream is open and the device accepts the request) it returns true and
the state becomes `RECORDING`; when the recorder's start fails (in particular when
the recorder is not recording and the device does not accept the request) it
returns false and state, readiness and level are unchanged. A fresh engine and a
released engine are not ready and stay so through a failed `initialize`, so
`start()` fails before any successful `initialize` and after `release()` until an
`initialize` succeeds, after which the engine is ready again. -/
theorem start_contract (e : CoughDetectEngine α) (reply : DeviceReply) :
    (e.isReady = false → e.start reply = (false, e))
    ∧ (e.isReady = true → e.getState = EngineState.RECORDING → e.start reply = (true, e))
    ∧ (e.isReady = true → (e.getState = EngineState.IDLE ∨ e.getState = EngineState.PAUSED) →
        (e.audioRecorder_.start reply).1 = true →
        (e.start reply).1 = true ∧ (e.start reply).2.getState = EngineState.RECORDING)
    ∧ (e.isReady = true → (e.getState = EngineState.IDLE ∨ e.getState = EngineState.PAUSED) →
        e.audioRecorder_.audioStream_ = true →
        (e.start DeviceReply.ok).1 = true
          ∧ (e.start DeviceReply.ok).2.getState = EngineState.RECORDING)
    ∧ (e.isReady = true → e.getState ≠ EngineState.RECORDING →
        (e.audioRecorder_.start reply).1 = false →
        (e.start reply).1 = false ∧ (e.start reply).2.getState = e.getState
          ∧ (e.start reply).2.isReady = e.isReady
          ∧ (e.start reply).2.getAudioLevel = e.getAudioLevel)
    ∧ (e.isReady = true → e.getState ≠ EngineState.RECORDING →
        e.audioRecorder_.isRecording_ = false → reply ≠ DeviceReply.ok →
        (e.start reply).1 = false ∧ (e.start reply).2.getState = e.getState
          ∧ (e.start reply).2.isReady = e.isReady
          ∧ (e.start reply).2.getAudioLevel = e.getAudioLevel)
    ∧ (CoughDetectEngine.new : CoughDetectEngine α).isReady = false
    ∧ (∀ (path : String) (openReply : OpenReply) (tf : Bool) (load : ModelLoad),
        (∀ s, openReply ≠ OpenReply.opened s) →
        (((CoughDetectEngine.new : CoughDetectEngine α).initialise path openReply tf
            load).2.start reply).1 = false)
    ∧ (∀ a b : DeviceReply, (e.release a b).isReady = false
        ∧ (e.release a b).start reply = (false, e.release a b))
    ∧ (∀ (a b : DeviceReply) (path : String) (openReply : OpenReply) (tf : Bool)
        (load : ModelLoad), (∀ s, openReply ≠ OpenReply.opened s) →
        (((e.release a b).initialise path openReply tf load).2.start reply).1 = false)
    ∧ (∀ (a b : DeviceReply) (path : String) (s tf : Bool) (load : ModelLoad),
        ((e.release a b).initialise path (OpenReply.opened s) tf load).2.isReady = true) := by
  unfold isReady getState getAudioLevel
  refine ⟨?_, ?_, ?_, ?_, ?_, ?_, rfl, ?_, ?_, ?_, ?_⟩
  · intro h; exact start_not_ready e reply h
  · intro h hs; simp [start, h, hs]
  · intro h hs hr
    have hne : e.state_ ≠ EngineState.RECORDING := by rcases hs with hs | hs <;> simp [hs]
    simp [start, h, hne, hr]
  · intro h hs hr
    have hne : e.state_ ≠ EngineState.RECORDING := by rcases hs with hs | hs <;> simp [hs]
    simp [start, h, hne, AudioRecorder.start_ok _ hr]
  · intro h hne hr
    exact start_failed e reply h hne hr
  · intro h hne hrec hreply
    exact start_failed e reply h hne (AudioRecorder.start_not_ok _ reply hrec hreply)
  · intro path openReply tf load hfail
    have h := (initialise_not_opened (CoughDetectEngine.new : CoughDetectEngine α) path
      openReply tf load hfail).2.1
    rw [start_not_ready _ reply (h.trans rfl)]
  · intro a b
    exact ⟨rfl, start_not_ready _ reply rfl⟩
  · intro a b path openReply tf load hfail
    have h := (initialise_not_opened (e.release a b) path openReply tf load hfail).2.1
    rw [start_not_ready _ reply (h.trans rfl)]
  · intro a b path s tf load
    exact (initialise_opened _ path s tf load).2.1

/-- Witness for C6: a fresh engine refuses to start; the ready engine starts when
the device accepts and stays `IDLE` when the device reports an error. -/
theorem start_contract_witness :
    (CoughDetectEngine.new : CoughDetectEngine ℚ).start DeviceReply.ok
        = (false, CoughDetectEngine.new)
    ∧ ((readyEngine.start DeviceReply.ok).1 = true
        ∧ (readyEngine.start DeviceReply.ok).2.getState = EngineState.RECORDING)
    ∧ (recordingEngine.start DeviceReply.ok = (true, recordingEngine))
    ∧ ((readyEngine.start DeviceReply.error).1 = false
        ∧ (readyEngine.start DeviceReply.error).2.getState = readyEngine.getState
        ∧ (readyEngine.start DeviceReply.error).2.isReady = readyEngine.isReady
        ∧ (readyEngine.start DeviceReply.error).2.getAudioLevel = readyEngine.getAudioLevel) :=
  ⟨(start_contract CoughDetectEngine.new DeviceReply.ok).1 rfl,
   (start_contract readyEngine DeviceReply.ok).2.2.2.1 rfl (Or.inl rfl) rfl,
   (start_contract recordingEngine DeviceReply.ok).2.1 rfl rfl,
   (start_contract readyEngine DeviceReply.error).2.2.2.2.2.1 rfl (by decide) rfl (by decide)⟩

/-- C7. Engine `pause()` turns `RECORDING` into `PAUSED` and changes nothing in any
other state; `resume()` turns `PAUSED` into `RECORDING` and changes nothing in any
other state; `pause()` followed by `resume()` from `RECORDING` ends in `RECORDING`. -/
theorem pause_resume_contract (e : CoughDetectEngine α) (r1 r2 : DeviceReply) :
    (e.getState = EngineState.RECORDING → (e.pause r1).getState = EngineState.PAUSED)
    ∧ (e.getState ≠ EngineState.RECORDING → e.pause r1 = e)
    ∧ (e.getState = EngineState.PAUSED → (e.resume r1).getState = EngineState.RECORDING)
    ∧ (e.getState ≠ EngineState.PAUSED → e.resume r1 = e)
    ∧ (e.getState = EngineState.RECORDING →
        ((e.pause r1).resume r2).getState = EngineState.RECORDING) := by
  unfold getState
  refine ⟨?_, ?_, ?_, ?_, ?_⟩
  · intro h; simp [pause, h]
  · intro h; simp [pause, h]
  · intro h; simp [resume, h]
  · intro h; simp [resume, h]
  · intro h; simp [pause, resume, h]

/-- Witness for C7 on the recording engine and on the idle ready engine. -/
theorem pause_resume_contract_witness :
    (recordingEngine.pause DeviceReply.ok).getState = EngineState.PAUSED
    ∧ readyEngine.pause DeviceReply.ok = readyEngine
    ∧ ((recordingEngine.pause DeviceReply.ok).resume DeviceReply.ok).getState
        = EngineState.RECORDING
    ∧ readyEngine.resume DeviceReply.ok = readyEngine :=
  ⟨(pause_resume_contract recordingEngine DeviceReply.ok DeviceReply.ok).1 rfl,
   (pause_resume_contract readyEngine DeviceReply.ok DeviceReply.ok).2.1 (by decide),
   (pause_resume_contract recordingEngine DeviceReply.ok DeviceReply.ok).2.2.2.2 rfl,
   (pause_resume_contract readyEngine DeviceReply.ok DeviceReply.ok).2.2.2.1 (by decide)⟩

/-- C8. Engine `initialize(modelPath)` returns true exactly when the capture stream
opens, for every model path, runtime switch and model-loading outcome; when it
returns true the engine is ready and `IDLE`; when the stream does not open it
returns false and readiness is what it was (a not-ready engine stays not ready). -/
theorem initialise_contract (e : CoughDetectEngine α) (modelPath : String)
    (openReply : OpenReply) (tfliteAvailable : Bool) (load : ModelLoad) :
    ((e.initialise modelPath openReply tfliteAvailable load).1 = true
        ↔ ∃ s, openReply = OpenReply.opened s)
    ∧ ((e.initialise modelPath openReply tfliteAvailable load).1 = true →
        (e.initialise modelPath openReply tfliteAvailable load).2.isReady = true
        ∧ (e.initialise modelPath openReply tfliteAvailable load).2.getState
            = EngineState.IDLE)
    ∧ ((∀ s, openReply ≠ OpenReply.opened s) →
        (e.initialise modelPath openReply tfliteAvailable load).1 = false
        ∧ (e.initialise modelPath openReply tfliteAvailable load).2.isReady = e.isReady) := by
  unfold isReady getState
  cases openReply with
  | opened s =>
    have h := initialise_opened e modelPath s tfliteAvailable load
    exact ⟨⟨fun _ => ⟨s, rfl⟩, fun _ => h.1⟩, fun _ => h.2, fun hn => absurd rfl (hn s)⟩
  | failed =>
    have h := initialise_not_opened e modelPath OpenReply.failed tfliteAvailable load
      (by intro s; simp)
    refine ⟨⟨fun h1 => ?_, fun ⟨s, hs⟩ => by simp at hs⟩, fun h1 => ?_, fun _ => ⟨h.1, h.2.1⟩⟩
    · rw [h.1] at h1; simp at h1
    · rw [h.1] at h1; simp at h1
  | raised =>
    have h := initialise_not_opened e modelPath OpenReply.raised tfliteAvailable load
      (by intro s; simp)
    refine ⟨⟨fun h1 => ?_, fun ⟨s, hs⟩ => by simp at hs⟩, fun h1 => ?_, fun _ => ⟨h.1, h.2.1⟩⟩
    · rw [h.1] at h1; simp at h1
    · rw [h.1] at h1; simp at h1

/-- Witness for C8: a fresh engine with a model path whose loading fails becomes
ready and `IDLE` when the stream opens, and stays not ready when it does not. -/
theorem initialise_contract_witness :
    (((CoughDetectEngine.new : CoughDetectEngine ℚ).initialise "model.tflite"
          (OpenReply.opened true) true ModelLoad.modelMissing).2.isReady = true
      ∧ ((CoughDetectEngine.new : CoughDetectEngine ℚ).initialise "model.tflite"
          (OpenReply.opened true) true ModelLoad.modelMissing).2.getState = EngineState.IDLE)
    ∧ (((CoughDetectEngine.new : CoughDetectEngine ℚ).initialise "model.tflite"
          OpenReply.failed true (ModelLoad.loaded false)).1 = false
      ∧ ((CoughDetectEngine.new : CoughDetectEngine ℚ).initialise "model.tflite"
          OpenReply.failed true (ModelLoad.loaded false)).2.isReady
          = (CoughDetectEngine.new : CoughDetectEngine ℚ).isReady) :=
  ⟨(initialise_contract CoughDetectEngine.new "model.tflite" (OpenReply.opened true) true
      ModelLoad.modelMissing).2.1 rfl,
   (initialise_contract CoughDetectEngine.new "model.tflite" OpenReply.failed true
      (ModelLoad.loaded false)).2.2 (by intro s; simp)⟩

/-- C9. Window handling with a consumer registered and no fault (the handler
returns normally on the events of this window and the classifier returns a
result): no exception leaves the call; the events handed to the consumer are one
`AUDIO_LEVEL_CHANGED` event carrying the given level, followed, exactly when the
state is `RECORDING` and the result's `isCough` is true, by one `COUGH_DETECTED`
event carrying the classifier's confidence, the level and the window's samples;
the state on return is the state on entry (`RECORDING` when it was `RECORDING`). -/
theorem processAudioData_emits (e : CoughDetectEngine α) (callback : AudioEventCallback α)
    (detect : List α → Except String (DetectionResult α)) (result : DetectionResult α)
    (audioData : List α) (amplitude : α)
    (hcb : e.audioEventCallback_ = some callback)
    (hlevel : callback (levelEvent amplitude) = Except.ok ())
    (hdet : detect audioData = Except.ok result)
    (hcough : e.getState = EngineState.RECORDING → result.isCough = true →
      callback (coughEvent result.confidence amplitude audioData) = Except.ok ()) :
    (e.processAudioData detect audioData amplitude).escaped = none
    ∧ (e.processAudioData detect audioData amplitude).events
        = levelEvent amplitude ::
            (if e.getState = EngineState.RECORDING ∧ result.isCough = true
              then [coughEvent result.confidence amplitude audioData] else [])
    ∧ (e.processAudioData detect audioData amplitude).engine.getState = e.getState
    ∧ (levelEvent amplitude).type = AudioEventType.AUDIO_LEVEL_CHANGED
    ∧ (levelEvent amplitude).amplitude = some amplitude
    ∧ (coughEvent result.confidence amplitude audioData).type = AudioEventType.COUGH_DETECTED
    ∧ (coughEvent result.confidence amplitude audioData).confidence = some result.confidence
    ∧ (coughEvent result.confidence amplitude audioData).amplitude = some amplitude
    ∧ (coughEvent result.confidence amplitude audioData).audioData = audioData := by
  rw [processAudioData_no_fault e callback detect result audioData amplitude hcb hlevel hdet
    hcough]
  exact ⟨rfl, rfl, rfl, rfl, rfl, rfl, rfl, rfl, rfl⟩

/-- Witness for C9: the recording engine with an accepting consumer and a
classifier reporting a cough. -/
theorem processAudioData_emits_witness :
    ((recordingEngine.setAudioEventCallback (some acceptingHandler)).processAudioData
        coughDetect [0, 0] (1 / 2)).escaped = none
    ∧ ((recordingEngine.setAudioEventCallback (some acceptingHandler)).processAudioData
        coughDetect [0, 0] (1 / 2)).events
        = [levelEvent (1 / 2), coughEvent (9 / 10) (1 / 2) [0, 0]]
    ∧ ((recordingEngine.setAudioEventCallback (some acceptingHandler)).processAudioData
        coughDetect [0, 0] (1 / 2)).engine.getState = EngineState.RECORDING := by
  have h := processAudioData_emits
    (recordingEngine.setAudioEventCallback (some acceptingHandler)) acceptingHandler
    coughDetect { isCough := true, confidence := 9 / 10, features := [],
                  classProbabilities := [] } [0, 0] (1 / 2) rfl rfl rfl (fun _ _ => rfl)
  exact ⟨h.1, h.2.1, h.2.2.1⟩

/-- C10 (the code at the failing input). The engine is `RECORDING`. With a
consumer whose handler raises on every event, the level event raises, the `catch`
block hands the handler the error event, the handler raises again and that
exception leaves `processAudioData`. With a handler that raises on error events
and a classifier that raises, the error event carrying the classifier's message is
handed over, the handler's exception leaves the call and the state is left
`PROCESSING`; the next window, for which the classifier reports a cough, emits
only its level event and leaves the state `PROCESSING`. -/
theorem processAudioData_fault_escapes :
    (recordingEngine.setAudioEventCallback (some raisingHandler)).getState
        = EngineState.RECORDING
    ∧ ((recordingEngine.setAudioEventCallback (some raisingHandler)).processAudioData
        quietDetect [0, 0] (1 / 2)).events
        = [levelEvent (1 / 2), errorEvent "handler failed"]
    ∧ ((recordingEngine.setAudioEventCallback (some raisingHandler)).processAudioData
        quietDetect [0, 0] (1 / 2)).escaped = some "handler failed"
    ∧ ((recordingEngine.setAudioEventCallback (some errorRejectingHandler)).processAudioData
        raisingDetect [0, 0] (1 / 2)).events
        = [levelEvent (1 / 2), errorEvent "inference failed"]
    ∧ ((recordingEngine.setAudioEventCallback (some errorRejectingHandler)).processAudioData
        raisingDetect [0, 0] (1 / 2)).escaped = some "handler failed"
    ∧ ((recordingEngine.setAudioEventCallback (some errorRejectingHandler)).processAudioData
        raisingDetect [0, 0] (1 / 2)).engine.getState = EngineState.PROCESSING
    ∧ (((recordingEngine.setAudioEventCallback (some errorRejectingHandler)).processAudioData
        raisingDetect [0, 0] (1 / 2)).engine.processAudioData coughDetect [0, 0]
          (1 / 2)).events = [levelEvent (1 / 2)]
    ∧ (((recordingEngine.setAudioEventCallback (some errorRejectingHandler)).processAudioData
        raisingDetect [0, 0] (1 / 2)).engine.processAudioData coughDetect [0, 0]
          (1 / 2)).engine.getState = EngineState.PROCESSING :=
  ⟨rfl, rfl, rfl, rfl, rfl, rfl, rfl, rfl⟩

end Engine

/-! ## Engine release and idle no-ops -/

section EngineRelease

open CoughDetectEngine

variable {α : Type} [LinearOrderedField α]

theorem AudioRecorder.stop_not_recording (r : AudioRecorder α) (reply : DeviceReply)
    (h : r.isRecording_ = false) : r.stop reply = r := by
  simp [AudioRecorder.stop, h]

theorem AudioRecorder.release_isRecording (r : AudioRecorder α) (reply : DeviceReply)
    (h : reply ≠ DeviceReply.raised) : (r.release reply).isRecording_ = false := by
  unfold AudioRecorder.release AudioRecorder.stop
  cases hr : r.isRecording_ <;> cases hs : r.audioStream_ <;> cases reply <;> simp_all

theorem AudioRecorder.release_audioStream (r : AudioRecorder α) (reply : DeviceReply) :
    (r.release reply).audioStream_ = false := by
  unfold AudioRecorder.release AudioRecorder.stop
  cases hr : r.isRecording_ <;> cases hs : r.audioStream_ <;> cases reply <;> simp_all

theorem AudioRecorder.release_audioDataCallback (r : AudioRecorder α) (reply : DeviceReply) :
    (r.release reply).audioDataCallback_ = false := rfl

theorem AudioRecorder.release_idem (r : AudioRecorder α) (reply reply2 : DeviceReply)
    (h : (r.release reply).isRecording_ = false) :
    (r.release reply).release reply2 = r.release reply := by
  have hs := AudioRecorder.release_audioStream r reply
  have hc := AudioRecorder.release_audioDataCallback r reply
  generalize r.release reply = r1 at h hs hc
  cases r1
  simp_all [AudioRecorder.release, AudioRecorder.stop]

theorem release_of_released (g : CoughDetectEngine α) (c d : DeviceReply)
    (hstate : g.state_ = EngineState.IDLE) (hready : g.isReady_ = false)
    (hlevel : g.audioLevel_ = 0) (hw : g.tensorFlowWrapper_.release = g.tensorFlowWrapper_)
    (hr : g.audioRecorder_.release d = g.audioRecorder_) :
    g.release c d = g := by
  cases g
  simp_all [release, stop]

/-- C11. Engine `release()`: from every engine value and whatever the device
answers, afterwards `isReady()` is false, `getState()` is `IDLE` (the state of a
fresh engine) and `getAudioLevel()` is `0`; a second `release()` leaves readiness,
state, level, classifier and consumer as the first left them, and leaves the whole
engine value as it was whenever the stop request of the first release did not
raise. -/
theorem release_contract (e : CoughDetectEngine α) (a b c d : DeviceReply) :
    (e.release a b).isReady = false
    ∧ (e.release a b).getState = EngineState.IDLE
    ∧ (e.release a b).getState = (CoughDetectEngine.new : CoughDetectEngine α).getState
    ∧ (e.release a b).getAudioLevel = 0
    ∧ ((e.release a b).release c d).isReady = (e.release a b).isReady
    ∧ ((e.release a b).release c d).getState = (e.release a b).getState
    ∧ ((e.release a b).release c d).getAudioLevel = (e.release a b).getAudioLevel
    ∧ ((e.release a b).release c d).tensorFlowWrapper_ = (e.release a b).tensorFlowWrapper_
    ∧ ((e.release a b).release c d).audioEventCallback_ = (e.release a b).audioEventCallback_
    ∧ (b ≠ DeviceReply.raised → (e.release a b).release c d = e.release a b) := by
  refine ⟨rfl, rfl, rfl, rfl, rfl, rfl, rfl, rfl, ?_, ?_⟩
  · simp only [release, stop]
    split <;> rfl
  · intro hb
    apply release_of_released _ c d rfl rfl rfl rfl
    simp only [release]
    exact AudioRecorder.release_idem _ b d (AudioRecorder.release_isRecording _ b hb)

/-- Witness for C11 on the recording engine. -/
theorem release_contract_witness :
    (recordingEngine.release DeviceReply.ok DeviceReply.ok).isReady = false
    ∧ (recordingEngine.release DeviceReply.ok DeviceReply.ok).getState = EngineState.IDLE
    ∧ (recordingEngine.release DeviceReply.ok DeviceReply.ok).getAudioLevel = 0
    ∧ (recordingEngine.release DeviceReply.ok DeviceReply.ok).release DeviceReply.ok
          DeviceReply.ok
        = recordingEngine.release DeviceReply.ok DeviceReply.ok :=
  ⟨(release_contract recordingEngine DeviceReply.ok DeviceReply.ok DeviceReply.ok
      DeviceReply.ok).1,
   (release_contract recordingEngine DeviceReply.ok DeviceReply.ok DeviceReply.ok
      DeviceReply.ok).2.1,
   (release_contract recordingEngine DeviceReply.ok DeviceReply.ok DeviceReply.ok
      DeviceReply.ok).2.2.2.1,
   (release_contract recordingEngine DeviceReply.ok DeviceReply.ok DeviceReply.ok
      DeviceReply.ok).2.2.2.2.2.2.2.2.2 (by decide)⟩

/-- C12. Engine `stop()` and `pause()` called while `IDLE` return the engine value
unchanged: the state stays `IDLE`, readiness and audio level are unchanged, and the
trace of requests made to the capture device is unchanged. Neither method hands an
event to the consumer. -/
theorem stop_pause_idle_noop (e : CoughDetectEngine α) (reply : DeviceReply)
    (h : e.getState = EngineState.IDLE) :
    e.stop reply = e
    ∧ e.pause reply = e
    ∧ (e.stop reply).getState = EngineState.IDLE
    ∧ (e.pause reply).getState = EngineState.IDLE
    ∧ (e.stop reply).isReady = e.isReady
    ∧ (e.pause reply).isReady = e.isReady
    ∧ (e.stop reply).getAudioLevel = e.getAudioLevel
    ∧ (e.pause reply).getAudioLevel = e.getAudioLevel
    ∧ (e.stop reply).audioRecorder_.requests = e.audioRecorder_.requests
    ∧ (e.pause reply).audioRecorder_.requests = e.audioRecorder_.requests := by
  have hs : e.stop reply = e := by
    unfold getState at h
    simp [stop, h]
  have hp : e.pause reply = e := by
    unfold getState at h
    simp [pause, h]
  rw [hs, hp]
  exact ⟨rfl, rfl, h, h, rfl, rfl, rfl, rfl, rfl, rfl⟩

/-- Witness for C12 on the ready, idle engine. -/
theorem stop_pause_idle_noop_witness :
    readyEngine.getState = EngineState.IDLE
    ∧ readyEngine.stop DeviceReply.ok = readyEngine
    ∧ readyEngine.pause DeviceReply.ok = readyEngine
    ∧ (readyEngine.stop DeviceReply.ok).audioRecorder_.requests
        = readyEngine.audioRecorder_.requests :=
  ⟨rfl, (stop_pause_idle_noop readyEngine DeviceReply.ok rfl).1,
   (stop_pause_idle_noop readyEngine DeviceReply.ok rfl).2.1,
   (stop_pause_idle_noop readyEngine DeviceReply.ok rfl).2.2.2.2.2.2.2.2.1⟩

end EngineRelease

section Fallback

variable {α : Type} [LinearOrderedField α]

theorem TensorFlowWrapper.initialise_unavailable (tf : Bool) (w : TensorFlowWrapper)
    (path : String) (load : ModelLoad) (h : ModelUnavailable tf path load) :
    (w.initialise tf path load).2.isModelLoaded_ = false := by
  unfold TensorFlowWrapper.initialise
  by_cases hp : path.isEmpty = true
  · simp [hp]
  · cases tf with
    | false => simp [hp]
    | true =>
      rcases h with h | h | h
      · exact absurd h hp
      · simp at h
      · cases load with
        | loaded gpu => exact absurd rfl (h gpu)
        | modelMissing => simp [hp]
        | interpreterMissing => simp [hp]
        | allocateFailed gpu => simp [hp, TensorFlowWrapper.release]
        | raised a b c d => simp [hp]

theorem TensorFlowWrapper.detectCough_not_loaded (tf : Bool) (w : TensorFlowWrapper)
    (m : CMath α) (run : InferenceRun α) (audioData : List α)
    (h : w.isModelLoaded_ = false) :
    w.detectCough tf m run audioData = detectCoughRuleBased m audioData := by
  unfold TensorFlowWrapper.detectCough
  cases tf <;> simp [h]

theorem TensorFlowWrapper.step_not_loaded (tf : Bool) (w : TensorFlowWrapper)
    (c : WrapperCall α) (hc : c.Unavailable tf) (h : w.isModelLoaded_ = false) :
    (w.step tf c).isModelLoaded_ = false := by
  cases c with
  | detectCough run audioData => exact h
  | release => rfl
  | initialise path load => exact TensorFlowWrapper.initialise_unavailable tf w path load hc

theorem TensorFlowWrapper.foldl_step_not_loaded (tf : Bool) (calls : List (WrapperCall α))
    (w : TensorFlowWrapper) (hcalls : ∀ c ∈ calls, c.Unavailable tf)
    (h : w.isModelLoaded_ = false) :
    (calls.foldl (TensorFlowWrapper.step tf) w).isModelLoaded_ = false := by
  induction calls generalizing w with
  | nil => exact h
  | cons c cs ih =>
    simp only [List.foldl_cons]
    exact ih _ (fun c' hc' => hcalls c' (List.mem_cons_of_mem _ hc'))
      (TensorFlowWrapper.step_not_loaded tf w c (hcalls c (List.mem_cons_self _ _)) h)

/-- C13. If the model runtime resource is unavailable at `initialize` (empty path,
runtime not compiled in, or a loading that does not reach its end), then
`isModelLoaded()` is false and, after any sequence of classifications, releases and
further initializations at which the model is again unavailable, `detectCough`
returns exactly `detectCoughRuleBased` of the window, whatever the interpreter
would answer; so two calls on the same window, with any such calls in between,
return the same `isCough` and the same confidence. -/
theorem detectCough_fallback (tf : Bool) (w : TensorFlowWrapper) (modelPath : String)
    (load : ModelLoad) (m : CMath α) (calls : List (WrapperCall α))
    (hun : ModelUnavailable tf modelPath load)
    (hcalls : ∀ c ∈ calls, c.Unavailable tf) :
    (w.initialise tf modelPath load).2.isModelLoaded = false
    ∧ (∀ (run : InferenceRun α) (audioData : List α),
        (calls.foldl (TensorFlowWrapper.step tf) (w.initialise tf modelPath load).2).detectCough
            tf m run audioData
          = detectCoughRuleBased m audioData)
    ∧ (∀ (run1 run2 : InferenceRun α) (audioData : List α),
        ((w.initialise tf modelPath load).2.detectCough tf m run1 audioData).isCough
          = ((calls.foldl (TensorFlowWrapper.step tf)
              (w.initialise tf modelPath load).2).detectCough tf m run2 audioData).isCough
        ∧ ((w.initialise tf modelPath load).2.detectCough tf m run1 audioData).confidence
          = ((calls.foldl (TensorFlowWrapper.step tf)
              (w.initialise tf modelPath load).2).detectCough tf m run2
                audioData).confidence) := by
  have h1 := TensorFlowWrapper.initialise_unavailable tf w modelPath load hun
  have h2 := TensorFlowWrapper.foldl_step_not_loaded tf calls _ hcalls h1
  refine ⟨h1, ?_, ?_⟩
  · intro run audioData
    exact TensorFlowWrapper.detectCough_not_loaded tf _ m run audioData h2
  · intro run1 run2 audioData
    rw [TensorFlowWrapper.detectCough_not_loaded tf _ m run1 audioData h1,
      TensorFlowWrapper.detectCough_not_loaded tf _ m run2 audioData h2]
    exact ⟨rfl, rfl⟩

/-- Witness for C13: an empty model path, then a classification and a release in
between. -/
theorem detectCough_fallback_witness :
    (TensorFlowWrapper.new.initialise true "" (ModelLoad.loaded false)).2.isModelLoaded
        = false
    ∧ (([WrapperCall.detectCough { input := none, invoke := fun _ => InvokeReply.raised }
            [1], WrapperCall.release] : List (WrapperCall ℝ)).foldl
          (TensorFlowWrapper.step true)
          (TensorFlowWrapper.new.initialise true "" (ModelLoad.loaded false)).2).detectCough
          true realCMath { input := none, invoke := fun _ => InvokeReply.failed } [1]
        = detectCoughRuleBased realCMath [1] :=
  ⟨(detectCough_fallback true TensorFlowWrapper.new "" (ModelLoad.loaded false) realCMath
      [WrapperCall.detectCough { input := none, invoke := fun _ => InvokeReply.raised } [1],
       WrapperCall.release]
      (Or.inl rfl) (by
        intro c hc
        simp only [List.mem_cons, List.mem_singleton, List.not_mem_nil, or_false] at hc
        rcases hc with rfl | rfl <;> trivial)).1,
   (detectCough_fallback true TensorFlowWrapper.new "" (ModelLoad.loaded false) realCMath
      [WrapperCall.detectCough { input := none, invoke := fun _ => InvokeReply.raised } [1],
       WrapperCall.release]
      (Or.inl rfl) (by
        intro c hc
        simp only [List.mem_cons, List.mem_singleton, List.not_mem_nil, or_false] at hc
        rcases hc with rfl | rfl <;> trivial)).2.1
      { input := none, invoke := fun _ => InvokeReply.failed } [1]⟩

end Fallback

/-! ## Level metering and lifecycle of the capture session -/

section Metering

variable {α : Type} [LinearOrderedField α]

theorem max_min_eq_clamp (x : α) :
    max 0 (min 1 x) = if x < 0 then 0 else if 1 < x then 1 else x := by
  split_ifs with h1 h2
  · rw [min_eq_right (by linarith), max_eq_left h1.le]
  · rw [min_eq_left h2.le, max_eq_right zero_le_one]
  · push_neg at h1 h2
    rw [min_eq_right h2, max_eq_right h1]

theorem AudioRecorder.calculateRMS_eq_spec (m : CMath α) (data : List α) (hne : data ≠ []) :
    AudioRecorder.calculateRMS m data = specWindowLevel m data := by
  have hlen : ¬ data.length ≤ 0 := by
    have := List.length_pos.mpr hne
    omega
  unfold AudioRecorder.calculateRMS specWindowLevel
  simp only [hlen, if_false]
  rw [foldl_add_index (fun x => x * x), zero_add]
  exact max_min_eq_clamp _

theorem AudioRecorder.calculateRMS_range (m : CMath α) (data : List α) :
    0 ≤ AudioRecorder.calculateRMS m data ∧ AudioRecorder.calculateRMS m data ≤ 1 := by
  unfold AudioRecorder.calculateRMS
  split
  · exact ⟨le_refl _, zero_le_one⟩
  · exact ⟨le_max_left _ _, max_le zero_le_one (min_le_left _ _)⟩

theorem AudioRecorder.updateAudioLevel_level (r : AudioRecorder α) (level : α) :
    (r.updateAudioLevel level).currentAudioLevel_
      = 0.1 * level + 0.9 * r.currentAudioLevel_ := by
  unfold AudioRecorder.updateAudioLevel
  norm_num

theorem smoothed_range (level p : α) (hl0 : 0 ≤ level) (hl1 : level ≤ 1) (hp0 : 0 ≤ p)
    (hp1 : p ≤ 1) : 0 ≤ 0.1 * level + 0.9 * p ∧ 0.1 * level + 0.9 * p ≤ 1 := by
  constructor
  · have h1 : (0 : α) ≤ 0.1 * level := mul_nonneg (by norm_num) hl0
    have h2 : (0 : α) ≤ 0.9 * p := mul_nonneg (by norm_num) hp0
    linarith
  · have h1 : (0.1 : α) * level ≤ 0.1 * 1 := mul_le_mul_of_nonneg_left hl1 (by norm_num)
    have h2 : (0.9 : α) * p ≤ 0.9 * 1 := mul_le_mul_of_nonneg_left hp1 (by norm_num)
    have h3 : (0.1 : α) * 1 + 0.9 * 1 = 1 := by norm_num
    linarith

theorem AudioRecorder.onAudioReady_eq (r : AudioRecorder α) (m : CMath α) (data : List α)
    (hne : data ≠ []) (hcb : r.audioDataCallback_ = true) :
    r.onAudioReady m data
      = (r.updateAudioLevel (AudioRecorder.calculateRMS m data),
         some (data, AudioRecorder.calculateRMS m data)) := by
  have hlen : data.length > 0 := List.length_pos.mpr hne
  simp [AudioRecorder.onAudioReady, AudioRecorder.processAudioData, hlen, hcb]

theorem AudioRecorder.step_level_range (m : CMath α) (r : AudioRecorder α)
    (c : RecorderCall α)
    (h : 0 ≤ r.currentAudioLevel_ ∧ r.currentAudioLevel_ ≤ 1) :
    0 ≤ (r.step m c).currentAudioLevel_ ∧ (r.step m c).currentAudioLevel_ ≤ 1 := by
  cases c with
  | start reply =>
    simp only [AudioRecorder.step, AudioRecorder.start]
    cases r.isRecording_ <;> cases r.audioStream_ <;> cases reply <;> exact h
  | stop reply =>
    simp only [AudioRecorder.step, AudioRecorder.stop]
    cases r.isRecording_ <;> cases r.audioStream_ <;> cases reply <;>
      first
        | exact h
        | exact ⟨le_refl _, zero_le_one⟩
  | pause reply =>
    simp only [AudioRecorder.step, AudioRecorder.pause]
    cases r.isRecording_ <;> cases r.audioStream_ <;> cases reply <;> exact h
  | resume reply =>
    simp only [AudioRecorder.step, AudioRecorder.resume]
    cases r.isRecording_ <;> cases r.audioStream_ <;> cases reply <;> exact h
  | window data =>
    simp only [AudioRecorder.step, AudioRecorder.onAudioReady, AudioRecorder.processAudioData]
    by_cases hlen : data.length > 0
    · cases hcb : r.audioDataCallback_
      · simpa [hlen, hcb] using h
      · simp only [hlen, hcb, if_true]
        rw [AudioRecorder.updateAudioLevel_level]
        exact smoothed_range _ _ (AudioRecorder.calculateRMS_range m data).1
          (AudioRecorder.calculateRMS_range m data).2 h.1 h.2
    · simpa [hlen] using h

theorem AudioRecorder.run_level_range (m : CMath α) (calls : List (RecorderCall α))
    (r : AudioRecorder α) (h : 0 ≤ r.currentAudioLevel_ ∧ r.currentAudioLevel_ ≤ 1) :
    0 ≤ (r.run m calls).currentAudioLevel_ ∧ (r.run m calls).currentAudioLevel_ ≤ 1 := by
  unfold AudioRecorder.run
  induction calls generalizing r with
  | nil => exact h
  | cons c cs ih =>
    simp only [List.foldl_cons]
    exact ih _ (AudioRecorder.step_level_range m r c h)

/-- C14. For every non-empty buffer and every prior smoothed level `p` in `[0, 1]`:
the per-window level computed by `calculateRMS` is the specification's
`clamp((db + 40) / 40, 0, 1)` and lies in `[0, 1]`; the smoothed level after
`updateAudioLevel` (and after the delivery of the buffer to a recorder with a sink)
is `0.1 · L + 0.9 · p` and lies in `[0, 1]`. From a smoothed level of `0`, the
level stays in `[0, 1]` over every sequence of lifecycle calls and buffers. -/
theorem level_metering (m : CMath α) (data : List α) (r : AudioRecorder α) (p : α)
    (hne : data ≠ []) (hr : r.getAudioLevel = p) (hp0 : 0 ≤ p) (hp1 : p ≤ 1) :
    AudioRecorder.calculateRMS m data = specWindowLevel m data
    ∧ 0 ≤ AudioRecorder.calculateRMS m data
    ∧ AudioRecorder.calculateRMS m data ≤ 1
    ∧ (r.updateAudioLevel (AudioRecorder.calculateRMS m data)).getAudioLevel
        = 0.1 * AudioRecorder.calculateRMS m data + 0.9 * p
    ∧ (r.audioDataCallback_ = true →
        (r.onAudioReady m data).1.getAudioLevel
          = 0.1 * AudioRecorder.calculateRMS m data + 0.9 * p)
    ∧ 0 ≤ 0.1 * AudioRecorder.calculateRMS m data + 0.9 * p
    ∧ 0.1 * AudioRecorder.calculateRMS m data + 0.9 * p ≤ 1
    ∧ (∀ (r0 : AudioRecorder α) (calls : List (RecorderCall α)), r0.getAudioLevel = 0 →
        0 ≤ (r0.run m calls).getAudioLevel ∧ (r0.run m calls).getAudioLevel ≤ 1) := by
  have hrange := AudioRecorder.calculateRMS_range m data
  have hsm := smoothed_range _ p hrange.1 hrange.2 hp0 hp1
  unfold AudioRecorder.getAudioLevel at hr ⊢
  refine ⟨AudioRecorder.calculateRMS_eq_spec m data hne, hrange.1, hrange.2, ?_, ?_, hsm.1,
    hsm.2, ?_⟩
  · rw [AudioRecorder.updateAudioLevel_level, hr]
  · intro hcb
    rw [AudioRecorder.onAudioReady_eq r m data hne hcb]
    show (r.updateAudioLevel (AudioRecorder.calculateRMS m data)).currentAudioLevel_ = _
    rw [AudioRecorder.updateAudioLevel_level, hr]
  · intro r0 calls h0
    exact AudioRecorder.run_level_range m calls r0 (by rw [h0]; exact ⟨le_refl _, zero_le_one⟩)

/-- Witness for C14: the buffer `[1]` delivered to the armed recorder, whose
smoothed level is `0`. -/
theorem level_metering_witness :
    ([1] : List ℝ) ≠ []
    ∧ AudioRecorder.calculateRMS realCMath [1] = specWindowLevel realCMath [1]
    ∧ 0 ≤ AudioRecorder.calculateRMS realCMath [1]
    ∧ AudioRecorder.calculateRMS realCMath [1] ≤ 1
    ∧ (armedRecorder.updateAudioLevel (AudioRecorder.calculateRMS realCMath [1])).getAudioLevel
        = 0.1 * AudioRecorder.calculateRMS realCMath [1] + 0.9 * 0 :=
  ⟨by simp,
   (level_metering realCMath [1] armedRecorder 0 (by simp) rfl (le_refl _) zero_le_one).1,
   (level_metering realCMath [1] armedRecorder 0 (by simp) rfl (le_refl _) zero_le_one).2.1,
   (level_metering realCMath [1] armedRecorder 0 (by simp) rfl (le_refl _)
      zero_le_one).2.2.1,
   (level_metering realCMath [1] armedRecorder 0 (by simp) rfl (le_refl _)
      zero_le_one).2.2.2.1⟩

theorem calculateRMS_one : AudioRecorder.calculateRMS realCMath [1] = 1 := by
  simp [AudioRecorder.calculateRMS, realCMath]

/-- C15 (as stated, refuted). The armed recorder, whose smoothed level is `0`,
receives the buffer `[1]`: the sink is called with the level `1`, while the
smoothed level that `getAudioLevel()` returns after the update is `1/10`. -/
theorem sink_level_counterexample :
    armedRecorder.audioDataCallback_ = true
    ∧ armedRecorder.getAudioLevel = 0
    ∧ (armedRecorder.onAudioReady realCMath [1]).2 = some ([1], 1)
    ∧ (armedRecorder.onAudioReady realCMath [1]).1.getAudioLevel = 1 / 10
    ∧ (1 : ℝ) ≠ 1 / 10 := by
  have h := AudioRecorder.onAudioReady_eq armedRecorder realCMath [1] (by simp) rfl
  refine ⟨rfl, rfl, ?_, ?_, by norm_num⟩
  · rw [h, calculateRMS_one]
  · rw [h, calculateRMS_one]
    show (armedRecorder.updateAudioLevel 1).currentAudioLevel_ = 1 / 10
    rw [AudioRecorder.updateAudioLevel_level]
    show (0.1 : ℝ) * 1 + 0.9 * 0 = 1 / 10
    norm_num

/-- C15 (amended). For every non-empty buffer delivered while a sink is registered,
the sink is called with the buffer's samples and the per-window level
`calculateRMS(buffer)`, not smoothed; the smoothed value
`0.1 · L + 0.9 · previous` is what `getAudioLevel()` returns after the call. -/
theorem sink_receives_window_level (r : AudioRecorder α) (m : CMath α) (data : List α)
    (hne : data ≠ []) (hcb : r.audioDataCallback_ = true) :
    (r.onAudioReady m data).2 = some (data, AudioRecorder.calculateRMS m data)
    ∧ (r.onAudioReady m data).1.getAudioLevel
        = 0.1 * AudioRecorder.calculateRMS m data + 0.9 * r.getAudioLevel := by
  rw [AudioRecorder.onAudioReady_eq r m data hne hcb]
  refine ⟨rfl, ?_⟩
  show (r.updateAudioLevel (AudioRecorder.calculateRMS m data)).currentAudioLevel_ = _
  rw [AudioRecorder.updateAudioLevel_level]
  rfl

/-- Witness for C15 on the armed recorder and the buffer `[1]`. -/
theorem sink_receives_window_level_witness :
    ([1] : List ℝ) ≠ []
    ∧ (armedRecorder.onAudioReady realCMath [1]).2
        = some ([1], AudioRecorder.calculateRMS realCMath [1]) :=
  ⟨by simp, (sink_receives_window_level armedRecorder realCMath [1] (by simp) rfl).1⟩

theorem pausedRecorderAfterWindow_level :
    pausedRecorderAfterWindow.currentAudioLevel_ = 1 / 10 := by
  have h := AudioRecorder.onAudioReady_eq (armedRecorder.start DeviceReply.ok).2 realCMath [1]
    (by simp) rfl
  unfold pausedRecorderAfterWindow
  rw [h, calculateRMS_one]
  show ((armedRecorder.start DeviceReply.ok).2.updateAudioLevel 1).currentAudioLevel_ = 1 / 10
  rw [AudioRecorder.updateAudioLevel_level]
  show (0.1 : ℝ) * 1 + 0.9 * 0 = 1 / 10
  norm_num

/-- C16 (as stated, refuted). On the trace `start; buffer [1]; pause` the recorder
is not recording and its smoothed level is `1/10`; `stop()` leaves it at `1/10`. -/
theorem recorder_stop_level_counterexample :
    pausedRecorderAfterWindow.isRecording = false
    ∧ pausedRecorderAfterWindow.getAudioLevel = 1 / 10
    ∧ (pausedRecorderAfterWindow.stop DeviceReply.ok).getAudioLevel = 1 / 10
    ∧ (pausedRecorderAfterWindow.stop DeviceReply.ok).getAudioLevel ≠ 0 := by
  have hrec : pausedRecorderAfterWindow.isRecording_ = false := rfl
  have hstop := AudioRecorder.stop_not_recording pausedRecorderAfterWindow DeviceReply.ok hrec
  rw [hstop]
  refine ⟨rfl, pausedRecorderAfterWindow_level, pausedRecorderAfterWindow_level, ?_⟩
  show pausedRecorderAfterWindow.currentAudioLevel_ ≠ 0
  rw [pausedRecorderAfterWindow_level]
  norm_num

/-- C16 (amended). `AudioRecorder::stop()` resets the smoothed level to `0` (and
ends the recording) when the recorder is recording and the stop request does not
raise; when the recorder is not recording (paused, stopped, never started) it
returns at once and leaves the recorder, its level included, unchanged. -/
theorem recorder_stop_level (r : AudioRecorder α) (reply : DeviceReply) :
    (r.isRecording = true → reply ≠ DeviceReply.raised →
        (r.stop reply).getAudioLevel = 0 ∧ (r.stop reply).isRecording = false)
    ∧ (r.isRecording = false → r.stop reply = r) := by
  unfold AudioRecorder.isRecording AudioRecorder.getAudioLevel
  constructor
  · intro h hreply
    unfold AudioRecorder.stop
    cases hs : r.audioStream_ <;> cases reply <;> simp_all
  · intro h
    exact AudioRecorder.stop_not_recording r reply h

/-- Witness for C16: stopping the started armed recorder, and stopping the armed
recorder that was never started. -/
theorem recorder_stop_level_witness :
    ((armedRecorder.start DeviceReply.ok).2.stop DeviceReply.ok).getAudioLevel = 0
    ∧ armedRecorder.stop DeviceReply.ok = armedRecorder :=
  ⟨((recorder_stop_level (armedRecorder.start DeviceReply.ok).2 DeviceReply.ok).1 rfl
      (by decide)).1,
   (recorder_stop_level armedRecorder DeviceReply.ok).2 rfl⟩

/-- C17 (as stated, refuted). On a recorder with an open stream that was never
started, `resume()` requests a start and `isRecording()` becomes true; the same
holds after `start; stop`; on a fresh recorder without a stream `resume()` also
makes `isRecording()` true. -/
theorem recorder_resume_counterexample :
    armedRecorder.isRecording = false
    ∧ armedRecorder.requests = [StreamRequest.openStream]
    ∧ (armedRecorder.resume DeviceReply.ok).isRecording = true
    ∧ (armedRecorder.resume DeviceReply.ok).requests
        = [StreamRequest.openStream, StreamRequest.requestStart]
    ∧ (AudioRecorder.new : AudioRecorder ℝ).audioStream_ = false
    ∧ ((AudioRecorder.new : AudioRecorder ℝ).resume DeviceReply.ok).isRecording = true
    ∧ (((armedRecorder.start DeviceReply.ok).2.stop DeviceReply.ok).resume
        DeviceReply.ok).isRecording = true := by
  refine ⟨rfl, rfl, rfl, rfl, rfl, rfl, rfl⟩

/-- C17 (amended). `pause()` changes nothing and makes no device request unless the
recorder is recording. `resume()` changes nothing and makes no device request when
the recorder is already recording; the recorder keeps no separate paused state, so
whenever it is not recording and a stream is open — paused, stopped or never
started — `resume()` requests a start, and `isRecording()` becomes true unless the
request raises. -/
theorem recorder_pause_resume_frame (r : AudioRecorder α) (reply : DeviceReply) :
    (r.isRecording = false → r.pause reply = r)
    ∧ (r.isRecording = true → r.resume reply = r)
    ∧ (r.isRecording = false → r.audioStream_ = true →
        (r.resume reply).requests = r.requests ++ [StreamRequest.requestStart]
        ∧ (reply ≠ DeviceReply.raised → (r.resume reply).isRecording = true)) := by
  unfold AudioRecorder.isRecording
  refine ⟨?_, ?_, ?_⟩
  · intro h; simp [AudioRecorder.pause, h]
  · intro h; simp [AudioRecorder.resume, h]
  · intro h hs
    unfold AudioRecorder.resume
    cases reply <;> simp [h, hs]

/-- Witness for C17: pausing a recorder that is not recording, resuming one that
is, and resuming the never-started armed recorder. -/
theorem recorder_pause_resume_frame_witness :
    armedRecorder.pause DeviceReply.ok = armedRecorder
    ∧ (armedRecorder.start DeviceReply.ok).2.resume DeviceReply.ok
        = (armedRecorder.start DeviceReply.ok).2
    ∧ (armedRecorder.resume DeviceReply.ok).requests
        = armedRecorder.requests ++ [StreamRequest.requestStart] :=
  ⟨(recorder_pause_resume_frame armedRecorder DeviceReply.ok).1 rfl,
   (recorder_pause_resume_frame (armedRecorder.start DeviceReply.ok).2 DeviceReply.ok).2.1 rfl,
   ((recorder_pause_resume_frame armedRecorder DeviceReply.ok).2.2 rfl rfl).1⟩

end Metering

/-! ## Spectral rolloff -/

section Rolloff

open Real

theorem fft_magnitudes_length (w : List ℝ) :
    ((performSimpleFFT realCMath w).map (complexAbs realCMath)).length = w.length := by
  simp [performSimpleFFT_length]

theorem fft_magnitudes_nonneg (w : List ℝ) :
    ∀ x ∈ (performSimpleFFT realCMath w).map (complexAbs realCMath), 0 ≤ x := by
  intro x hx
  rw [fft_magnitudes] at hx
  obtain ⟨i, _, rfl⟩ := List.mem_map.mp hx
  exact binMag_nonneg w i

theorem take_sum_le_sum (l : List ℝ) (h : ∀ x ∈ l, 0 ≤ x) (p : ℕ) :
    (l.take p).sum ≤ l.sum := by
  conv_rhs => rw [← List.take_append_drop p l, List.sum_append]
  have : 0 ≤ (l.drop p).sum :=
    List.sum_nonneg (fun x hx => h x (List.mem_of_mem_drop hx))
  linarith

/-- The spectral rolloff over the reals in terms of the magnitude list of the code. -/
theorem calculateSpectralRolloff_scan (w : List ℝ) (hne : w ≠ []) :
    calculateSpectralRolloff realCMath w
      = match rolloffScan
          (((performSimpleFFT realCMath w).map (complexAbs realCMath)).sum * 0.85)
          ((performSimpleFFT realCMath w).map (complexAbs realCMath)) 0 0 with
        | some i => (i : ℝ) * (YAMNetConfig.SAMPLE_RATE : ℝ) / (w.length : ℝ)
        | none => (YAMNetConfig.SAMPLE_RATE : ℝ) / 2 := by
  have hE : w.isEmpty = false := by
    cases w with
    | nil => exact absurd rfl hne
    | cons x xs => rfl
  unfold calculateSpectralRolloff
  simp only [hE, Bool.false_eq_true, if_false]
  rw [foldl_add_index (fun x => x), List.map_id', zero_add, fft_magnitudes_length]

/-- C19. For every non-empty real window `w` of `N` samples, with `|X[k]|` the
magnitude `binMag w k` of bin `k` of the discrete Fourier transform of `w` (the
magnitude list the code computes is exactly this list), there is a bin index
`k < N` such that `calculateSpectralRolloff` returns `k · 16000 / N`, the
cumulative magnitude `|X[0]| + ... + |X[k]|` is at least `0.85` times the total
over all `N` bins, and no earlier bin has that property (such a `k` exists because
the last bin qualifies); the result is below the sample rate `16000`. -/
theorem rolloff_least_bin (w : List ℝ) (hne : w ≠ []) :
    (performSimpleFFT realCMath w).map (complexAbs realCMath)
        = (List.range w.length).map (binMag w)
    ∧ ∃ k : ℕ, k < w.length
      ∧ calculateSpectralRolloff realCMath w = (k : ℝ) * 16000 / (w.length : ℝ)
      ∧ 0.85 * (∑ i in Finset.range w.length, binMag w i)
          ≤ ∑ i in Finset.range (k + 1), binMag w i
      ∧ (∀ j, j < k →
          ∑ i in Finset.range (j + 1), binMag w i
            < 0.85 * (∑ i in Finset.range w.length, binMag w i))
      ∧ calculateSpectralRolloff realCMath w < 16000 := by
  refine ⟨fft_magnitudes w, ?_⟩
  have hn : 0 < w.length := List.length_pos.mpr hne
  have hn0 : (0 : ℝ) < (w.length : ℝ) := by exact_mod_cast hn
  have htotal : 0 ≤ ∑ i in Finset.range w.length, binMag w i :=
    Finset.sum_nonneg (fun i _ => binMag_nonneg w i)
  have hex : ∃ k, k < w.length
      ∧ 0.85 * (∑ i in Finset.range w.length, binMag w i)
          ≤ ∑ i in Finset.range (k + 1), binMag w i := by
    refine ⟨w.length - 1, by omega, ?_⟩
    rw [show w.length - 1 + 1 = w.length by omega]
    nlinarith
  classical
  let k := Nat.find hex
  have hk : k < w.length
      ∧ 0.85 * (∑ i in Finset.range w.length, binMag w i)
          ≤ ∑ i in Finset.range (k + 1), binMag w i := Nat.find_spec hex
  have hmin : ∀ j, j < k → ∑ i in Finset.range (j + 1), binMag w i
      < 0.85 * (∑ i in Finset.range w.length, binMag w i) := by
    intro j hj
    have := Nat.find_min hex hj
    push_neg at this
    exact this (lt_trans hj hk.1)
  have hscan : rolloffScan ((∑ i in Finset.range w.length, binMag w i) * 0.85)
      ((List.range w.length).map (binMag w)) 0 0 = some (0 + k) :=
    rolloffScan_eq_some _ _ 0 0 k (by simpa using hk.1)
      (fun p hp => by
        rw [zero_add, mul_comm, take_map_range_sum _ w.length (p + 1) (by omega)]
        exact hmin p hp)
      (by
        rw [zero_add, mul_comm, take_map_range_sum _ w.length (k + 1) (by omega)]
        exact hk.2)
  have hval : calculateSpectralRolloff realCMath w = (k : ℝ) * 16000 / (w.length : ℝ) := by
    rw [calculateSpectralRolloff_eq w hne, hscan]
    simp [YAMNetConfig.SAMPLE_RATE]
  refine ⟨k, hk.1, hval, hk.2, hmin, ?_⟩
  rw [hval, div_lt_iff₀ hn0]
  have : (k : ℝ) < (w.length : ℝ) := by exact_mod_cast hk.1
  nlinarith

theorem binRe_zero_window (w : List ℝ) (hz : ∀ x ∈ w, x = 0) (k : ℕ) : binRe w k = 0 := by
  unfold binRe
  apply Finset.sum_eq_zero
  intro t ht
  have : w.getD t 0 = 0 := by
    rw [List.getD_eq_getElem _ _ (Finset.mem_range.mp ht)]
    exact hz _ (List.getElem_mem _)
  rw [this, zero_mul]

theorem binIm_zero_window (w : List ℝ) (hz : ∀ x ∈ w, x = 0) (k : ℕ) : binIm w k = 0 := by
  unfold binIm
  apply Finset.sum_eq_zero
  intro t ht
  have : w.getD t 0 = 0 := by
    rw [List.getD_eq_getElem _ _ (Finset.mem_range.mp ht)]
    exact hz _ (List.getElem_mem _)
  rw [this, zero_mul]

theorem binMag_zero_window (w : List ℝ) (hz : ∀ x ∈ w, x = 0) (k : ℕ) : binMag w k = 0 := by
  unfold binMag
  rw [binRe_zero_window w hz, binIm_zero_window w hz]
  simp

theorem calculateSpectralRolloff_silent (w : List ℝ) (hne : w ≠ [])
    (hz : ∀ x ∈ w, x = 0) : calculateSpectralRolloff realCMath w = 0 := by
  have hn : 0 < w.length := List.length_pos.mpr hne
  have hM : ∑ i in Finset.range w.length, binMag w i = 0 :=
    Finset.sum_eq_zero (fun i _ => binMag_zero_window w hz i)
  rw [calculateSpectralRolloff_eq w hne, hM]
  rw [rolloffScan_eq_some ((0 : ℝ) * 0.85) _ 0 0 0 (by simpa using hn)
    (fun p hp => absurd hp (Nat.not_lt_zero p))
    (by
      rw [take_map_range_sum _ w.length (0 + 1) (by omega)]
      simp [binMag_zero_window w hz])]
  simp

/-- C18 (as stated, refuted). For the silent window of four samples the spectral
rolloff is `0`, not the Nyquist frequency `8000`. -/
theorem rolloff_silent_counterexample :
    calculateSpectralRolloff realCMath [0, 0, 0, 0] = 0
    ∧ calculateSpectralRolloff realCMath [0, 0, 0, 0]
        ≠ (YAMNetConfig.SAMPLE_RATE : ℝ) / 2 := by
  have h := calculateSpectralRolloff_silent [0, 0, 0, 0] (by simp) (by simp)
  refine ⟨h, ?_⟩
  rw [h]
  norm_num [YAMNetConfig.SAMPLE_RATE]

/-- C18 (amended). For every non-empty window whose samples are all zero,
`calculateSpectralRolloff` returns exactly `0`, the frequency of bin `0`: the
threshold is `0.85 · 0 = 0` and the running sum reaches it at the first bin. The
value is not the Nyquist frequency. -/
theorem rolloff_silent_window (w : List ℝ) (hne : w ≠ []) (hz : ∀ x ∈ w, x = 0) :
    calculateSpectralRolloff realCMath w = 0
    ∧ calculateSpectralRolloff realCMath w ≠ (YAMNetConfig.SAMPLE_RATE : ℝ) / 2 := by
  have h := calculateSpectralRolloff_silent w hne hz
  refine ⟨h, ?_⟩
  rw [h]
  norm_num [YAMNetConfig.SAMPLE_RATE]

/-- Witness for C18 on the silent window of two samples. -/
theorem rolloff_silent_window_witness :
    ([0, 0] : List ℝ) ≠ [] ∧ (∀ x ∈ ([0, 0] : List ℝ), x = 0)
    ∧ calculateSpectralRolloff realCMath [0, 0] = 0
    ∧ calculateSpectralRolloff realCMath [0, 0] ≠ (YAMNetConfig.SAMPLE_RATE : ℝ) / 2 :=
  ⟨by simp, by simp, rolloff_silent_window [0, 0] (by simp) (by simp)⟩

theorem binMag_unit_pulse (k : ℕ) : binMag [1, 0] k = 1 := by
  simp [binMag, binRe, binIm, Finset.sum_range_succ]

/-- Witness for C19 on the window `[1, 0]`: both bins have magnitude `1`, the
threshold is `1.7`, the least qualifying bin is `1`, and the rolloff is `8000`. -/
theorem rolloff_least_bin_witness :
    ([1, 0] : List ℝ) ≠ []
    ∧ binMag [1, 0] 0 = 1 ∧ binMag [1, 0] 1 = 1
    ∧ calculateSpectralRolloff realCMath [1, 0] = 8000 := by
  refine ⟨by simp, binMag_unit_pulse 0, binMag_unit_pulse 1, ?_⟩
  obtain ⟨_, k, hk, hval, hge, _, _⟩ := rolloff_least_bin [1, 0] (by simp)
  have hk2 : k < 2 := hk
  have hk1 : k = 1 := by
    rcases Nat.lt_or_ge k 1 with h | h
    · have h0 : k = 0 := by omega
      subst h0
      simp only [List.length_cons, List.length_nil, Finset.sum_range_succ,
        Finset.sum_range_zero, binMag_unit_pulse] at hge
      norm_num at hge
    · omega
  rw [hval, hk1]
  norm_num

end Rolloff

/-! ## Zero-crossing rate -/

section ZeroCrossing

variable {α : Type} [LinearOrderedField α]

theorem foldl_count_eq (P : ℕ → Bool) (l : List ℕ) (a : ℕ) :
    l.foldl (fun (c : ℕ) (i : ℕ) => if P i then c + 1 else c) a
      = a + (l.map (fun i => if P i then 1 else 0)).sum := by
  induction l generalizing a with
  | nil => simp
  | cons x xs ih =>
    simp only [List.foldl_cons, List.map_cons, List.sum_cons]
    rw [ih]
    split <;> omega

theorem sum_map_range'_one (f : ℕ → ℕ) (k : ℕ) :
    ((List.range' 1 k).map f).sum = ∑ i in Finset.Ico 1 (k + 1), f i := by
  induction k with
  | zero => simp
  | succ k ih =>
    rw [Finset.sum_Ico_succ_top (show 1 ≤ k + 1 by omega), List.range'_1_concat,
      List.map_append, List.sum_append, ih]
    simp [add_comm]

theorem crossings_eq_card (audioData : List α) (n : ℕ) :
    (List.range' 1 (n - 1)).foldl
        (fun (crossings : ℕ) (i : ℕ) =>
          if decide (audioData.getD i 0 ≥ 0) != decide (audioData.getD (i - 1) 0 ≥ 0)
          then crossings + 1 else crossings)
        0
      = ((Finset.Ico 1 n).filter (fun i =>
          ¬ (audioData.getD i 0 ≥ 0 ↔ audioData.getD (i - 1) 0 ≥ 0))).card := by
  rw [foldl_count_eq (fun i =>
    decide (audioData.getD i 0 ≥ 0) != decide (audioData.getD (i - 1) 0 ≥ 0)),
    zero_add, sum_map_range'_one, Finset.card_filter]
  cases n with
  | zero => simp
  | succ n' =>
    rw [show n' + 1 - 1 + 1 = n' + 1 by omega]
    apply Finset.sum_congr rfl
    intro i _
    by_cases h1 : audioData.getD i 0 ≥ 0 <;> by_cases h2 : audioData.getD (i - 1) 0 ≥ 0 <;>
      simp [h1, h2]

theorem calculateZeroCrossingRate_eq (audioData : List α) (hn : 2 ≤ audioData.length) :
    calculateZeroCrossingRate audioData
      = (((Finset.Ico 1 audioData.length).filter (fun i =>
          ¬ (audioData.getD i 0 ≥ 0 ↔ audioData.getD (i - 1) 0 ≥ 0))).card : α)
        / (audioData.length : α) := by
  unfold calculateZeroCrossingRate
  rw [if_neg (by omega), crossings_eq_card audioData audioData.length]

/-- C20 (as stated, refuted). The window `[1, -1]` has one adjacent pair and its
signs differ, yet the rate is `1/2`, not `1`; the alternating window of four
samples has rate `3/4`. -/
theorem zeroCrossingRate_counterexample :
    calculateZeroCrossingRate ([1, -1] : List ℚ) = 1 / 2
    ∧ calculateZeroCrossingRate ([1, -1] : List ℚ) ≠ 1
    ∧ calculateZeroCrossingRate ([1, -1, 1, -1] : List ℚ) = 3 / 4 := by
  refine ⟨?_, ?_, ?_⟩
  · norm_num [calculateZeroCrossingRate, List.range']
  · norm_num [calculateZeroCrossingRate, List.range']
  · norm_num [calculateZeroCrossingRate, List.range']

/-- C20 (amended). For every window of `n ≥ 2` samples, `calculateZeroCrossingRate`
is the number of indices `i` in `1 .. n-1` at which the tests `x[i] ≥ 0` and
`x[i-1] ≥ 0` differ, divided by `n` (the number of samples, not the number of
pairs); a window whose samples alternate in sign at every pair has rate
`(n - 1) / n`, which is below `1`. -/
theorem zeroCrossingRate_fraction (audioData : List α) (hn : 2 ≤ audioData.length) :
    calculateZeroCrossingRate audioData
      = (((Finset.Ico 1 audioData.length).filter (fun i =>
          ¬ (audioData.getD i 0 ≥ 0 ↔ audioData.getD (i - 1) 0 ≥ 0))).card : α)
        / (audioData.length : α)
    ∧ ((∀ i, 1 ≤ i → i < audioData.length →
          ¬ (audioData.getD i 0 ≥ 0 ↔ audioData.getD (i - 1) 0 ≥ 0)) →
        calculateZeroCrossingRate audioData
          = ((audioData.length : α) - 1) / (audioData.length : α)
        ∧ calculateZeroCrossingRate audioData < 1) := by
  have h := calculateZeroCrossingRate_eq audioData hn
  refine ⟨h, ?_⟩
  intro halt
  have hcard : ((Finset.Ico 1 audioData.length).filter (fun i =>
      ¬ (audioData.getD i 0 ≥ 0 ↔ audioData.getD (i - 1) 0 ≥ 0))).card
      = audioData.length - 1 := by
    rw [Finset.filter_true_of_mem (fun i hi => by
      have := Finset.mem_Ico.mp hi
      exact halt i this.1 this.2)]
    simp
  have hpos : (0 : α) < (audioData.length : α) := by
    have : 0 < audioData.length := by omega
    exact_mod_cast this
  rw [h, hcard, Nat.cast_sub (by omega)]
  refine ⟨by simp, ?_⟩
  rw [div_lt_one hpos]
  simp

/-- Witness for C20 on the window `[1, -1, 1]`. -/
theorem zeroCrossingRate_fraction_witness :
    2 ≤ ([1, -1, 1] : List ℚ).length
    ∧ calculateZeroCrossingRate ([1, -1, 1] : List ℚ)
        = (((Finset.Ico 1 ([1, -1, 1] : List ℚ).length).filter (fun i =>
            ¬ (([1, -1, 1] : List ℚ).getD i 0 ≥ 0
                ↔ ([1, -1, 1] : List ℚ).getD (i - 1) 0 ≥ 0))).card : ℚ)
          / (([1, -1, 1] : List ℚ).length : ℚ) :=
  ⟨by decide, (zeroCrossingRate_fraction [1, -1, 1] (by decide)).1⟩

end ZeroCrossing

/-! ## The empty window -/

section EmptyWindow

variable {α : Type} [LinearOrderedField α]

/-- C21. For the empty window each of the five feature functions
(`calculateAmplitude`, `calculateZeroCrossingRate`, `calculateSpectralCentroid`,
`calculateSpectralRolloff`, `calculateMFCC`) returns `0`, and `detectCoughRuleBased`
returns `isCough = false` with confidence `0` (and no class probabilities). Each of
them is a total function whose empty-window branch returns before any division or
transform, so nothing is raised. -/
theorem empty_window_features (m : CMath α) :
    calculateAmplitude ([] : List α) = 0
    ∧ calculateZeroCrossingRate ([] : List α) = 0
    ∧ calculateSpectralCentroid m [] = 0
    ∧ calculateSpectralRolloff m [] = 0
    ∧ calculateMFCC m [] = 0
    ∧ detectCoughRuleBased m [] = { isCough := false, confidence := 0, features := [],
                                     classProbabilities := [] }
    ∧ (detectCoughRuleBased m []).isCough = false
    ∧ (detectCoughRuleBased m []).confidence = 0 := by
  refine ⟨rfl, ?_, rfl, rfl, rfl, rfl, rfl, rfl⟩
  simp [calculateZeroCrossingRate]

end EmptyWindow

/-! ## Model path: preprocessing -/

section Preprocess

variable {α : Type} [LinearOrderedField α]

theorem clamp_range (x : α) : -1 ≤ clamp x (-1) 1 ∧ clamp x (-1) 1 ≤ 1 := by
  unfold clamp
  split_ifs with h1 h2
  · constructor <;> norm_num
  · constructor <;> norm_num
  · exact ⟨not_lt.mp h1, not_lt.mp h2⟩

theorem clamp_of_range (x : α) (h1 : -1 ≤ x) (h2 : x ≤ 1) : clamp x (-1) 1 = x := by
  unfold clamp
  rw [if_neg (not_lt.mpr h1), if_neg (not_lt.mpr h2)]

theorem preprocessAudioForModel_length (input : Option InputTensor) (w : List α) :
    (preprocessAudioForModel input w).length = expectedSize input := by
  unfold preprocessAudioForModel expectedSize
  simp only [List.length_append, List.length_map, List.length_take, List.length_replicate]
  omega

theorem preprocessAudioForModel_getD (input : Option InputTensor) (w : List α) (i : ℕ) :
    (preprocessAudioForModel input w).getD i 0
      = if i < min w.length (expectedSize input) then clamp (w.getD i 0) (-1) 1 else 0 := by
  unfold preprocessAudioForModel
  show ((List.map (fun x => clamp x (-1) 1) (List.take (min w.length (expectedSize input)) w))
    ++ List.replicate (expectedSize input - min w.length (expectedSize input)) 0).getD i 0 = _
  have hlen : (List.map (fun x => clamp x (-1 : α) 1)
      (List.take (min w.length (expectedSize input)) w)).length
      = min w.length (expectedSize input) := by
    simp
  by_cases hi : i < min w.length (expectedSize input)
  · rw [if_pos hi, List.getD_append _ _ _ _ (by rw [hlen]; exact hi)]
    have hiw : i < w.length := lt_of_lt_of_le hi (min_le_left _ _)
    rw [List.getD_eq_getElem _ _ (by rw [hlen]; exact hi), List.getD_eq_getElem _ _ hiw]
    simp [List.getElem_take]
  · rw [if_neg hi, List.getD_append_right _ _ _ _ (by rw [hlen]; exact not_lt.mp hi)]
    rw [List.getD_eq_getElem?_getD]
    by_cases h2 : i - (List.map (fun x => clamp x (-1 : α) 1)
      (List.take (min w.length (expectedSize input)) w)).length
        < expectedSize input - min w.length (expectedSize input)
    · rw [List.getElem?_replicate_of_lt h2]; rfl
    · rw [List.getElem?_eq_none (by simpa using h2)]; rfl

theorem preprocessAudioForModel_mem (input : Option InputTensor) (w : List α) (x : α)
    (hx : x ∈ preprocessAudioForModel input w) : -1 ≤ x ∧ x ≤ 1 := by
  unfold preprocessAudioForModel at hx
  simp only [List.mem_append, List.mem_map] at hx
  rcases hx with ⟨y, _, rfl⟩ | hx
  · exact clamp_range y
  · rw [List.eq_of_mem_replicate hx]
    constructor <;> norm_num

theorem map_clamp_of_range (l : List α) (h : ∀ x ∈ l, -1 ≤ x ∧ x ≤ 1) :
    l.map (fun x => clamp x (-1) 1) = l := by
  induction l with
  | nil => rfl
  | cons a t ih =>
    rw [List.map_cons, ih (fun x hx => h x (List.mem_cons_of_mem _ hx)),
      clamp_of_range a (h a (List.mem_cons_self _ _)).1 (h a (List.mem_cons_self _ _)).2]

theorem preprocessAudioForModel_idem (input : Option InputTensor) (w : List α) :
    preprocessAudioForModel input (preprocessAudioForModel input w)
      = preprocessAudioForModel input w := by
  have hlen := preprocessAudioForModel_length input w
  have hmem := preprocessAudioForModel_mem input w
  generalize preprocessAudioForModel input w = v at hlen hmem
  unfold preprocessAudioForModel
  show (List.map (fun x => clamp x (-1) 1) (List.take (min v.length (expectedSize input)) v))
    ++ List.replicate (expectedSize input - min v.length (expectedSize input)) 0 = v
  rw [hlen, min_self, Nat.sub_self, List.replicate_zero, List.append_nil, ← hlen,
    List.take_length, map_clamp_of_range v hmem]

/-- C26. For every window `w` and every input tensor (expected length `E`: the
product of its dimensions, or `16000` when the tensor is null; every `E` is the
expected length of some tensor), `preprocessAudioForModel` returns a vector of
length exactly `E` whose element `i` is `clamp(w[i], -1, 1)` for
`i < min(|w|, E)` and `0` for `min(|w|, E) ≤ i < E`; every element lies in
`[-1, 1]`, and applying the function to its own output returns that output. -/
theorem preprocessAudioForModel_contract (input : Option InputTensor) (w : List α) :
    (preprocessAudioForModel input w).length = expectedSize input
    ∧ (∀ i, i < min w.length (expectedSize input) →
        (preprocessAudioForModel input w).getD i 0 = clamp (w.getD i 0) (-1) 1)
    ∧ (∀ i, min w.length (expectedSize input) ≤ i → i < expectedSize input →
        (preprocessAudioForModel input w).getD i 0 = 0)
    ∧ (∀ x ∈ preprocessAudioForModel input w, -1 ≤ x ∧ x ≤ 1)
    ∧ preprocessAudioForModel input (preprocessAudioForModel input w)
        = preprocessAudioForModel input w
    ∧ (∀ E : ℕ, expectedSize (some { type := TensorType.float32, dims := [E], data := true }) = E)
    ∧ expectedSize none = 16000 := by
  refine ⟨preprocessAudioForModel_length input w, ?_, ?_, preprocessAudioForModel_mem input w,
    preprocessAudioForModel_idem input w, ?_, rfl⟩
  · intro i hi
    rw [preprocessAudioForModel_getD, if_pos hi]
  · intro i hi _
    rw [preprocessAudioForModel_getD, if_neg (not_lt.mpr hi)]
  · intro E
    simp [expectedSize]

end Preprocess

/-! ## Model path: post-processing -/

section Postprocess

variable {α : Type} [LinearOrderedField α]

theorem foldl_max_ge (l : List α) (a : α) : a ≤ l.foldl max a := by
  induction l generalizing a with
  | nil => exact le_refl a
  | cons x t ih => exact le_trans (le_max_left a x) (ih (max a x))

theorem foldl_max_ge_mem (l : List α) (a : α) : ∀ x ∈ l, x ≤ l.foldl max a := by
  induction l generalizing a with
  | nil => intro x hx; cases hx
  | cons y t ih =>
    intro x hx
    rcases List.mem_cons.mp hx with rfl | hx
    · exact le_trans (le_max_right a x) (foldl_max_ge t (max a x))
    · exact ih (max a y) x hx

theorem foldl_max_mem (l : List α) (a : α) : l.foldl max a = a ∨ l.foldl max a ∈ l := by
  induction l generalizing a with
  | nil => exact Or.inl rfl
  | cons y t ih =>
    rcases ih (max a y) with h | h
    · rcases max_choice a y with h2 | h2
      · exact Or.inl (by rw [List.foldl_cons, h, h2])
      · exact Or.inr (by rw [List.foldl_cons, h, h2]; exact List.mem_cons_self _ _)
    · exact Or.inr (List.mem_cons_of_mem _ h)

theorem postprocessModelOutput_yamnet (data : List α) (h : data.length = 521) :
    postprocessModelOutput (some { type := TensorType.float32, data := data })
      = postprocessYAMNetOutput data 521 := by
  simp [postprocessModelOutput, h]

theorem postprocessYAMNetOutput_confidence (data : List α) :
    (postprocessYAMNetOutput data 521).confidence
      = ((List.range 6).map (fun (i : ℕ) => data.getD i 0)).foldl max 0 := by
  simp [postprocessYAMNetOutput, CoughClasses.COUGH, CoughClasses.THROAT_CLEARING,
    CoughClasses.SNEEZE, CoughClasses.SNIFF, CoughClasses.BURP, CoughClasses.BELCH,
    List.range, List.range.loop]

theorem postprocessYAMNetOutput_isCough (data : List α) (n : ℕ) :
    ((postprocessYAMNetOutput data n).isCough = true
      ↔ (postprocessYAMNetOutput data n).confidence > 0.3) := by
  simp [postprocessYAMNetOutput]

/-- C24. For every 521-element float output vector whose values at class indices
`0..5` are non-negative (as probabilities are), model post-processing returns as
confidence the maximum of the values at class indices `0..5`: the confidence is
one of the six values and bounds each of them. `isCough` is true if and only if
that maximum exceeds `0.3`, that is, if and only if one of the six values exceeds
`0.3`. The values at indices `6..520` affect neither `isCough` nor the
confidence: a second 521-element vector that agrees at indices `0..5` gives the
same confidence and the same `isCough`. -/
theorem yamnet_confidence (data : List α) (h : data.length = 521)
    (hprob : ∀ i, i < 6 → 0 ≤ data.getD i 0) :
    (∃ i, i < 6 ∧ (postprocessModelOutput
        (some { type := TensorType.float32, data := data })).confidence = data.getD i 0)
    ∧ (∀ i, i < 6 → data.getD i 0 ≤ (postprocessModelOutput
        (some { type := TensorType.float32, data := data })).confidence)
    ∧ ((postprocessModelOutput
          (some { type := TensorType.float32, data := data })).isCough = true
        ↔ (postprocessModelOutput
          (some { type := TensorType.float32, data := data })).confidence > 0.3)
    ∧ ((postprocessModelOutput
          (some { type := TensorType.float32, data := data })).isCough = true
        ↔ ∃ i, i < 6 ∧ data.getD i 0 > 0.3)
    ∧ (∀ data2 : List α, data2.length = 521 → (∀ i, i < 6 → data2.getD i 0 = data.getD i 0) →
        (postprocessModelOutput
          (some { type := TensorType.float32, data := data2 })).confidence
          = (postprocessModelOutput
              (some { type := TensorType.float32, data := data })).confidence
        ∧ (postprocessModelOutput
          (some { type := TensorType.float32, data := data2 })).isCough
          = (postprocessModelOutput
              (some { type := TensorType.float32, data := data })).isCough) := by
  rw [postprocessModelOutput_yamnet _ h]
  have hc := postprocessYAMNetOutput_confidence data
  have hle : ∀ i, i < 6 → data.getD i 0 ≤ (postprocessYAMNetOutput data 521).confidence := by
    intro i hi
    rw [hc]
    exact foldl_max_ge_mem _ _ _ (List.mem_map.mpr ⟨i, List.mem_range.mpr hi, rfl⟩)
  have hmem : ∃ i, i < 6 ∧ (postprocessYAMNetOutput data 521).confidence = data.getD i 0 := by
    rcases foldl_max_mem ((List.range 6).map (fun (i : ℕ) => data.getD i 0)) 0 with hm | hm
    · have hz : (postprocessYAMNetOutput data 521).confidence = 0 := by rw [hc, hm]
      exact ⟨0, by norm_num, by
        rw [hz]; exact le_antisymm (hprob 0 (by norm_num)) (hz ▸ hle 0 (by norm_num))⟩
    · obtain ⟨i, hi, hv⟩ := List.mem_map.mp hm
      exact ⟨i, List.mem_range.mp hi, by rw [hc, hv]⟩
  have hiff := postprocessYAMNetOutput_isCough data 521
  refine ⟨hmem, hle, hiff, ?_, ?_⟩
  · rw [hiff]
    constructor
    · intro hgt
      obtain ⟨i, hi, hv⟩ := hmem
      exact ⟨i, hi, by rw [← hv]; exact hgt⟩
    · rintro ⟨i, hi, hgt⟩
      exact lt_of_lt_of_le hgt (hle i hi)
  · intro data2 h2 hsame
    rw [postprocessModelOutput_yamnet _ h2]
    have hcc : (postprocessYAMNetOutput data2 521).confidence
        = (postprocessYAMNetOutput data 521).confidence := by
      rw [hc, postprocessYAMNetOutput_confidence data2]
      congr 1
      exact List.map_congr_left (fun i hi => hsame i (List.mem_range.mp hi))
    refine ⟨hcc, ?_⟩
    have i2 := postprocessYAMNetOutput_isCough data2 521
    rw [hcc] at i2
    rw [Bool.eq_iff_iff, hiff, i2]

/-- Witness for C24: the 521-element output every element of which is `2/5` has
confidence `2/5` and is a cough. -/
theorem yamnet_confidence_witness :
    (∀ i, i < 6 → (2 / 5 : ℚ) ≤ (postprocessModelOutput (some
        { type := TensorType.float32,
          data := List.replicate 521 (2 / 5 : ℚ) })).confidence)
    ∧ (postprocessModelOutput (some
        { type := TensorType.float32,
          data := List.replicate 521 (2 / 5 : ℚ) })).confidence = 2 / 5
    ∧ (postprocessModelOutput (some
        { type := TensorType.float32,
          data := List.replicate 521 (2 / 5 : ℚ) })).isCough = true := by
  have hget : ∀ i, i < 6 → (List.replicate 521 (2 / 5 : ℚ)).getD i 0 = 2 / 5 := by
    intro i hi
    rw [List.getD_eq_getElem?_getD, List.getElem?_replicate_of_lt (by omega)]
    rfl
  have h := yamnet_confidence (List.replicate 521 (2 / 5 : ℚ)) (List.length_replicate _ _)
    (fun i hi => by rw [hget i hi]; norm_num)
  obtain ⟨⟨i, hi, hv⟩, hle, _, hiff, _⟩ := h
  rw [hget i hi] at hv
  refine ⟨fun j hj => ?_, hv, hiff.mpr ⟨0, by norm_num, ?_⟩⟩
  · have := hle j hj
    rwa [hget j hj] at this
  · rw [hget 0 (by norm_num)]
    norm_num

/-- C25. For every float output vector of cardinality other than 521, model
post-processing decides with threshold `0.5`: `isCough` is true if and only if the
confidence exceeds `0.5`. With exactly 2 elements the confidence is the element at
index `1`; with any other non-zero cardinality the confidence is the global
maximum of the vector (an element of it that bounds every element), so `isCough`
holds exactly when some element exceeds `0.5`. -/
theorem binary_and_generic_output (data : List α) (h521 : data.length ≠ 521) :
    ((postprocessModelOutput (some { type := TensorType.float32, data := data })).isCough = true
      ↔ (postprocessModelOutput
          (some { type := TensorType.float32, data := data })).confidence > 0.5)
    ∧ (data.length = 2 →
        (postprocessModelOutput
          (some { type := TensorType.float32, data := data })).confidence = data.getD 1 0
        ∧ ((postprocessModelOutput
            (some { type := TensorType.float32, data := data })).isCough = true
          ↔ data.getD 1 0 > 0.5))
    ∧ (data.length ≠ 2 → data.length ≠ 0 →
        (postprocessModelOutput
          (some { type := TensorType.float32, data := data })).confidence ∈ data
        ∧ (∀ x ∈ data, x ≤ (postprocessModelOutput
          (some { type := TensorType.float32, data := data })).confidence)
        ∧ ((postprocessModelOutput
            (some { type := TensorType.float32, data := data })).isCough = true
          ↔ ∃ x ∈ data, x > 0.5)) := by
  refine ⟨?_, ?_, ?_⟩
  · by_cases h2 : data.length = 2
    · simp [postprocessModelOutput, h521, h2, postprocessBinaryOutput]
    · simp [postprocessModelOutput, h521, h2, postprocessGenericOutput]
  · intro h2
    simp [postprocessModelOutput, h521, h2, postprocessBinaryOutput]
  · intro h2 h0
    have hconf : (postprocessModelOutput
        (some { type := TensorType.float32, data := data })).confidence
        = data.foldl max (data.headD 0) := by
      simp [postprocessModelOutput, h521, h2, postprocessGenericOutput]
    have hcough : ((postprocessModelOutput
        (some { type := TensorType.float32, data := data })).isCough = true
        ↔ data.foldl max (data.headD 0) > 0.5) := by
      simp [postprocessModelOutput, h521, h2, postprocessGenericOutput]
    rw [hconf, hcough]
    obtain ⟨a, t, rfl⟩ := List.exists_cons_of_ne_nil (List.length_pos.mp (Nat.pos_of_ne_zero h0))
    have hmem : (a :: t).foldl max ((a :: t).headD 0) ∈ a :: t := by
      rcases foldl_max_mem (a :: t) ((a :: t).headD 0) with hm | hm
      · rw [hm]; exact List.mem_cons_self _ _
      · exact hm
    refine ⟨hmem, foldl_max_ge_mem _ _, ?_⟩
    constructor
    · intro hgt
      exact ⟨_, hmem, hgt⟩
    · rintro ⟨x, hx, hgt⟩
      exact lt_of_lt_of_le hgt (foldl_max_ge_mem _ _ x hx)

/-- Witness for C25: the two-element output `[1/4, 3/4]`. -/
theorem binary_and_generic_output_witness :
    ((postprocessModelOutput
        (some { type := TensorType.float32, data := [(1 / 4 : ℚ), 3 / 4] })).isCough = true
      ↔ (postprocessModelOutput
        (some { type := TensorType.float32, data := [(1 / 4 : ℚ), 3 / 4] })).confidence > 0.5)
    ∧ (postprocessModelOutput
        (some { type := TensorType.float32, data := [(1 / 4 : ℚ), 3 / 4] })).confidence = 3 / 4 :=
  ⟨(binary_and_generic_output [(1 / 4 : ℚ), 3 / 4] (by decide)).1,
    ((binary_and_generic_output [(1 / 4 : ℚ), 3 / 4] (by decide)).2.1 rfl).1⟩

end Postprocess

/-! ## Rule-based decision table -/

section Decision

variable {α : Type} [LinearOrderedField α]

theorem ruleDecision_isCough_iff (p : Indicators) :
    (ruleDecision α p).isCough = true ↔ 60 < confidencePercent p := by
  have h := ruleConfidence_eq_percent (α := α) p
  show decide (ruleConfidence α p > 0.6) = true ↔ _
  rw [decide_eq_true_iff, h, gt_iff_lt, lt_div_iff₀ (by norm_num : (0 : α) < 100)]
  have : (0.6 : α) * 100 = ((60 : ℕ) : α) := by norm_num
  rw [this, Nat.cast_lt]

theorem percent_gt_sixty_iff (p : Indicators) :
    60 < confidencePercent p
      ↔ 3 ≤ p.count ∧ (p.hasHighAmplitude = true ∨ p.hasHighFrequencyContent = true) := by
  rcases p with ⟨a, z, c, r, f⟩
  cases a <;> cases z <;> cases c <;> cases r <;> cases f <;> decide

theorem detectCoughRuleBased_of_ne_nil (m : CMath α) (audioData : List α)
    (h : audioData ≠ []) :
    detectCoughRuleBased m audioData = ruleDecision α (windowIndicators m audioData) := by
  cases audioData with
  | nil => exact absurd rfl h
  | cons x t => rfl

theorem ruleDecision_isCough_threshold (p : Indicators) :
    (ruleDecision α p).isCough = true ↔ (ruleDecision α p).confidence > 0.6 := by
  show decide (ruleConfidence α p > 0.6) = true ↔ _
  rw [decide_eq_true_iff]
  rfl

theorem detectCoughRuleBased_threshold (m : CMath α) (audioData : List α) :
    (detectCoughRuleBased m audioData).isCough = true
      ↔ (detectCoughRuleBased m audioData).confidence > 0.6 := by
  cases audioData with
  | nil =>
    show false = true ↔ (0 : α) > 0.6
    constructor
    · intro h; cases h
    · intro h; norm_num at h
  | cons x t => exact ruleDecision_isCough_threshold _

/-- C28. Over exact arithmetic the rule-based decision depends on the five
predicates as follows: `isCough` is true if and only if at least 3 predicates hold
and one of them is the amplitude predicate or the spectral-centroid predicate.
Every combination of 4 or 5 true predicates yields a cough; every combination of 3
except {zero-crossing rate, spectral rolloff, mel energy score}, whose confidence
is exactly `0.6`, yields a cough; no combination of 2 or fewer does. The same
equivalence holds for `detectCoughRuleBased` on every non-empty window. -/
theorem ruleDecision_combinations (m : CMath α) (p : Indicators) :
    ((ruleDecision α p).isCough = true
      ↔ 3 ≤ p.count ∧ (p.hasHighAmplitude = true ∨ p.hasHighFrequencyContent = true))
    ∧ (4 ≤ p.count → (ruleDecision α p).isCough = true)
    ∧ (p.count = 3 →
        p ≠ Indicators.zcrRolloffMel →
        (ruleDecision α p).isCough = true)
    ∧ ((ruleDecision α Indicators.zcrRolloffMel).confidence = 0.6
        ∧ (ruleDecision α Indicators.zcrRolloffMel).isCough = false)
    ∧ (p.count ≤ 2 → (ruleDecision α p).isCough = false)
    ∧ (∀ audioData : List α, audioData ≠ [] →
        ((detectCoughRuleBased m audioData).isCough = true
          ↔ 3 ≤ (windowIndicators m audioData).count
            ∧ ((windowIndicators m audioData).hasHighAmplitude = true
              ∨ (windowIndicators m audioData).hasHighFrequencyContent = true))) := by
  have key : ∀ q : Indicators, ((ruleDecision α q).isCough = true
      ↔ 3 ≤ q.count ∧ (q.hasHighAmplitude = true ∨ q.hasHighFrequencyContent = true)) :=
    fun q => (ruleDecision_isCough_iff q).trans (percent_gt_sixty_iff q)
  refine ⟨key p, ?_, ?_, ⟨?_, ?_⟩, ?_, ?_⟩
  · intro h
    rw [key]
    revert h
    rcases p with ⟨a, z, c, r, f⟩
    cases a <;> cases z <;> cases c <;> cases r <;> cases f <;> decide
  · intro h hne
    rw [key]
    revert h hne
    rcases p with ⟨a, z, c, r, f⟩
    cases a <;> cases z <;> cases c <;> cases r <;> cases f <;> decide
  · show ruleConfidence α _ = 0.6
    rw [ruleConfidence_eq_percent]
    have : confidencePercent Indicators.zcrRolloffMel = 60 := by decide
    rw [this]
    norm_num
  · rw [Bool.eq_false_iff, Ne, key]
    decide
  · intro h
    rw [Bool.eq_false_iff, Ne, key]
    revert h
    rcases p with ⟨a, z, c, r, f⟩
    cases a <;> cases z <;> cases c <;> cases r <;> cases f <;> decide
  · intro audioData hne
    rw [detectCoughRuleBased_of_ne_nil m audioData hne]
    exact key _

end Decision

/-! ## A window on which the rule-based classifier reports a cough -/

section CoughWindow

open Real

theorem coughWindow_length : coughWindow.length = 12 := rfl

theorem coughWindow_ne_nil : coughWindow ≠ [] := by
  intro h
  have := coughWindow_length
  rw [h] at this
  cases this

theorem coughWindow_amplitude : calculateAmplitude coughWindow = 1 / 3 := by
  norm_num [calculateAmplitude, coughWindow]

theorem coughWindow_zeroCrossingRate : calculateZeroCrossingRate coughWindow = 1 / 6 := by
  norm_num [calculateZeroCrossingRate, coughWindow, List.range']

theorem coughWindow_binRe : binRe coughWindow 3 = 4 := by
  have h0 : cos (-2 * π * 3 * 0 / 12) = 1 := by
    rw [show (-2 * π * 3 * 0 / 12 : ℝ) = 0 by ring, cos_zero]
  have h4 : cos (-2 * π * 3 * 4 / 12) = 1 := by
    rw [show (-2 * π * 3 * 4 / 12 : ℝ) = -(2 * π) by ring, cos_neg, cos_two_pi]
  have h8 : cos (-2 * π * 3 * 8 / 12) = 1 := by
    rw [show (-2 * π * 3 * 8 / 12 : ℝ) = -(((2 : ℕ) : ℝ) * (2 * π)) by push_cast; ring,
      cos_neg, cos_nat_mul_two_pi]
  have h10 : cos (-2 * π * 3 * 10 / 12) = -1 := by
    rw [show (-2 * π * 3 * 10 / 12 : ℝ) = -(π + ((2 : ℕ) : ℝ) * (2 * π)) by push_cast; ring,
      cos_neg, cos_add_nat_mul_two_pi, cos_pi]
  unfold binRe
  rw [coughWindow_length]
  simp only [Finset.sum_range_succ, Finset.sum_range_zero, coughWindow, List.getD_cons_succ,
    List.getD_cons_zero, List.getD_nil]
  push_cast
  rw [h0, h4, h8, h10]
  norm_num

theorem coughWindow_binMag : 4 ≤ binMag coughWindow 3 := by
  unfold binMag
  rw [coughWindow_binRe, Real.le_sqrt' (by norm_num)]
  nlinarith [mul_self_nonneg (binIm coughWindow 3)]

theorem coughWindow_mfcc : 0.1 < calculateMFCC realCMath coughWindow := by
  have hE : (4 : ℝ) ≤ ∑ i in Finset.range coughWindow.length,
      (if (YAMNetConfig.MEL_MIN_FREQ : ℝ)
            ≤ (i : ℝ) * (YAMNetConfig.SAMPLE_RATE : ℝ) / (coughWindow.length : ℝ)
          ∧ (i : ℝ) * (YAMNetConfig.SAMPLE_RATE : ℝ) / (coughWindow.length : ℝ)
            ≤ (YAMNetConfig.MEL_MAX_FREQ : ℝ)
        then binMag coughWindow i else 0) := by
    refine le_trans ?_ (Finset.single_le_sum (fun i _ => ?_)
      (Finset.mem_range.mpr (show 3 < coughWindow.length by rw [coughWindow_length]; norm_num)))
    · rw [if_pos (by
        rw [coughWindow_length]
        norm_num [YAMNetConfig.MEL_MIN_FREQ, YAMNetConfig.MEL_MAX_FREQ,
          YAMNetConfig.SAMPLE_RATE])]
      exact coughWindow_binMag
    · split_ifs
      · exact binMag_nonneg _ _
      · exact le_refl _
  rw [calculateMFCC_eq coughWindow coughWindow_ne_nil, if_pos (by linarith)]
  have h2 := Real.log_two_gt_d9
  have hlog : Real.log 2 ≤ Real.log (∑ i in Finset.range coughWindow.length,
      (if (YAMNetConfig.MEL_MIN_FREQ : ℝ)
            ≤ (i : ℝ) * (YAMNetConfig.SAMPLE_RATE : ℝ) / (coughWindow.length : ℝ)
          ∧ (i : ℝ) * (YAMNetConfig.SAMPLE_RATE : ℝ) / (coughWindow.length : ℝ)
            ≤ (YAMNetConfig.MEL_MAX_FREQ : ℝ)
        then binMag coughWindow i else 0)) :=
    Real.log_le_log (by norm_num) (by linarith)
  show (0.1 : ℝ) < realCMath.log _
  have h3 : (0.1 : ℝ) < 0.6931471803 := by norm_num
  exact lt_of_lt_of_le (lt_trans h3 h2) hlog

theorem coughWindow_indicators :
    (windowIndicators realCMath coughWindow).hasHighAmplitude = true
    ∧ (windowIndicators realCMath coughWindow).hasModerateZCR = true
    ∧ (windowIndicators realCMath coughWindow).hasCoughMFCC = true := by
  have hm := coughWindow_mfcc
  unfold windowIndicators indicatorsOf
  rw [coughWindow_amplitude, coughWindow_zeroCrossingRate]
  refine ⟨?_, ?_, ?_⟩
  · norm_num
  · norm_num
  · exact decide_eq_true hm

theorem three_le_count (p : Indicators) (h1 : p.hasHighAmplitude = true)
    (h2 : p.hasModerateZCR = true) (h3 : p.hasCoughMFCC = true) :
    60 < confidencePercent p := by
  rcases p with ⟨a, z, c, r, f⟩
  simp only at h1 h2 h3
  subst h1 h2 h3
  cases c <;> cases r <;> decide

theorem coughWindow_isCough :
    (detectCoughRuleBased realCMath coughWindow).isCough = true
    ∧ (detectCoughRuleBased realCMath coughWindow).confidence > 0.6 := by
  have hi := coughWindow_indicators
  have hp := three_le_count _ hi.1 hi.2.1 hi.2.2
  have hd : detectCoughRuleBased realCMath coughWindow
      = ruleDecision ℝ (windowIndicators realCMath coughWindow) := rfl
  have hc : (ruleDecision ℝ (windowIndicators realCMath coughWindow)).confidence > 0.6 := by
    show ruleConfidence ℝ _ > 0.6
    rw [ruleConfidence_eq_percent, gt_iff_lt, lt_div_iff₀ (by norm_num : (0 : ℝ) < 100)]
    have : (0.6 : ℝ) * 100 = ((60 : ℕ) : ℝ) := by norm_num
    rw [this, Nat.cast_lt]
    exact hp
  rw [hd]
  exact ⟨decide_eq_true hc, hc⟩

end CoughWindow

/-! ## Model path: fallback and thresholds -/

section ModelFallback

variable {α : Type} [LinearOrderedField α]

theorem detectCoughWithModel_cases (m : CMath α) (run : InferenceRun α) (audioData : List α) :
    detectCoughWithModel m run audioData = detectCoughRuleBased m audioData
    ∨ ∃ tensor, run.invoke (preprocessAudioForModel run.input audioData)
          = InvokeReply.ok (some tensor)
        ∧ detectCoughWithModel m run audioData = postprocessModelOutput (some tensor) := by
  unfold detectCoughWithModel
  cases hin : run.input with
  | none => exact Or.inl rfl
  | some input_tensor =>
    dsimp only
    split_ifs with h1 h2 h3
    · exact Or.inl rfl
    · exact Or.inl rfl
    · cases hinv : run.invoke (preprocessAudioForModel (some input_tensor) audioData) with
      | failed => exact Or.inl rfl
      | raised => exact Or.inl rfl
      | ok output =>
        cases output with
        | none => exact Or.inl rfl
        | some tensor => exact Or.inr ⟨tensor, rfl, rfl⟩
    · exact Or.inl rfl

theorem detectCoughWithModel_invoke (m : CMath α) (run : InferenceRun α) (tensor : InputTensor)
    (audioData : List α) (hin : run.input = some tensor)
    (ht : tensor.type = TensorType.float32) (hd : tensor.data = true) :
    detectCoughWithModel m run audioData
      = match run.invoke (preprocessAudioForModel run.input audioData) with
        | InvokeReply.ok (some output_tensor) => postprocessModelOutput (some output_tensor)
        | _ => detectCoughRuleBased m audioData := by
  have hlen := preprocessAudioForModel_length (α := α) (some tensor) audioData
  unfold detectCoughWithModel
  simp only [hin, ht, hd, hlen, expectedSize, if_true, Bool.not_true, Bool.false_eq_true,
    if_false, ne_eq, not_true_eq_false]
  split <;> simp_all

theorem postprocessModelOutput_thresholds (tensor : OutputTensor α) :
    (tensor.type = TensorType.float32 → tensor.data.length = 521 →
      ((postprocessModelOutput (some tensor)).isCough = true
        ↔ (postprocessModelOutput (some tensor)).confidence > 0.3))
    ∧ (tensor.type = TensorType.float32 → tensor.data.length ≠ 521 →
      ((postprocessModelOutput (some tensor)).isCough = true
        ↔ (postprocessModelOutput (some tensor)).confidence > 0.5))
    ∧ (tensor.type ≠ TensorType.float32 →
      (postprocessModelOutput (some tensor)).isCough = false
      ∧ (postprocessModelOutput (some tensor)).confidence = 0) := by
  refine ⟨?_, ?_, ?_⟩
  · intro ht hl
    simp [postprocessModelOutput, ht, hl, postprocessYAMNetOutput]
  · intro ht hl
    by_cases h2 : tensor.data.length = 2
    · simp [postprocessModelOutput, ht, hl, h2, postprocessBinaryOutput]
    · simp [postprocessModelOutput, ht, hl, h2, postprocessGenericOutput]
  · intro ht
    simp [postprocessModelOutput, ht]

end ModelFallback

section ModelScenarios

open Real

/-- C23 (the code at the failing input). The interpreter's input tensor is float32
with twelve elements and the inference succeeds, but the first output tensor is
not float32. On the twelve-sample window `coughWindow` the rule-based classifier
reports a cough with confidence above `0.6`; `detectCoughWithModel` returns
`isCough = false` with confidence `0` and no class probabilities, which is not the
rule-based result. -/
theorem unsupported_output_no_fallback :
    detectCoughWithModel realCMath quantizedRun coughWindow
      = { isCough := false, confidence := 0, features := [], classProbabilities := [] }
    ∧ (detectCoughRuleBased realCMath coughWindow).isCough = true
    ∧ (detectCoughRuleBased realCMath coughWindow).confidence > 0.6
    ∧ detectCoughWithModel realCMath quantizedRun coughWindow
        ≠ detectCoughRuleBased realCMath coughWindow := by
  have h1 : detectCoughWithModel realCMath quantizedRun coughWindow
      = { isCough := false, confidence := 0, features := [], classProbabilities := [] } := by
    rw [detectCoughWithModel_invoke realCMath quantizedRun _ coughWindow rfl rfl rfl]
    rfl
  refine ⟨h1, coughWindow_isCough.1, coughWindow_isCough.2, ?_⟩
  intro h
  have h2 := coughWindow_isCough.1
  rw [← h, h1] at h2
  cases h2

theorem flakyRun_expectedSize : expectedSize flakyRun.input = 1600 := rfl

theorem flakyRun_pulse :
    detectCoughWithModel realCMath flakyRun [1]
      = postprocessYAMNetOutput ((0.32 : ℝ) :: List.replicate 520 0) 521 := by
  have h0 : (preprocessAudioForModel flakyRun.input ([1] : List ℝ)).getD 0 0 = 1 := by
    rw [preprocessAudioForModel_getD, flakyRun_expectedSize, if_pos (by norm_num)]
    norm_num [clamp]
  have hinv : flakyRun.invoke (preprocessAudioForModel flakyRun.input ([1] : List ℝ))
      = InvokeReply.ok (some { type := TensorType.float32,
                               data := (0.32 : ℝ) :: List.replicate 520 0 }) := by
    show (if _ then _ else _) = _
    rw [if_pos h0]
  rw [detectCoughWithModel_invoke realCMath flakyRun _ [1] rfl rfl rfl, hinv]
  exact postprocessModelOutput_yamnet _ (by rw [List.length_cons, List.length_replicate])

theorem flakyRun_tone :
    detectCoughWithModel realCMath flakyRun toneWindow
      = detectCoughRuleBased realCMath toneWindow := by
  have h0 : (preprocessAudioForModel flakyRun.input toneWindow).getD 0 0 = 0 := by
    rw [preprocessAudioForModel_getD, flakyRun_expectedSize, toneWindow_length,
      if_pos (by norm_num), toneWindow_getD 0 (by norm_num)]
    norm_num [clamp]
  have hinv : flakyRun.invoke (preprocessAudioForModel flakyRun.input toneWindow)
      = InvokeReply.failed := by
    show (if _ then _ else _) = _
    rw [if_neg (by rw [h0]; norm_num)]
  rw [detectCoughWithModel_invoke realCMath flakyRun _ toneWindow rfl rfl rfl, hinv]

theorem tone_rule_result :
    (detectCoughRuleBased realCMath toneWindow).confidence = 0.35
    ∧ (detectCoughRuleBased realCMath toneWindow).isCough = false := by
  constructor
  · simp only [detectCoughRuleBased, toneWindow_isEmpty, Bool.false_eq_true, if_false,
      tone_indicators]
    norm_num [ruleDecision, ruleConfidence, weightedScore, addIndicator, addBonus]
  · simp only [detectCoughRuleBased, toneWindow_isEmpty, Bool.false_eq_true, if_false,
      tone_indicators]
    norm_num [ruleDecision, ruleConfidence, weightedScore, addIndicator, addBonus]

theorem pulse_model_result :
    (postprocessYAMNetOutput ((0.32 : ℝ) :: List.replicate 520 0) 521).confidence = 0.32
    ∧ (postprocessYAMNetOutput ((0.32 : ℝ) :: List.replicate 520 0) 521).isCough = true := by
  have hc : (postprocessYAMNetOutput ((0.32 : ℝ) :: List.replicate 520 0) 521).confidence
      = 0.32 := by
    rw [postprocessYAMNetOutput_confidence]
    simp only [List.range, List.range.loop, List.map, List.foldl, List.getD_cons_zero,
      List.getD_cons_succ]
    have hz : ∀ i, i < 520 → (List.replicate 520 (0 : ℝ)).getD i 0 = 0 := by
      intro i hi
      rw [List.getD_eq_getElem?_getD, List.getElem?_replicate_of_lt hi]
      rfl
    rw [hz 0 (by norm_num), hz 1 (by norm_num), hz 2 (by norm_num), hz 3 (by norm_num),
      hz 4 (by norm_num)]
    norm_num
  refine ⟨hc, ?_⟩
  rw [postprocessYAMNetOutput_isCough, hc]
  norm_num

/-- C22 (as stated, refuted). One model-backed classifier with a 521-way output:
on the window `[1]` the inference succeeds and the result is a cough with
confidence `0.32`; on the tone window the inference fails and the fallback result
is no cough with confidence `0.35`. So no threshold `T`, and in particular not the
threshold `0.3` of its output cardinality, satisfies `isCough ⇔ confidence > T` on
every result this variant returns. -/
theorem model_threshold_counterexample :
    ((detectCoughWithModel realCMath flakyRun [1]).isCough = true
      ∧ (detectCoughWithModel realCMath flakyRun [1]).confidence = 0.32)
    ∧ ((detectCoughWithModel realCMath flakyRun toneWindow).isCough = false
      ∧ (detectCoughWithModel realCMath flakyRun toneWindow).confidence = 0.35)
    ∧ ¬ ∃ T : ℝ, ∀ audioData : List ℝ,
        ((detectCoughWithModel realCMath flakyRun audioData).isCough = true
          ↔ (detectCoughWithModel realCMath flakyRun audioData).confidence > T) := by
  have hp := pulse_model_result
  have ht := tone_rule_result
  refine ⟨?_, ?_, ?_⟩
  · rw [flakyRun_pulse]
    exact ⟨hp.2, hp.1⟩
  · rw [flakyRun_tone]
    exact ⟨ht.2, ht.1⟩
  · rintro ⟨T, hT⟩
    have h1 := (hT [1]).mp (by rw [flakyRun_pulse]; exact hp.2)
    have h2 := (hT toneWindow).mpr
    rw [flakyRun_pulse, hp.1] at h1
    rw [flakyRun_tone, ht.1, ht.2] at h2
    have h3 : (0.35 : ℝ) > T := lt_trans h1 (by norm_num)
    cases h2 h3

end ModelScenarios

section Thresholds

variable {α : Type} [LinearOrderedField α]

/-- C22 (amended). The threshold is fixed by the path that produces the result.
Every result of the rule-based classifier satisfies `isCough ⇔ confidence > 0.6`.
Every result of the model-backed classifier is either the rule-based result of the
same window (its fallback, threshold `0.6`) or the post-processed output tensor of
the inference; a post-processed float32 output satisfies
`isCough ⇔ confidence > 0.3` when it has 521 elements and
`isCough ⇔ confidence > 0.5` for any other cardinality, and the default result for
an output that is not float32 is `isCough = false` with confidence `0`. -/
theorem classifier_thresholds (m : CMath α) (run : InferenceRun α) (audioData : List α) :
    ((detectCoughRuleBased m audioData).isCough = true
      ↔ (detectCoughRuleBased m audioData).confidence > 0.6)
    ∧ (detectCoughWithModel m run audioData = detectCoughRuleBased m audioData
      ∨ ∃ tensor, run.invoke (preprocessAudioForModel run.input audioData)
            = InvokeReply.ok (some tensor)
          ∧ detectCoughWithModel m run audioData = postprocessModelOutput (some tensor))
    ∧ (∀ tensor : OutputTensor α,
        (tensor.type = TensorType.float32 → tensor.data.length = 521 →
          ((postprocessModelOutput (some tensor)).isCough = true
            ↔ (postprocessModelOutput (some tensor)).confidence > 0.3))
        ∧ (tensor.type = TensorType.float32 → tensor.data.length ≠ 521 →
          ((postprocessModelOutput (some tensor)).isCough = true
            ↔ (postprocessModelOutput (some tensor)).confidence > 0.5))
        ∧ (tensor.type ≠ TensorType.float32 →
          (postprocessModelOutput (some tensor)).isCough = false
          ∧ (postprocessModelOutput (some tensor)).confidence = 0)) :=
  ⟨detectCoughRuleBased_threshold m audioData, detectCoughWithModel_cases m run audioData,
    postprocessModelOutput_thresholds⟩

end Thresholds

/-! ## Engine traces -/

section EngineTraces

open CoughDetectEngine

variable {α : Type} [LinearOrderedField α]

theorem processAudioDataTry_clean (e : CoughDetectEngine α)
    (detect : List α → Except String (DetectionResult α)) (audioData : List α)
    (amplitude : α)
    (h : (e.processAudioDataTry detect audioData amplitude).escaped = none) :
    (e.processAudioData detect audioData amplitude).engine.state_ = e.state_
    ∧ (e.processAudioData detect audioData amplitude).engine.audioRecorder_
        = e.audioRecorder_ := by
  have hp : e.processAudioData detect audioData amplitude
      = e.processAudioDataTry detect audioData amplitude := by
    unfold processAudioData
    simp only [h]
  rw [hp]
  revert h
  unfold processAudioDataTry
  dsimp only
  by_cases hrec : e.state_ = EngineState.RECORDING
  · simp only [hrec, if_true]
    repeat' split
    all_goals simp
  · simp only [hrec, if_false]
    repeat' split
    all_goals simp

theorem engineInvariant_step (e : CoughDetectEngine α) (call : EngineCall α)
    (hinv : EngineInvariant e) (hclean : call.Clean e) : EngineInvariant (e.step call) := by
  obtain ⟨h1, h2⟩ := hinv
  simp only [AudioRecorder.isRecording, getState] at h1 h2
  unfold EngineInvariant
  simp only [AudioRecorder.isRecording, getState]
  cases call with
  | start reply =>
    have hr : reply = DeviceReply.ok := hclean
    subst hr
    show ((e.start DeviceReply.ok).2.audioRecorder_.isRecording_ = true
        ↔ (e.start DeviceReply.ok).2.state_ = EngineState.RECORDING)
      ∧ (e.start DeviceReply.ok).2.state_ ≠ EngineState.PROCESSING
    unfold CoughDetectEngine.start AudioRecorder.start
    cases hready : e.isReady_ <;> cases hrec : e.audioRecorder_.isRecording_ <;>
      cases hstream : e.audioRecorder_.audioStream_ <;> cases hst : e.state_ <;>
      simp_all
  | stop reply =>
    have hr : reply = DeviceReply.ok := hclean
    subst hr
    show ((e.stop DeviceReply.ok).audioRecorder_.isRecording_ = true
        ↔ (e.stop DeviceReply.ok).state_ = EngineState.RECORDING)
      ∧ (e.stop DeviceReply.ok).state_ ≠ EngineState.PROCESSING
    unfold CoughDetectEngine.stop AudioRecorder.stop
    cases hrec : e.audioRecorder_.isRecording_ <;>
      cases hstream : e.audioRecorder_.audioStream_ <;> cases hst : e.state_ <;>
      simp_all
  | pause reply =>
    have hr : reply = DeviceReply.ok := hclean
    subst hr
    show ((e.pause DeviceReply.ok).audioRecorder_.isRecording_ = true
        ↔ (e.pause DeviceReply.ok).state_ = EngineState.RECORDING)
      ∧ (e.pause DeviceReply.ok).state_ ≠ EngineState.PROCESSING
    unfold CoughDetectEngine.pause AudioRecorder.pause
    cases hrec : e.audioRecorder_.isRecording_ <;>
      cases hstream : e.audioRecorder_.audioStream_ <;> cases hst : e.state_ <;>
      simp_all
  | resume reply =>
    have hr : reply = DeviceReply.ok := hclean
    subst hr
    show ((e.resume DeviceReply.ok).audioRecorder_.isRecording_ = true
        ↔ (e.resume DeviceReply.ok).state_ = EngineState.RECORDING)
      ∧ (e.resume DeviceReply.ok).state_ ≠ EngineState.PROCESSING
    unfold CoughDetectEngine.resume AudioRecorder.resume
    cases hrec : e.audioRecorder_.isRecording_ <;>
      cases hstream : e.audioRecorder_.audioStream_ <;> cases hst : e.state_ <;>
      simp_all
  | release stopReply releaseReply =>
    have hr : stopReply = DeviceReply.ok ∧ releaseReply = DeviceReply.ok := hclean
    obtain ⟨hr1, hr2⟩ := hr
    subst hr1 hr2
    show ((e.release DeviceReply.ok DeviceReply.ok).audioRecorder_.isRecording_ = true
        ↔ (e.release DeviceReply.ok DeviceReply.ok).state_ = EngineState.RECORDING)
      ∧ (e.release DeviceReply.ok DeviceReply.ok).state_ ≠ EngineState.PROCESSING
    unfold CoughDetectEngine.release CoughDetectEngine.stop AudioRecorder.release
      AudioRecorder.stop
    cases hrec : e.audioRecorder_.isRecording_ <;>
      cases hstream : e.audioRecorder_.audioStream_ <;> cases hst : e.state_ <;>
      simp_all
  | window detect audioData amplitude =>
    have hc : (e.processAudioDataTry detect audioData amplitude).escaped = none := hclean
    obtain ⟨hs, hr⟩ := processAudioDataTry_clean e detect audioData amplitude hc
    show ((e.processAudioData detect audioData amplitude).engine.audioRecorder_.isRecording_
          = true
        ↔ (e.processAudioData detect audioData amplitude).engine.state_
          = EngineState.RECORDING)
      ∧ (e.processAudioData detect audioData amplitude).engine.state_
          ≠ EngineState.PROCESSING
    rw [hs, hr]
    exact ⟨h1, h2⟩

theorem engineInvariant_run (calls : List (EngineCall α)) (e : CoughDetectEngine α)
    (hinv : EngineInvariant e) (hclean : e.CleanRun calls) : EngineInvariant (e.run calls) := by
  induction calls generalizing e with
  | nil => exact hinv
  | cons call calls ih =>
    exact ih (e.step call) (engineInvariant_step e call hinv hclean.1) hclean.2

theorem engineInvariant_initialise (callback : Option (AudioEventCallback α))
    (modelPath : String) (openReply : OpenReply) (tfliteAvailable : Bool) (load : ModelLoad) :
    EngineInvariant (((CoughDetectEngine.new : CoughDetectEngine α).setAudioEventCallback
      callback).initialise modelPath openReply tfliteAvailable load).2 := by
  unfold EngineInvariant CoughDetectEngine.initialise AudioRecorder.initialise
  cases openReply with
  | opened b =>
    cases b <;>
      cases hw : ((CoughDetectEngine.new : CoughDetectEngine α).setAudioEventCallback
        callback).tensorFlowWrapper_.initialise tfliteAvailable modelPath load with
      | mk ok w => cases ok <;> simp [hw, getState, AudioRecorder.isRecording,
          setAudioEventCallback, CoughDetectEngine.new, AudioRecorder.new,
          AudioRecorder.setAudioDataCallback]
  | failed => simp [getState, AudioRecorder.isRecording,
          setAudioEventCallback, CoughDetectEngine.new, AudioRecorder.new]
  | raised => simp [getState, AudioRecorder.isRecording,
          setAudioEventCallback, CoughDetectEngine.new, AudioRecorder.new]

/-- C29. After a successful `initialize` of a fresh engine (with or without a
consumer registered), for every finite sequence of `start`, `stop`, `pause`,
`resume`, `release` calls and window deliveries in which the device accepts every
request and no window is handled with a fault, the state reached satisfies: the
capture session's `isRecording()` is true exactly when the engine state is
`RECORDING`, and the engine state is not `PROCESSING`. Every prefix of such a
sequence is such a sequence, so this holds between any two calls. -/
theorem recording_invariant (callback : Option (AudioEventCallback α))
    (modelPath : String) (openReply : OpenReply) (tfliteAvailable : Bool) (load : ModelLoad)
    (calls : List (EngineCall α))
    (hinit : (((CoughDetectEngine.new : CoughDetectEngine α).setAudioEventCallback
      callback).initialise modelPath openReply tfliteAvailable load).1 = true)
    (hclean : (((CoughDetectEngine.new : CoughDetectEngine α).setAudioEventCallback
      callback).initialise modelPath openReply tfliteAvailable load).2.CleanRun calls) :
    (((((CoughDetectEngine.new : CoughDetectEngine α).setAudioEventCallback
        callback).initialise modelPath openReply tfliteAvailable load).2.run
          calls).audioRecorder_.isRecording = true
      ↔ ((((CoughDetectEngine.new : CoughDetectEngine α).setAudioEventCallback
        callback).initialise modelPath openReply tfliteAvailable load).2.run
          calls).getState = EngineState.RECORDING)
    ∧ ((((CoughDetectEngine.new : CoughDetectEngine α).setAudioEventCallback
        callback).initialise modelPath openReply tfliteAvailable load).2.run
          calls).getState ≠ EngineState.PROCESSING := by
  have _hready := hinit
  exact engineInvariant_run calls _
    (engineInvariant_initialise callback modelPath openReply tfliteAvailable load) hclean

/-- Witness for C29: the trace `initialize; start; window with a cough; pause;
window; resume` with an accepting consumer and an accepting device ends in
`RECORDING` with the capture session recording. -/
theorem recording_invariant_witness :
    ((((CoughDetectEngine.new : CoughDetectEngine ℚ).setAudioEventCallback
        (some acceptingHandler)).initialise "" (OpenReply.opened true) false
          ModelLoad.modelMissing).2.run
        [EngineCall.start DeviceReply.ok, EngineCall.window coughDetect [0, 0] (1 / 2),
         EngineCall.pause DeviceReply.ok, EngineCall.window quietDetect [0, 0] (1 / 2),
         EngineCall.resume DeviceReply.ok]).getState = EngineState.RECORDING
    ∧ ((((CoughDetectEngine.new : CoughDetectEngine ℚ).setAudioEventCallback
        (some acceptingHandler)).initialise "" (OpenReply.opened true) false
          ModelLoad.modelMissing).2.run
        [EngineCall.start DeviceReply.ok, EngineCall.window coughDetect [0, 0] (1 / 2),
         EngineCall.pause DeviceReply.ok, EngineCall.window quietDetect [0, 0] (1 / 2),
         EngineCall.resume DeviceReply.ok]).audioRecorder_.isRecording = true :=
  have h := recording_invariant (some acceptingHandler) "" (OpenReply.opened true) false
    ModelLoad.modelMissing
    [EngineCall.start DeviceReply.ok, EngineCall.window coughDetect [0, 0] (1 / 2),
     EngineCall.pause DeviceReply.ok, EngineCall.window quietDetect [0, 0] (1 / 2),
     EngineCall.resume DeviceReply.ok] rfl ⟨rfl, rfl, rfl, rfl, rfl, trivial⟩
  ⟨rfl, h.1.mpr rfl⟩

/-- C30 (the code at the failing input). A ready engine that was never started
(state `IDLE`, capture session not recording) has a consumer whose handler raises
on the level event and accepts the other events. One window delivered to it emits
the level event and an error event, no exception leaves the call, and the state
on return is `RECORDING`, not `IDLE`, while the capture session is still not
recording; a following `start()` returns true without changing anything, so no
start request reaches the device. The same window delivered in `PAUSED` also
returns in `RECORDING`. -/
theorem idle_window_fault_state :
    idleEngineRejectingLevel.getState = EngineState.IDLE
    ∧ idleEngineRejectingLevel.audioRecorder_.isRecording = false
    ∧ (idleEngineRejectingLevel.processAudioData quietDetect [0, 0] (1 / 2)).events
        = [CoughDetectEngine.levelEvent (1 / 2), CoughDetectEngine.errorEvent "handler failed"]
    ∧ (idleEngineRejectingLevel.processAudioData quietDetect [0, 0] (1 / 2)).escaped = none
    ∧ (idleEngineRejectingLevel.processAudioData quietDetect [0, 0]
        (1 / 2)).engine.getState = EngineState.RECORDING
    ∧ (idleEngineRejectingLevel.processAudioData quietDetect [0, 0]
        (1 / 2)).engine.audioRecorder_.isRecording = false
    ∧ ((idleEngineRejectingLevel.processAudioData quietDetect [0, 0]
        (1 / 2)).engine.start DeviceReply.ok)
        = (true, (idleEngineRejectingLevel.processAudioData quietDetect [0, 0]
            (1 / 2)).engine)
    ∧ pausedEngineRejectingLevel.getState = EngineState.PAUSED
    ∧ (pausedEngineRejectingLevel.processAudioData quietDetect [0, 0]
        (1 / 2)).engine.getState = EngineState.RECORDING :=
  ⟨rfl, rfl, rfl, rfl, rfl, rfl, rfl, rfl, rfl⟩

end EngineTraces

/-! ## Spectral centroid and the share of the first bin -/

section Centroid

open Real

/-- Inversion of the transform: the samples are recovered from the bins. -/
theorem dft_inverse (w : List ℝ) (s : ℕ) (hs : s < w.length) :
    ∑ k in Finset.range w.length,
        (binRe w k * cos (2 * π * (k : ℝ) * (s : ℝ) / (w.length : ℝ))
          - binIm w k * sin (2 * π * (k : ℝ) * (s : ℝ) / (w.length : ℝ)))
      = (w.length : ℝ) * w.getD s 0 := by
  have hn : 0 < w.length := lt_of_le_of_lt (Nat.zero_le _) hs
  have hn0 : (w.length : ℝ) ≠ 0 := by exact_mod_cast hn.ne'
  have h1 : ∀ k ∈ Finset.range w.length,
      (binRe w k * cos (2 * π * (k : ℝ) * (s : ℝ) / (w.length : ℝ))
          - binIm w k * sin (2 * π * (k : ℝ) * (s : ℝ) / (w.length : ℝ)))
        = ∑ t in Finset.range w.length, w.getD t 0
            * cos ((k : ℝ) * (2 * π * (((s : ℤ) - (t : ℤ) : ℤ) : ℝ) / (w.length : ℝ))) := by
    intro k _
    unfold binRe binIm
    rw [Finset.sum_mul, Finset.sum_mul, ← Finset.sum_sub_distrib]
    apply Finset.sum_congr rfl
    intro t _
    rw [show (k : ℝ) * (2 * π * (((s : ℤ) - (t : ℤ) : ℤ) : ℝ) / (w.length : ℝ))
        = -2 * π * (k : ℝ) * (t : ℝ) / (w.length : ℝ)
          + 2 * π * (k : ℝ) * (s : ℝ) / (w.length : ℝ) by push_cast; field_simp; ring,
      cos_add]
    ring
  rw [Finset.sum_congr rfl h1, Finset.sum_comm]
  have h2 : ∀ t ∈ Finset.range w.length,
      ∑ k in Finset.range w.length, w.getD t 0
          * cos ((k : ℝ) * (2 * π * (((s : ℤ) - (t : ℤ) : ℤ) : ℝ) / (w.length : ℝ)))
        = if t = s then (w.length : ℝ) * w.getD s 0 else 0 := by
    intro t ht
    rw [← Finset.mul_sum, sum_cos_int w.length hn]
    have ht2 := Finset.mem_range.mp ht
    by_cases hts : t = s
    · subst hts
      rw [if_pos (by simp), if_pos rfl, mul_comm]
    · rw [if_neg hts, if_neg, mul_zero]
      intro hdiv
      obtain ⟨c, hc⟩ := hdiv
      have hc0 : c = 0 := by
        by_contra hne
        rcases lt_or_gt_of_ne hne with hlt | hgt
        · have : (w.length : ℤ) * c ≤ -(w.length : ℤ) := by nlinarith
          omega
        · have : (w.length : ℤ) ≤ (w.length : ℤ) * c := by nlinarith
          omega
      rw [hc0, mul_zero] at hc
      exact hts (by omega)
  rw [Finset.sum_congr rfl h2, Finset.sum_ite_eq' (Finset.range w.length) s, if_pos (Finset.mem_range.mpr hs)]

theorem binMag_eq_zero (w : List ℝ) (k : ℕ) (h : binMag w k = 0) :
    binRe w k = 0 ∧ binIm w k = 0 := by
  unfold binMag at h
  have h2 : binRe w k * binRe w k + binIm w k * binIm w k ≤ 0 := Real.sqrt_eq_zero'.mp h
  constructor <;> nlinarith [mul_self_nonneg (binRe w k), mul_self_nonneg (binIm w k)]

theorem total_magnitude_pos (w : List ℝ) (hx : ∃ x ∈ w, x ≠ 0) :
    0 < ∑ i in Finset.range w.length, binMag w i := by
  by_contra hnot
  have hzero : ∑ i in Finset.range w.length, binMag w i = 0 :=
    le_antisymm (not_lt.mp hnot) (Finset.sum_nonneg (fun i _ => binMag_nonneg w i))
  have hall : ∀ i ∈ Finset.range w.length, binMag w i = 0 :=
    (Finset.sum_eq_zero_iff_of_nonneg (fun i _ => binMag_nonneg w i)).mp hzero
  obtain ⟨x, hxw, hx0⟩ := hx
  obtain ⟨s, hs, rfl⟩ := List.getElem_of_mem hxw
  have hinv := dft_inverse w s hs
  rw [Finset.sum_eq_zero (fun k hk => by
    rw [(binMag_eq_zero w k (hall k hk)).1, (binMag_eq_zero w k (hall k hk)).2]; ring)] at hinv
  have hn0 : (w.length : ℝ) ≠ 0 := by
    have : 0 < w.length := lt_of_le_of_lt (Nat.zero_le _) hs
    exact_mod_cast this.ne'
  rw [List.getD_eq_getElem _ _ hs] at hinv
  rcases mul_eq_zero.mp hinv.symm with h | h
  · exact hn0 h
  · exact hx0 h

theorem getD_sum_range (w : List ℝ) : ∑ t in Finset.range w.length, w.getD t 0 = w.sum := by
  induction w using List.reverseRecOn with
  | nil => simp
  | append_singleton l a ih =>
    rw [List.length_append, List.length_singleton, Finset.sum_range_succ, List.sum_append,
      List.sum_singleton, ← ih]
    congr 1
    · apply Finset.sum_congr rfl
      intro t ht
      rw [List.getD_append _ _ _ _ (Finset.mem_range.mp ht)]
    · rw [List.getD_append_right _ _ _ _ (le_refl _)]
      simp

theorem binMag_zero_bin (w : List ℝ) : binMag w 0 = |w.sum| := by
  have hre : binRe w 0 = w.sum := by
    unfold binRe
    rw [← getD_sum_range]
    apply Finset.sum_congr rfl
    intro t _
    simp
  have him : binIm w 0 = 0 := by
    unfold binIm
    apply Finset.sum_eq_zero
    intro t _
    simp
  unfold binMag
  rw [hre, him, mul_zero, add_zero, Real.sqrt_mul_self_eq_abs]

theorem spectrumMagnitudes_eq (w : List ℝ) :
    spectrumMagnitudes w = (List.range w.length).map (binMag w) := fft_magnitudes w

theorem spectrumMagnitudes_sum (w : List ℝ) :
    (spectrumMagnitudes w).sum = ∑ i in Finset.range w.length, binMag w i := by
  rw [spectrumMagnitudes_eq, sum_map_range]

theorem spectrumMagnitudes_getD (w : List ℝ) (k : ℕ) (hk : k < w.length) :
    (spectrumMagnitudes w).getD k 0 = binMag w k := by
  rw [spectrumMagnitudes_eq, List.getD_eq_getElem _ _ (by simpa using hk)]
  simp

/-- C27. Over exact real arithmetic, for every non-empty window `w` of `N`
samples, with `|X[k]|` the bin magnitudes the source computes and `M` their sum
over all `N` bins: the magnitudes are mirror-symmetric, `|X[N-k]| = |X[k]|` for
`1 ≤ k < N`; when `M > 0` the value of `calculateSpectralCentroid` is
`8000 * (1 - |X[0]| / M)`; a window that is not all-zero has `M > 0`, and if its
samples also sum to `0` its centroid is exactly `8000`; and the predicate
`800 < spectralCentroid < 3000` holds exactly when `M > 0` and
`0.625 < |X[0]| / M < 0.9`. -/
theorem centroid_dc_share (w : List ℝ) (hne : w ≠ []) :
    (spectrumMagnitudes w).length = w.length
    ∧ (∀ k, 1 ≤ k → k < w.length →
        (spectrumMagnitudes w).getD (w.length - k) 0 = (spectrumMagnitudes w).getD k 0)
    ∧ (0 < (spectrumMagnitudes w).sum →
        calculateSpectralCentroid realCMath w
          = 8000 * (1 - (spectrumMagnitudes w).getD 0 0 / (spectrumMagnitudes w).sum))
    ∧ ((∃ x ∈ w, x ≠ 0) → 0 < (spectrumMagnitudes w).sum)
    ∧ ((∃ x ∈ w, x ≠ 0) → w.sum = 0 → calculateSpectralCentroid realCMath w = 8000)
    ∧ ((800 < calculateSpectralCentroid realCMath w
          ∧ calculateSpectralCentroid realCMath w < 3000)
        ↔ (0 < (spectrumMagnitudes w).sum
          ∧ 0.625 < (spectrumMagnitudes w).getD 0 0 / (spectrumMagnitudes w).sum
          ∧ (spectrumMagnitudes w).getD 0 0 / (spectrumMagnitudes w).sum < 0.9)) := by
  have hn : 0 < w.length := List.length_pos.mpr hne
  have hsum := spectrumMagnitudes_sum w
  have h0 := spectrumMagnitudes_getD w 0 hn
  have hform : 0 < (spectrumMagnitudes w).sum →
      calculateSpectralCentroid realCMath w
        = 8000 * (1 - (spectrumMagnitudes w).getD 0 0 / (spectrumMagnitudes w).sum) := by
    intro hM
    rw [hsum] at hM ⊢
    rw [h0]
    exact calculateSpectralCentroid_symm w hne hM
  refine ⟨?_, ?_, hform, ?_, ?_, ?_⟩
  · rw [spectrumMagnitudes_eq]
    simp
  · intro k hk1 hk2
    rw [spectrumMagnitudes_getD w k hk2, spectrumMagnitudes_getD w (w.length - k) (by omega)]
    exact binMag_reflect w k (le_of_lt hk2) hn
  · intro hx
    rw [hsum]
    exact total_magnitude_pos w hx
  · intro hx hz
    have hM : 0 < (spectrumMagnitudes w).sum := by
      rw [hsum]; exact total_magnitude_pos w hx
    rw [hform hM, h0, binMag_zero_bin, hz]
    simp
  · by_cases hM : 0 < (spectrumMagnitudes w).sum
    · rw [hform hM]
      constructor
      · rintro ⟨h1, h2⟩
        refine ⟨hM, ?_, ?_⟩ <;> norm_num at h1 h2 ⊢ <;> linarith
      · rintro ⟨_, h1, h2⟩
        constructor <;> norm_num at h1 h2 ⊢ <;> linarith
    · have hc : calculateSpectralCentroid realCMath w = 0 := by
        rw [calculateSpectralCentroid_eq w hne, ← hsum, if_neg hM]
      rw [hc]
      constructor
      · rintro ⟨h1, _⟩
        norm_num at h1
      · rintro ⟨h1, _⟩
        exact absurd h1 hM

/-- Witness for C27: the window `[1, -1]` is not all-zero and sums to `0`, so its
centroid is `8000`. -/
theorem centroid_dc_share_witness :
    calculateSpectralCentroid realCMath [1, -1] = 8000 :=
  (centroid_dc_share [1, -1] (by simp)).2.2.2.2.1 ⟨1, by simp, by norm_num⟩ (by norm_num)

end Centroid

end coughdetect
